import Mathlib

/-!
# DirectoryService search node (`CSearchNode.cpp`): a shallow embedding

The development follows `src/PlugIns/Search/CSearchNode.cpp`.

* Byte buffers are functions from a position to a byte; every `memcpy` out of a
  buffer is recorded in a read trace, so that statements about which positions the
  code touches can be made.
* `uInt32` arithmetic is arithmetic on `Nat` reduced modulo `2^32`, `uInt16`
  values are reduced modulo `2^16`.
* In the accessors the pointer `p` and the counter `offset` are advanced in
  lock-step, so a read through `p` is a read at position `offset`.
* Multi-byte integers are stored in the byte order of the host; the order is the
  parameter `be` (`true` for big-endian) of every function that reads or writes one.
* `calloc` and `new` are taken to succeed.
-/

namespace DirectoryService

/-! ## Status codes -/

/-- The `sInt32` status values that `CSearchNode.cpp` names; `other` stands for any
status of a collaborator that the file does not name. -/
inductive tDirStatus
  | eDSNoErr
  | eDSOpenNodeFailed
  | eDSInvalidNodeRef
  | eDSBadContextData
  | eDSInvalidContinueData
  | eDSInvalidContext
  | eDSInvalidIndex
  | eDSInvalidBuffFormat
  | eDSBufferTooSmall
  | eDSEmptyBuffer
  | eDSCorruptBuffer
  | eDSNullDataBuff
  | eDSNullParameter
  | eDSRecordNotFound
  | eDSInvalidRecordName
  | eDSInvalidRecordType
  | eDSPermissionError
  | eDSPlugInConfigFileError
  | eDSInvalidAttrListRef
  | eDSInvalidAttrValueRef
  | eMemoryError
  | eMemoryAllocError
  | eSearchPathNotDefined
  | eNoSearchNodesFound
  | eDSEmptyNodeInfoTypeList
  | kEndOfSearchNodeList
  | kBuffFull
  | other (code : Int)
  deriving DecidableEq, Repr

open tDirStatus

deriving instance DecidableEq for Except

/-! ## Bytes, fixed-width integers and buffers -/

/-- The number of `uInt32` values. -/
def U32 : Nat := 4294967296

/-- The number of `uInt16` values. -/
def U16 : Nat := 65536

/-- Addition of two `uInt32` values. -/
def add32 (a b : Nat) : Nat := (a + b) % U32

/-- The bytes reachable from `fBufferData`, by position. -/
abbrev Mem := Nat → Nat

/-- The memory whose first bytes are `bytes`, followed by zeroes. -/
def memOf (bytes : List Nat) : Mem := fun i => bytes.getD i 0

/-- One read of `len` bytes starting at position `pos`. -/
abbrev Read := Nat × Nat

/-- The read stays below `size`: it touches no position `≥ size`. -/
def Read.within (size : Nat) (r : Read) : Prop := r.2 = 0 ∨ r.1 + r.2 ≤ size

instance (size : Nat) (r : Read) : Decidable (Read.within size r) := by
  unfold Read.within; infer_instance

/-- What `::memcpy( &us, p, 2 )` stores in a `uInt16`, `p` being at position `p`. -/
def rd16 (be : Bool) (mem : Mem) (p : Nat) : Nat :=
  if be then (mem p % 256) * 256 + mem (p + 1) % 256
  else mem p % 256 + (mem (p + 1) % 256) * 256

/-- What `::memcpy( &ui, p, 4 )` stores in a `uInt32`. -/
def rd32 (be : Bool) (mem : Mem) (p : Nat) : Nat :=
  if be then
    (mem p % 256) * 16777216 + (mem (p + 1) % 256) * 65536
      + (mem (p + 2) % 256) * 256 + mem (p + 3) % 256
  else
    mem p % 256 + (mem (p + 1) % 256) * 256
      + (mem (p + 2) % 256) * 65536 + (mem (p + 3) % 256) * 16777216

/-- What `::memcpy( dst, p, len )` copies. -/
def rdBytes (mem : Mem) (p len : Nat) : List Nat := (List.range len).map (fun i => mem (p + i))

/-- The two bytes of a `uInt16` in host order. -/
def enc16 (be : Bool) (v : Nat) : List Nat :=
  if be then [v / 256 % 256, v % 256] else [v % 256, v / 256 % 256]

/-- The four bytes of a `uInt32` in host order. -/
def enc32 (be : Bool) (v : Nat) : List Nat :=
  if be then [v / 16777216 % 256, v / 65536 % 256, v / 256 % 256, v % 256]
  else [v % 256, v / 256 % 256, v / 65536 % 256, v / 16777216 % 256]

/-! ## `GetAttributeValue` -/

/-- What `GetAttributeValue` hands back in `fOutAttrValue`: `fBufferLength` is the
declared length, the data are the `fBufferLength` bytes copied from position
`fDataPos`. -/
structure AttrValueOut where
  fBufferLength : Nat
  fDataPos : Nat
  fAttributeValueID : Nat
  deriving DecidableEq, Repr

/-- The bytes `::memcpy( pAttrValue->fAttributeValueData.fBufferData, p, usValueLen )`
copies. -/
def AttrValueOut.fBufferData (mem : Mem) (v : AttrValueOut) : List Nat :=
  rdBytes mem v.fDataPos v.fBufferLength

/-- The loop `for ( i = 1; i < uiIndex; i++ )` of `GetAttributeValue` (and the same
loop of `GetAttributeEntry`, there against `buffSize`), run `n` times from `offset`:
the reads it makes and the offset it ends at. -/
def skipBlocks (be : Bool) (mem : Mem) (limit : Nat) : Nat → Nat → List Read × Except tDirStatus Nat
  | 0, offset => ([], .ok offset)
  | n + 1, offset =>
    if add32 4 offset > limit then ([], .error eDSInvalidBuffFormat)
    else
      let usLen := rd32 be mem offset
      let r := skipBlocks be mem limit n (add32 offset (add32 4 usLen))
      ((offset, 4) :: r.1, r.2)

/-- `CSearchNode::GetAttributeValue` (lines 3192-3311) on the buffer `mem` of
`fBufferSize = buffSize`, the value-list context at `ctxOffset` and
`fInAttrValueIndex = uiIndex`: the reads made, and the status or the value entry. -/
def GetAttributeValue (be : Bool) (mem : Mem) (buffSize ctxOffset uiIndex : Nat) :
    List Read × Except tDirStatus AttrValueOut :=
  if uiIndex = 0 then ([], .error eDSInvalidIndex)
  else
    let offset := ctxOffset
    if add32 4 offset > buffSize then ([], .error eDSInvalidBuffFormat)
    else
      let attrLen := rd32 be mem offset
      let r1 : List Read := [(offset, 4)]
      let buffLen := add32 (add32 attrLen ctxOffset) 4
      if buffLen > buffSize then (r1, .error eDSInvalidBuffFormat)
      else
        let offset := add32 offset 4
        if add32 2 offset > buffLen then (r1, .error eDSInvalidBuffFormat)
        else
          let usAttrNameLen := rd16 be mem offset
          let r2 := r1 ++ [(offset, 2)]
          let offset := add32 offset (2 + usAttrNameLen)
          if add32 2 offset > buffLen then (r2, .error eDSInvalidBuffFormat)
          else
            let usValueCnt := rd16 be mem offset
            let r3 := r2 ++ [(offset, 2)]
            let offset := add32 offset 2
            if uiIndex > usValueCnt then (r3, .error eDSInvalidIndex)
            else
              match skipBlocks be mem buffLen (uiIndex - 1) offset with
              | (rs, .error e) => (r3 ++ rs, .error e)
              | (rs, .ok offset) =>
                let r4 := r3 ++ rs
                if add32 4 offset > buffLen then (r4, .error eDSInvalidBuffFormat)
                else
                  let usValueLen := rd32 be mem offset
                  let r5 := r4 ++ [(offset, 4)]
                  let offset := add32 offset 4
                  if add32 usValueLen offset > buffLen then (r5, .error eDSInvalidBuffFormat)
                  else
                    (r5 ++ [(offset, usValueLen)],
                      .ok { fBufferLength := usValueLen, fDataPos := offset, fAttributeValueID := 0 })

/-! ## `GetAttributeEntry` -/

/-- What `GetAttributeEntry` hands back: the attribute entry in `fOutAttrInfoPtr`
and the offset stored in the new value-list context. -/
structure AttrEntryOut where
  fAttributeValueCount : Nat
  fAttributeDataSize : Nat
  fAttributeValueMaxSize : Nat
  fAttributeSignature : List Nat
  valueContextOffset : Nat
  deriving DecidableEq, Repr

/-- The loop `for ( i = 0; i < usValueCnt; i++ )` of `GetAttributeEntry`, run `n`
times from `offset` with `uiTotalValueSize = total`: the reads, and the offset and
total at the end. -/
def sumValues (be : Bool) (mem : Mem) (buffLen : Nat) :
    Nat → Nat → Nat → List Read × Except tDirStatus (Nat × Nat)
  | 0, offset, total => ([], .ok (offset, total))
  | n + 1, offset, total =>
    if add32 4 offset > buffLen then ([], .error eDSInvalidBuffFormat)
    else
      let usValueLen := rd32 be mem offset
      let r := sumValues be mem buffLen n (add32 offset (add32 4 usValueLen)) (add32 total usValueLen)
      ((offset, 4) :: r.1, r.2)

/-- `CSearchNode::GetAttributeEntry` (lines 3035-3185) on the buffer `mem` of
`fBufferSize = buffSize`, the attribute-list context at `ctxOffset` and
`fInAttrInfoIndex = uiIndex`: the reads made, and the status or the entry. -/
def GetAttributeEntry (be : Bool) (mem : Mem) (buffSize ctxOffset uiIndex : Nat) :
    List Read × Except tDirStatus AttrEntryOut :=
  if uiIndex = 0 then ([], .error eDSInvalidIndex)
  else
    let offset := ctxOffset
    if add32 2 offset > buffSize then ([], .error eDSInvalidBuffFormat)
    else
      let usAttrCnt := rd16 be mem offset
      let r1 : List Read := [(offset, 2)]
      if uiIndex > usAttrCnt then (r1, .error eDSInvalidIndex)
      else
        let offset := add32 offset 2
        match skipBlocks be mem buffSize (uiIndex - 1) offset with
        | (rs, .error e) => (r1 ++ rs, .error e)
        | (rs, .ok offset) =>
          let r2 := r1 ++ rs
          let uiOffset := offset
          if add32 4 offset > buffSize then (r2, .error eDSInvalidBuffFormat)
          else
            let usAttrLen := rd32 be mem offset
            let r3 := r2 ++ [(offset, 4)]
            let offset := add32 offset 4
            let buffLen := add32 offset usAttrLen
            if add32 2 offset > buffLen then (r3, .error eDSInvalidBuffFormat)
            else
              let usAttrTypeLen := rd16 be mem offset
              let r4 := r3 ++ [(offset, 2)]
              let pAttrType := add32 offset 2
              let offset := add32 offset (2 + usAttrTypeLen)
              if add32 2 offset > buffLen then (r4, .error eDSInvalidBuffFormat)
              else
                let usValueCnt := rd16 be mem offset
                let r5 := r4 ++ [(offset, 2)]
                let offset := add32 offset 2
                match sumValues be mem buffLen usValueCnt offset 0 with
                | (rs, .error e) => (r5 ++ rs, .error e)
                | (rs, .ok (_, uiTotalValueSize)) =>
                  (r5 ++ rs ++ [(pAttrType, usAttrTypeLen)],
                    .ok { fAttributeValueCount := usValueCnt
                          fAttributeDataSize := uiTotalValueSize
                          fAttributeValueMaxSize := 512
                          fAttributeSignature := rdBytes mem pAttrType usAttrTypeLen
                          valueContextOffset := uiOffset })

/-! ## `CDataBuff` and `CBuff` -/

/-- What `::strlen` and the string copies see of a buffer whose bytes are `s` and
which is followed by a zero byte: the bytes before the first zero. -/
def cstr (s : List Nat) : List Nat := s.takeWhile (fun b => b != 0)

/-- The C function `::strlen`. -/
def strlen (s : List Nat) : Nat := (cstr s).length

/-- Modelled from the spec: `CDataBuff::AppendShort` (the class is declared in
`CDataBuff.h`, which is not among the source files); it appends a fixed-width 16-bit
integer in host byte order. -/
def AppendShort (be : Bool) (d : List Nat) (v : Nat) : List Nat := d ++ enc16 be v

/-- Modelled from the spec: `CDataBuff::AppendLong`; it appends a fixed-width 32-bit
integer in host byte order. -/
def AppendLong (be : Bool) (d : List Nat) (v : Nat) : List Nat := d ++ enc32 be v

/-- Modelled from the spec: `CDataBuff::AppendString`; it appends the bytes of a C
string, without its terminator. -/
def AppendString (d : List Nat) (s : List Nat) : List Nat := d ++ cstr s

/-- Modelled from the spec: `CDataBuff::AppendBlock`; it appends `data`. -/
def AppendBlock (d : List Nat) (data : List Nat) : List Nat := d ++ data

/-- Overwrite `data` from position `off` on with `bytes`. -/
def writeAt (data : List Nat) (off : Nat) (bytes : List Nat) : List Nat :=
  data.take off ++ bytes ++ data.drop (off + bytes.length)

/-- Modelled from the spec: `CBuff` (declared in `CBuff.h`, which is not among the
source files), the block store laid over a `tDataBuffer`. The bookkeeping data sit at
the start of the buffer (a type tag, the block count, one offset per block and an
end tag, four bytes each) and are kept here as the fields `fType` and `fOffsets`; the
blocks are packed at the end of the buffer, growing toward the front, each one as a
`uInt32` length followed by its data. -/
structure CBuff where
  fBufferSize : Nat
  fBufferData : List Nat
  fType : Nat
  fOffsets : List Nat
  fDataStart : Nat
  deriving DecidableEq, Repr

/-- Modelled from the spec: `CBuff::Initialize( buff, true )` followed by
`SetBuffType`: an empty block store over a cleared buffer of `size` bytes. -/
def CBuff.Initialize (size : Nat) (type : Nat) : CBuff :=
  { fBufferSize := size, fBufferData := List.replicate size 0, fType := type,
    fOffsets := [], fDataStart := size }

/-- Modelled from the spec: the bytes the bookkeeping data take with `n` blocks. -/
def CBuff.bookkeeping (n : Nat) : Nat := 12 + 4 * n

/-- Modelled from the spec: `CBuff::AddData`; the block is stored in front of the
blocks already there, or `kBuffFull` is returned, and nothing stored, when it would
run into the bookkeeping data. -/
def CBuff.AddData (be : Bool) (b : CBuff) (data : List Nat) : tDirStatus × CBuff :=
  if CBuff.bookkeeping (b.fOffsets.length + 1) + (4 + data.length) > b.fDataStart then (kBuffFull, b)
  else
    let off := b.fDataStart - (4 + data.length)
    (eDSNoErr, { b with fBufferData := writeAt b.fBufferData off (enc32 be data.length ++ data)
                        fOffsets := b.fOffsets ++ [off]
                        fDataStart := off })

/-- Modelled from the spec: `CBuff::GetDataBlockCount`. -/
def CBuff.GetDataBlockCount (b : CBuff) : Nat := b.fOffsets.length

/-- Modelled from the spec: `CBuff::GetDataBlock( inIndex, &outOffset )`; the offset
of block `inIndex` (counted from 1), `none` for the nil pointer. -/
def CBuff.GetDataBlock (b : CBuff) (inIndex : Nat) : Option Nat :=
  if inIndex = 0 then none else b.fOffsets.get? (inIndex - 1)

/-- The bytes reachable from `fBufferData` of the buffer under `b`. -/
def CBuff.mem (b : CBuff) : Mem := memOf b.fBufferData

/-- Modelled from the spec: `CBuff::GetDataBlockLength`; the `uInt32` in front of
block `inIndex`. -/
def CBuff.GetDataBlockLength (be : Bool) (b : CBuff) (inIndex : Nat) : Nat :=
  match b.GetDataBlock inIndex with
  | some off => rd32 be b.mem off
  | none => 0

/-! ## Records of a backend node and `AddDataToOutBuff` -/

/-- One attribute of a record as the backend calls `dsGetAttributeEntry` and
`dsGetAttributeValue` deliver it: the bytes of its signature and of each value
(`fBufferData` up to `fBufferLength`). -/
structure Attribute where
  fAttributeSignature : List Nat
  values : List (List Nat)
  deriving DecidableEq, Repr

/-- One record as `dsGetRecordEntry`, `dsGetRecordTypeFromEntry` and
`dsGetRecordNameFromEntry` deliver it. -/
structure Record where
  recType : List Nat
  recName : List Nat
  attrs : List Attribute
  deriving DecidableEq, Repr

/-- The bytes of a string constant. -/
def bytesOf (s : String) : List Nat := s.toList.map Char.toNat

/-- The constant `kDSStdRecordTypeUsers` of `DirServicesConst.h`. -/
def kDSStdRecordTypeUsers : List Nat := bytesOf "dsRecTypeStandard:Users"
/-- The constant `kDSStdUserNamesMeta`. -/
def kDSStdUserNamesMeta : List Nat := bytesOf "dsRecTypeStandard:MetaUserNames"
/-- The constant `kDSStdRecordTypeGroups`. -/
def kDSStdRecordTypeGroups : List Nat := bytesOf "dsRecTypeStandard:Groups"
/-- The constant `kDSStdRecordTypeUserAliases`. -/
def kDSStdRecordTypeUserAliases : List Nat := bytesOf "dsRecTypeStandard:UserAliases"
/-- The constant `kDSStdRecordTypeGroupAliases`. -/
def kDSStdRecordTypeGroupAliases : List Nat := bytesOf "dsRecTypeStandard:GroupAliases"
/-- The constant `kDS1AttrAliasData`. -/
def kDS1AttrAliasData : List Nat := bytesOf "dsAttrTypeStandard:AppleAliasData"
/-- The constant `kStandardTargetAlias`. -/
def kStandardTargetAlias : List Nat := bytesOf "dsAttrTypeStandard:AppleMetaAliasTarget"
/-- The constant `kStandardSourceAlias`. -/
def kStandardSourceAlias : List Nat := bytesOf "dsAttrTypeStandard:AppleMetaAliasSource"
/-- The constant `kDSAttributesAll`. -/
def kDSAttributesAll : List Nat := bytesOf "dsAttributesAll"

/-- The C test `::strcmp( a, b ) == 0`. -/
def strcmpEq (a b : List Nat) : Bool := cstr a == cstr b

/-- The two bits of `fMetaTypes` that `AddDataToOutBuff` tests. -/
structure MetaTypes where
  keTargetAlias : Bool
  keSourceAlias : Bool
  deriving DecidableEq, Repr

/-- The constant `keNullMetaType`. -/
def keNullMetaType : MetaTypes := { keTargetAlias := false, keSourceAlias := false }

/-- A `tDataList`: its nodes in order. -/
abbrev tDataList := List (List Nat)

/-- The values of a path attribute of `AddDataToOutBuff` (lines 4456-4464): for each
node of the list, `AppendLong( strlen )` and `AppendString`. -/
def packValues (be : Bool) (vs : List (List Nat)) : List Nat :=
  vs.foldl (fun d v => AppendString (AppendLong be d (strlen v)) v) []

/-- One alias path attribute of `AddDataToOutBuff` (lines 4449-4471): the block
appended to `aAttrData` for the attribute `name` and the path `path`. -/
def packPathAttr (be : Bool) (name : List Nat) (path : tDataList) : List Nat :=
  let aTmpData := AppendString (AppendShort be [] (strlen name)) name
  let aTmpData := AppendShort be aTmpData path.length
  let aTmpData := AppendBlock aTmpData (packValues be path)
  AppendBlock (AppendLong be [] aTmpData.length) aTmpData

/-- One pass of the loop over the attributes of the record in `AddDataToOutBuff`
(lines 4522-4551): the block appended to `aAttrData` for the attribute `a`. -/
def packAttr (be : Bool) (fAttrOnly : Bool) (a : Attribute) : List Nat :=
  let aTmpData := AppendString (AppendShort be [] (strlen a.fAttributeSignature)) a.fAttributeSignature
  let aTmpData :=
    if fAttrOnly = false then
      AppendBlock (AppendShort be aTmpData a.values.length) (packValues be a.values)
    else aTmpData
  AppendBlock (AppendLong be [] aTmpData.length) aTmpData

/-- The body of the loop over the records in `AddDataToOutBuff` (lines 4404-4558):
the bytes of `aRecData` handed to `inOutBuff->AddData` for the record `r`.
`pSourcePath` is what `GetNodePath` returns for the node of the record and
`inTarget` the argument of that name. -/
def packRecord (be : Bool) (fMetaTypes : MetaTypes) (fAttrOnly : Bool)
    (pSourcePath inTarget : Option tDataList) (r : Record) : List Nat :=
  let aRecData := AppendString (AppendShort be [] (strlen r.recType)) r.recType
  let aRecData := AppendString (AppendShort be aRecData (strlen r.recName)) r.recName
  let isUserOrGroup := strcmpEq r.recType kDSStdRecordTypeUsers
    || strcmpEq r.recType kDSStdUserNamesMeta || strcmpEq r.recType kDSStdRecordTypeGroups
  let wantsMeta := fMetaTypes.keTargetAlias || fMetaTypes.keSourceAlias
  let attrCnt : Nat :=
    if isUserOrGroup && wantsMeta then
      (if fMetaTypes.keTargetAlias && fMetaTypes.keSourceAlias then 2 else 1)
    else 0
  let aRecData := AppendShort be aRecData (r.attrs.length + attrCnt)
  let pTargetPath := match inTarget with
    | some t => some t
    | none => pSourcePath
  let aAttrData : List Nat :=
    if isUserOrGroup && wantsMeta then
      (match pTargetPath with
        | some t => if fMetaTypes.keTargetAlias then packPathAttr be kStandardTargetAlias t else []
        | none => [])
      ++ (match pSourcePath with
        | some s => if fMetaTypes.keSourceAlias then packPathAttr be kStandardSourceAlias s else []
        | none => [])
    else []
  let aAttrData := r.attrs.foldl (fun d a => AppendBlock d (packAttr be fAttrOnly a)) aAttrData
  if r.attrs.length + attrCnt ≠ 0 then AppendBlock aRecData aAttrData else aRecData

/-! ## `GetRecordEntry` -/

/-- What `GetRecordEntry` hands back: the name and the type copied into
`fRecordNameAndType`, the attribute count, and the offset stored in the new
attribute-list context. -/
structure RecEntryOut where
  pRecType : List Nat
  pRecName : List Nat
  fRecordAttributeCount : Nat
  attrContextOffset : Nat
  deriving DecidableEq, Repr

/-- `CSearchNode::GetRecordEntry` (lines 2910-3028) on the buffer under `inBuff` and
`fInRecEntryIndex = uiIndex`. -/
def GetRecordEntry (be : Bool) (inBuff : CBuff) (uiIndex : Nat) : Except tDirStatus RecEntryOut :=
  if inBuff.fBufferSize = 0 then .error eDSEmptyBuffer
  else
    let uiCount := inBuff.GetDataBlockCount
    if uiIndex > uiCount ∨ uiIndex = 0 then .error eDSInvalidIndex
    else
      match inBuff.GetDataBlock uiIndex with
      | none => .error eDSCorruptBuffer
      | some uberOffset =>
        let mem := inBuff.mem
        let buffLen := inBuff.GetDataBlockLength be uiIndex
        let pData := uberOffset + 4
        let offset := 0
        if add32 2 offset > buffLen then .error eDSInvalidBuffFormat
        else
          let usTypeLen := rd16 be mem (pData + offset)
          let offset := add32 offset 2
          let pRecType := pData + offset
          let offset := add32 offset usTypeLen
          if add32 2 offset > buffLen then .error eDSInvalidBuffFormat
          else
            let usNameLen := rd16 be mem (pData + offset)
            let offset := add32 offset 2
            let pRecName := pData + offset
            let offset := add32 offset usNameLen
            if add32 2 offset > buffLen then .error eDSInvalidBuffFormat
            else
              let usAttrCnt := rd16 be mem (pData + offset)
              .ok { pRecType := rdBytes mem pRecType usTypeLen
                    pRecName := rdBytes mem pRecName usNameLen
                    fRecordAttributeCount := usAttrCnt
                    attrContextOffset := add32 (add32 uberOffset offset) 4 }

/-! ## Layout of packed data -/

/-- The bytes `bs` sit in `mem` from position `p` on. -/
def At (mem : Mem) (p : Nat) (bs : List Nat) : Prop :=
  ∀ i, i < bs.length → mem (p + i) = bs.getD i 0

/-- A block of the wire format: the `uInt32` length of the body, then the body. -/
def encBlock (be : Bool) (body : List Nat) : List Nat := enc32 be body.length ++ body

/-- The string holds no zero byte, so that `strlen` is its length. -/
def IsCStr (s : List Nat) : Prop := ∀ b ∈ s, b ≠ 0

instance (s : List Nat) : Decidable (IsCStr s) := by unfold IsCStr; infer_instance

/-- The body of an attribute block: signature, value count, value blocks. -/
def attrBody (be : Bool) (sig : List Nat) (values : List (List Nat)) : List Nat :=
  enc16 be sig.length ++ (sig ++ (enc16 be values.length ++ values.flatMap (encBlock be)))

/-- The attribute can be packed without loss: its signature and values are C strings
and its signature length and value count fit a `uInt16`. -/
def Attribute.Packable (a : Attribute) : Prop :=
  IsCStr a.fAttributeSignature ∧ a.fAttributeSignature.length < U16
    ∧ a.values.length < U16 ∧ ∀ v ∈ a.values, IsCStr v

instance (a : Attribute) : Decidable a.Packable := by
  unfold Attribute.Packable; infer_instance

/-- The record can be packed without loss: its type, name, attribute signatures and
values are C strings, and every length and count written as a `uInt16` fits one. -/
def Record.Packable (r : Record) : Prop :=
  IsCStr r.recType ∧ r.recType.length < U16 ∧ IsCStr r.recName ∧ r.recName.length < U16
    ∧ r.attrs.length < U16 ∧ ∀ a ∈ r.attrs, a.Packable

instance (r : Record) : Decidable r.Packable := by
  unfold Record.Packable; infer_instance

/-- The body of the attribute block of `a`. -/
def Attribute.body (be : Bool) (a : Attribute) : List Nat :=
  attrBody be a.fAttributeSignature a.values

/-- The buffer under `b` has the size `b` records, and the packed blocks start inside
it. -/
def CBuff.WF (b : CBuff) : Prop :=
  b.fBufferData.length = b.fBufferSize ∧ b.fDataStart ≤ b.fBufferSize

instance (b : CBuff) : Decidable b.WF := by
  unfold CBuff.WF; infer_instance

/-! ## Search paths: node lists and the collaborators that resolve them -/

/-- The constant `kstrDefaultLocalNodeName` of `CSearchNode.h`, the registered name
of the local node. -/
def kstrDefaultLocalNodeName : List Nat := bytesOf "/NetInfo/DefaultLocalNode"

/-- The constant `kstrNetworkNodeName` of `CSearchNode.h`, the name of the Network
search node. -/
def kstrNetworkNodeName : List Nat := bytesOf "/Search/Network"

/-- The constant `kstrAuthenticationNodeName` of `CSearchNode.h`. -/
def kstrAuthenticationNodeName : List Nat := bytesOf "/Search"

/-- The constant `kstrContactsNodeName` of `CSearchNode.h`. -/
def kstrContactsNodeName : List Nat := bytesOf "/Search/Contacts"

/-- The constant `kNetInfoSearchPolicy`: the Automatic policy. -/
def kNetInfoSearchPolicy : Nat := 1
/-- The constant `kLocalSearchPolicy`: the LocalOnly policy. -/
def kLocalSearchPolicy : Nat := 2
/-- The constant `kCustomSearchPolicy`: the Custom policy. -/
def kCustomSearchPolicy : Nat := 3

/-- The key of a search config: the pattern constants `eDSAuthenticationSearchNodeName`,
`eDSContactsSearchNodeName` and `eDSNetworkSearchNodeName`; `otherKey` is any other
`uInt32`. -/
inductive ConfigKey
  | eDSAuthenticationSearchNodeName
  | eDSContactsSearchNodeName
  | eDSNetworkSearchNodeName
  | otherKey (k : Nat)
  deriving DecidableEq, Repr

/-- The pieces of `path` between the separators `/`, an empty first piece included. -/
def splitOnSlash : List Nat → List (List Nat)
  | [] => [[]]
  | c :: cs =>
    if c = 47 then [] :: splitOnSlash cs
    else
      match splitOnSlash cs with
      | [] => [[c]]
      | h :: t => (c :: h) :: t

/-- The library call `dsBuildFromPathPriv( path, "/" )`: the non-empty components of
the path. -/
def dsBuildFromPathPriv (path : List Nat) : tDataList :=
  (splitOnSlash (cstr path)).filter (fun s => !s.isEmpty)

/-- The library call `dsGetPathFromListPriv( list, "/" )`: every component behind a
separator. -/
def dsGetPathFromListPriv (l : tDataList) : List Nat :=
  l.flatMap (fun s => 47 :: s)

/-- One `sSearchList`, a node of a search path; the list itself is a `List` of
them, the nil pointer being `[]`. -/
structure sSearchList where
  fNodeName : Option (List Nat)
  fDataList : Option tDataList
  fNodeRef : Nat
  fOpened : Bool
  deriving DecidableEq, Repr

/-- The entry addresses the local node: its `fDataList` is the one built from
`kstrDefaultLocalNodeName`. -/
def sSearchList.addressesLocal (n : sSearchList) : Prop :=
  n.fDataList = some (dsBuildFromPathPriv kstrDefaultLocalNodeName)

instance (n : sSearchList) : Decidable n.addressesLocal := by
  unfold sSearchList.addressesLocal; infer_instance

/-- The configuration file object `CConfigs` as far as the search node uses it:
what `GetCustom` and `IsDHCPLDAPEnabled` return. -/
structure CConfigs where
  custom : List sSearchList
  dhcpLDAPEnabled : Bool
  deriving DecidableEq, Repr

/-- Modelled from the spec: `CConfigs::GetCustom` (`CConfigs.h` is not among the
source files), the administrator-supplied ordered list. -/
def CConfigs.GetCustom (c : CConfigs) : List sSearchList := c.custom

/-- Modelled from the spec: `CConfigs::IsDHCPLDAPEnabled`, whether default network
paths are enabled in the configuration. -/
def CConfigs.IsDHCPLDAPEnabled (c : CConfigs) : Bool := c.dhcpLDAPEnabled

/-- What the collaborators outside the search node answer.

* `discoverLocal`: the outcome of the calls `dsFindDirNodes( eDSLocalNodeNames )`
  to `dsCloseDirNode` with which `GetNetInfoPaths` and `GetLocalPaths` find the
  true path of the local node: the status thrown, or the path put together.
* `ldapPaths`: the values of the default LDAP paths that the calls of
  `GetDefaultLDAPPaths` on the `LDAPv3` node deliver, in their order, up to the
  first call that fails (none when the node cannot be opened).
* `networkPages`: the outcome of each `dsFindDirNodes( eDSDefaultNetworkNodes )`
  of `BuildNetworkNodeList` with the names read from its buffer; the context is
  nil after the last one.
* `newConfig`: the status and the object that `new CConfigs()` and `Init` give.
* `dsOpenDirNode`: the status and the reference for a node name. -/
structure Collaborators where
  discoverLocal : Except tDirStatus (List Nat)
  ldapPaths : List (List Nat)
  networkPages : List (Except tDirStatus (List tDataList))
  newConfig : tDirStatus × CConfigs
  dsOpenDirNode : tDataList → tDirStatus × Nat

/-- The node that `GetNetInfoPaths` and `GetLocalPaths` make up when they found
none (lines 921-940 and 1268-1287). -/
def forcedLocalNode : sSearchList :=
  { fNodeName := some kstrDefaultLocalNodeName
    fDataList := some (dsBuildFromPathPriv kstrDefaultLocalNodeName)
    fNodeRef := 0
    fOpened := false }

/-- `CSearchNode::GetLocalPaths` (lines 1031-1291); `localNodeName` is the string
behind the argument, `none` when the argument or the string is nil. -/
def GetLocalPaths (w : Collaborators) (localNodeName : Option (List Nat)) : List sSearchList :=
  let aSearchPath : Option (List Nat) :=
    match localNodeName with
    | some name => some name
    | none =>
      match w.discoverLocal with
      | .ok path => some path
      | .error _ => none
  let outSrchList : List sSearchList :=
    match aSearchPath with
    | some path =>
      [{ fNodeName := some (cstr path)
         fDataList := some (dsBuildFromPathPriv kstrDefaultLocalNodeName)
         fNodeRef := 0
         fOpened := false }]
    | none => []
  if outSrchList = [] then [forcedLocalNode] else outSrchList

/-- The string `"/NetInfo/root"`. -/
def netInfoRoot : List Nat := bytesOf "/NetInfo/root"

/-- The loop `while ( (n != p) && (*n != '/') ) n--` of `GetNetInfoPaths`, `n` and
the result being positions in the string `s` that `p` points to. -/
def scanBack (s : List Nat) : Nat → Nat
  | 0 => 0
  | n + 1 => if s.getD (n + 1) 0 = 47 then n + 1 else scanBack s n

/-- The `do ... while` loop of `GetNetInfoPaths` (lines 770-864), at most `fuel`
passes of it: `s` are the bytes `p` points to, `n` the position of the pointer `n`. -/
def netInfoLoop (bFullPath bLocalIsRoot : Bool) :
    Nat → List Nat → Nat → Bool → List sSearchList
  | 0, _, _, _ => []
  | fuel + 1, s, n, bSetLocalFirst =>
    let p := cstr s
    let pSrchList : sSearchList :=
      if bSetLocalFirst then
        { fNodeName := some (if bFullPath then p else kstrDefaultLocalNodeName)
          fDataList := some (dsBuildFromPathPriv kstrDefaultLocalNodeName)
          fNodeRef := 0
          fOpened := false }
      else
        { fNodeName := some p
          fDataList := some (dsBuildFromPathPriv p)
          fNodeRef := 0
          fOpened := false }
    let sn : List Nat × Nat :=
      if p ≠ netInfoRoot then
        let n1 := scanBack s n
        if s.getD n1 0 = 47 then (s.set n1 0, n1) else (s, n1)
      else (s, 0)
    pSrchList ::
      (if sn.2 ≠ 0 ∧ bLocalIsRoot = false then netInfoLoop bFullPath bLocalIsRoot fuel sn.1 sn.2 false
       else [])

/-- `CSearchNode::GetNetInfoPaths` (lines 613-944); `localNodeName` is the string
behind the argument, `none` when the argument or the string is nil. -/
def GetNetInfoPaths (w : Collaborators) (bFullPath : Bool) (localNodeName : Option (List Nat)) :
    List sSearchList :=
  let aSearchPath : Option (List Nat) :=
    match localNodeName with
    | some name => some name
    | none =>
      match w.discoverLocal with
      | .ok path => some path
      | .error _ => none
  let outSrchList : List sSearchList :=
    match aSearchPath with
    | some path =>
      let path := cstr path
      let bLocalIsRoot : Bool := path = netInfoRoot
      if path.take 13 = netInfoRoot then
        netInfoLoop bFullPath bLocalIsRoot (path.length + 1) path path.length true
      else []
    | none => []
  if outSrchList = [] then [forcedLocalNode] else outSrchList

/-- `CSearchNode::DoNetInfoDefault` (lines 594-606): the status and the list stored
through `inSearchNodeList`. -/
def DoNetInfoDefault (w : Collaborators) : tDirStatus × List sSearchList :=
  let l := GetNetInfoPaths w false none
  (if l = [] then eSearchPathNotDefined else eDSNoErr, l)

/-- `CSearchNode::GetDefaultLDAPPaths` (lines 1298-1429): one node for each value
the `LDAPv3` node delivers. -/
def GetDefaultLDAPPaths (w : Collaborators) : List sSearchList :=
  w.ldapPaths.map (fun v =>
    { fNodeName := some (cstr v)
      fDataList := some (dsBuildFromPathPriv v)
      fNodeRef := 0
      fOpened := false })

/-- `CSearchNode::AddDefaultLDAPNodesLast` (lines 951-982): the status and the list
behind `inSearchNodeList` afterwards. -/
def AddDefaultLDAPNodesLast (w : Collaborators) (inSearchNodeList : List sSearchList) :
    tDirStatus × List sSearchList :=
  let ldapSrchList := GetDefaultLDAPPaths w
  if ldapSrchList = [] then (eSearchPathNotDefined, inSearchNodeList)
  else if inSearchNodeList = [] then (eDSNoErr, ldapSrchList)
  else (eDSNoErr, inSearchNodeList ++ ldapSrchList)

/-- `CSearchNode::AddLocalNodesAsFirstPaths` (lines 989-1024): the status and the
list behind `inSearchNodeList` afterwards. -/
def AddLocalNodesAsFirstPaths (w : Collaborators) (inSearchNodeList : List sSearchList) :
    tDirStatus × List sSearchList :=
  let localSrchList := GetLocalPaths w (some kstrDefaultLocalNodeName)
  if localSrchList = [] then (eSearchPathNotDefined, inSearchNodeList)
  else if inSearchNodeList = [] then (eDSNoErr, localSrchList)
  else (eDSNoErr, localSrchList ++ inSearchNodeList)

/-- `CSearchNode::DupSearchListWithNewRefs` (lines 5376-5439): the copy with
unopened entries; the first entry that has a name gets the data list of the local
node. -/
def dupSearchList : List sSearchList → Bool → List sSearchList
  | [], _ => []
  | pSearchList :: rest, getLocalFirst =>
    match pSearchList.fNodeName with
    | some name =>
      { fNodeName := some name
        fDataList := some (if getLocalFirst then dsBuildFromPathPriv kstrDefaultLocalNodeName
                           else dsBuildFromPathPriv name)
        fNodeRef := 0
        fOpened := false } :: dupSearchList rest false
    | none =>
      { fNodeName := none, fDataList := none, fNodeRef := 0, fOpened := false }
        :: dupSearchList rest getLocalFirst

/-- `CSearchNode::DupSearchListWithNewRefs`. -/
def DupSearchListWithNewRefs (inSearchList : List sSearchList) : List sSearchList :=
  dupSearchList inSearchList true

/-! ## The search configs -/

/-- One `sSearchConfig`; the list `pSearchConfigList` is a `List` of them. -/
structure sSearchConfig where
  fSearchNodeList : List sSearchList
  fSearchPolicy : Nat
  pConfigFromXML : Option CConfigs
  fSearchNodeName : List Nat
  fSearchConfigFilePrefix : Option (List Nat)
  fDirNodeType : Nat
  fSearchConfigKey : ConfigKey
  deriving DecidableEq, Repr

/-- `CSearchNode::FindSearchConfigWithKey` (lines 5215-5233). -/
def FindSearchConfigWithKey : List sSearchConfig → ConfigKey → Option sSearchConfig
  | [], _ => none
  | configOut :: rest, inSearchConfigKey =>
    if configOut.fSearchConfigKey = inSearchConfigKey then some configOut
    else FindSearchConfigWithKey rest inSearchConfigKey

/-- The first loop of `AddSearchConfigToList` (lines 5248-5256): `uiDup`. -/
def hasConfigWithKey : List sSearchConfig → ConfigKey → Bool
  | [], _ => false
  | aConfigList :: rest, key =>
    if aConfigList.fSearchConfigKey = key then true else hasConfigWithKey rest key

/-- `CSearchNode::AddSearchConfigToList` (lines 5240-5279): the status and
`pSearchConfigList` afterwards. -/
def AddSearchConfigToList (pSearchConfigList : List sSearchConfig) (inSearchConfig : sSearchConfig) :
    tDirStatus × List sSearchConfig :=
  let uiDup := hasConfigWithKey pSearchConfigList inSearchConfig.fSearchConfigKey
  if !uiDup then
    (eDSNoErr, if pSearchConfigList = [] then [inSearchConfig]
               else pSearchConfigList ++ [inSearchConfig])
  else (eDSInvalidIndex, pSearchConfigList)

/-- What a call of `SwitchSearchPolicy` leaves behind: the status returned, the
config, what `fState` is set to (`some true` for active, `some false` for inactive,
`none` when it is left alone), the policy index handed to
`SetSearchPolicyIndicatorFile` (`none` when it is not called) and whether the
contexts were told of the switch through `ContextSetListChangedProc`. -/
structure SwitchResult where
  siResult : tDirStatus
  config : sSearchConfig
  active : Option Bool
  indicator : Option Nat
  notified : Bool
  deriving DecidableEq, Repr

/-- `CSearchNode::SwitchSearchPolicy` (lines 485-587). -/
def SwitchSearchPolicy (w : Collaborators) (inSearchPolicy : Nat) (inSearchConfig : sSearchConfig) :
    SwitchResult :=
  let init : Except tDirStatus sSearchConfig :=
    match inSearchConfig.pConfigFromXML with
    | some _ => .ok inSearchConfig
    | none =>
      if w.newConfig.1 ≠ eDSNoErr then .error w.newConfig.1
      else .ok { inSearchConfig with pConfigFromXML := some w.newConfig.2 }
  match init with
  | .error err =>
    { siResult := err, config := { inSearchConfig with pConfigFromXML := some w.newConfig.2 },
      active := some false, indicator := none, notified := false }
  | .ok cfg =>
    let cfg := { cfg with fSearchPolicy := inSearchPolicy, fSearchNodeList := [] }
    let r : tDirStatus × List sSearchList :=
      if cfg.fSearchPolicy = kCustomSearchPolicy then
        AddLocalNodesAsFirstPaths w
          (match cfg.pConfigFromXML with
           | some c => c.GetCustom
           | none => [])
      else if cfg.fSearchPolicy = kLocalSearchPolicy then
        AddLocalNodesAsFirstPaths w cfg.fSearchNodeList
      else DoNetInfoDefault w
    let cfg := { cfg with fSearchNodeList := r.2 }
    if r.1 = eDSNoErr then
      let ldap : tDirStatus × List sSearchList :=
        if cfg.fSearchPolicy = kNetInfoSearchPolicy then
          if (match cfg.pConfigFromXML with
              | none => true
              | some c => c.IsDHCPLDAPEnabled) then
            AddDefaultLDAPNodesLast w cfg.fSearchNodeList
          else (eSearchPathNotDefined, cfg.fSearchNodeList)
        else (eSearchPathNotDefined, cfg.fSearchNodeList)
      let cfg := { cfg with fSearchNodeList := ldap.2 }
      { siResult := eDSNoErr, config := cfg, active := some true,
        indicator := some (if ldap.1 = eSearchPathNotDefined then cfg.fSearchPolicy
                           else kCustomSearchPolicy),
        notified := true }
    else
      { siResult := r.1, config := cfg, active := none, indicator := none, notified := false }

/-! ## Reference contexts and `OpenDirNode` -/

/-- One `sSearchContextData`. `pSearchListMutex` records whether the mutex pointer is
set, which marks the context of a node reference; `offset` is the cursor of an
attribute-list or value-list context. -/
structure sSearchContextData where
  fSearchNodeList : List sSearchList
  bListChanged : Bool
  pSearchListMutex : Bool
  bAutoSearchList : Bool
  offset : Nat
  fSearchConfigKey : ConfigKey
  deriving DecidableEq, Repr

/-- `CSearchNode::MakeContextData` (lines 4194-4210). -/
def MakeContextData : sSearchContextData :=
  { fSearchNodeList := [], bListChanged := false, pSearchListMutex := false,
    bAutoSearchList := false, offset := 0, fSearchConfigKey := ConfigKey.otherKey 0 }

/-- The loop of `BuildNetworkNodeList` over the answers of `dsFindDirNodes`: the
nodes gathered, `none` when a status was thrown. -/
def buildNetworkPages : List (Except tDirStatus (List tDataList)) → Option (List sSearchList)
  | [] => some []
  | .error _ :: _ => none
  | .ok names :: rest =>
    match buildNetworkPages rest with
    | none => none
    | some l =>
      some (names.map (fun pDataList =>
        { fNodeName := some (dsGetPathFromListPriv pDataList)
          fDataList := some pDataList
          fNodeRef := 0
          fOpened := false }) ++ l)

/-- `CSearchNode::BuildNetworkNodeList` (lines 5608-5707). -/
def BuildNetworkNodeList (w : Collaborators) : List sSearchList :=
  match buildNetworkPages w.networkPages with
  | some l => l
  | none => []

/-- The loop of `OpenDirNode` over `pSearchConfigList` (lines 1716-1747). -/
def openDirNodeLoop (w : Collaborators) (pathStr : List Nat) :
    List sSearchConfig → tDirStatus × Option sSearchContextData
  | [] => (eDSOpenNodeFailed, none)
  | aSearchConfigList :: rest =>
    if strcmpEq pathStr aSearchConfigList.fSearchNodeName then
      let pContext : sSearchContextData :=
        { MakeContextData with
            pSearchListMutex := true
            fSearchConfigKey := aSearchConfigList.fSearchConfigKey
            fSearchNodeList :=
              if strcmpEq pathStr kstrNetworkNodeName then BuildNetworkNodeList w
              else DupSearchListWithNewRefs aSearchConfigList.fSearchNodeList
            bAutoSearchList :=
              if aSearchConfigList.fSearchPolicy = kNetInfoSearchPolicy then true else false }
      (eDSNoErr, some pContext)
    else openDirNodeLoop w pathStr rest

/-- `CSearchNode::OpenDirNode` (lines 1702-1757): the status and the context
registered under `fOutNodeRef`; `pathStr` is what `dsGetPathFromListPriv` made of
`fInDirNodeName`, `none` for nil. -/
def OpenDirNode (w : Collaborators) (pSearchConfigList : List sSearchConfig)
    (pathStr : Option (List Nat)) : tDirStatus × Option sSearchContextData :=
  match pathStr with
  | none => (eDSOpenNodeFailed, none)
  | some pathStr => openDirNodeLoop w pathStr pSearchConfigList

/-- The Network search config as `Initialize` makes it on first entry (lines
391-448): no node list, the Custom policy. -/
def networkSearchConfig (aConfigFromXML : Option CConfigs) : sSearchConfig :=
  { fSearchNodeList := []
    fSearchPolicy := kCustomSearchPolicy
    pConfigFromXML := aConfigFromXML
    fSearchNodeName := kstrNetworkNodeName
    fSearchConfigFilePrefix := none
    fDirNodeType := 128
    fSearchConfigKey := ConfigKey.eDSNetworkSearchNodeName }

/-! ## The query engine: `GetRecordList` -/

/-- The states `eSearchState` of the query loop. -/
inductive eSearchState
  | keUnknownState
  | keGetRecordList
  | keAddDataToBuff
  | keGetAliases
  | keExpandAliases
  | keGetNextNodeRef
  | keSetContinueData
  | keDone
  | keError
  | keBufferTooSmall
  deriving DecidableEq, Repr

open eSearchState

/-- A `tDataBuffer` handed to a backend node: its size and the records the backend
packed into it, as the calls `dsGetRecordEntry`, `dsGetAttributeEntry` and
`dsGetAttributeValue` read them back. -/
structure BackendBuffer where
  fBufferSize : Nat
  records : List Record
  deriving DecidableEq, Repr

/-- The request of a record list as it is passed on to a backend node. -/
structure Query where
  fInRecNameList : tDataList
  fInPatternMatch : Nat
  fInRecTypeList : Option tDataList
  fInAttribTypeList : Option tDataList
  fInAttribInfoOnly : Bool
  deriving DecidableEq, Repr

/-- What a backend node answers to `dsGetRecordList`: the status, the record count
and the continue data it stores, and the records it leaves in the buffer. -/
structure BackendReply where
  siResult : tDirStatus
  recCount : Nat
  records : List Record
  fContextData : Option Nat
  deriving DecidableEq, Repr

/-- What `CAliases` reads out of the alias data of a record (the class is declared
in `CAliases.h`, which is not among the source files): the status of `Initialize`
and the results of `GetRecordType`, `GetRecordName` and `GetRecordLocation`. -/
structure AliasInfo where
  status : tDirStatus
  recordType : Except tDirStatus (List Nat)
  recordName : Except tDirStatus tDataList
  recordLocation : Except tDirStatus tDataList

/-- The backend nodes: what `dsGetRecordList` answers for a node reference, a buffer
size, a request, the record count asked for and the continue data passed in; and
what `CAliases` makes of alias data. -/
structure Backends where
  dsGetRecordList : Nat → Nat → Query → Nat → Option Nat → BackendReply
  cAlias : List Nat → AliasInfo

/-- One `sSearchContinueData`. -/
structure sSearchContinueData where
  fDirRef : Nat
  fNodeRef : Nat
  fAttrOnly : Bool
  fRecCount : Nat
  fRecIndex : Nat
  fMetaTypes : MetaTypes
  fState : eSearchState
  fAliasList : Option tDataList
  fAliasAttribute : Option tDataList
  fDataBuff : Option BackendBuffer
  fContextData : Option Nat
  fLimitRecSearch : Nat
  fTotalRecCount : Nat
  fID : Nat
  deriving DecidableEq, Repr

/-- A continue data block as `calloc` returns it. -/
def sSearchContinueData.zero : sSearchContinueData :=
  { fDirRef := 0, fNodeRef := 0, fAttrOnly := false, fRecCount := 0, fRecIndex := 0,
    fMetaTypes := keNullMetaType, fState := keUnknownState, fAliasList := none,
    fAliasAttribute := none, fDataBuff := none, fContextData := none,
    fLimitRecSearch := 0, fTotalRecCount := 0, fID := 0 }

/-- The mutexes: the global `fMutex` and the `pSearchListMutex` of a reference. -/
inductive Mutex
  | fMutex
  | pSearchListMutex (nodeRef : Nat)
  deriving DecidableEq, Repr

/-- One call on a mutex. -/
inductive LockEvent
  | Wait (m : Mutex)
  | Signal (m : Mutex)
  deriving DecidableEq, Repr

/-- The shared state of the search node: the config list, the table `gSNNodeRef` of
contexts by reference, the table `gSNContinue` of continue data (token, node
reference, data), the next token to hand out, and the calls made on the mutexes,
oldest first. -/
structure SearchNodeState where
  pSearchConfigList : List sSearchConfig
  gSNNodeRef : List (Nat × sSearchContextData)
  gSNContinue : List (Nat × Nat × sSearchContinueData)
  nextToken : Nat
  locks : List LockEvent
  deriving DecidableEq, Repr

/-- Modelled from the spec: `CPlugInRef::GetItemData` (`CPlugInRef.h` is not among
the source files): the context registered under the reference. -/
def GetItemData : List (Nat × sSearchContextData) → Nat → Option sSearchContextData
  | [], _ => none
  | (r, c) :: rest, ref => if r = ref then some c else GetItemData rest ref

/-- The context registered under `ref` replaced by `c`. -/
def setItemData : List (Nat × sSearchContextData) → Nat → sSearchContextData →
    List (Nat × sSearchContextData)
  | [], _, _ => []
  | (r, c0) :: rest, ref, c =>
    if r = ref then (r, c) :: rest else (r, c0) :: setItemData rest ref c

/-- Modelled from the spec: `CContinue::VerifyItem` (`CContinue.h` is not among the
source files): the continue data registered under the token. -/
def VerifyItem : List (Nat × Nat × sSearchContinueData) → Nat → Option sSearchContinueData
  | [], _ => none
  | (t, _, d) :: rest, token => if t = token then some d else VerifyItem rest token

/-- Modelled from the spec: `CContinue::RemoveItem`. -/
def RemoveItem (l : List (Nat × Nat × sSearchContinueData)) (token : Nat) :
    List (Nat × Nat × sSearchContinueData) :=
  l.filter (fun e => e.1 != token)

/-- Modelled from the spec: `CContinue::RemoveItems`: every token registered
against the node reference is released. -/
def RemoveItems (l : List (Nat × Nat × sSearchContinueData)) (nodeRef : Nat) :
    List (Nat × Nat × sSearchContinueData) :=
  l.filter (fun e => e.2.1 != nodeRef)

/-- Replace `pSearchConfigList`'s config of key `key` by `f` of it. -/
def updateConfig (l : List sSearchConfig) (key : ConfigKey) (f : sSearchConfig → sSearchConfig) :
    List sSearchConfig :=
  match l with
  | [] => []
  | c :: rest => if c.fSearchConfigKey = key then f c :: rest else c :: updateConfig rest key f

/-! ### `GetNextNodeRef` -/

/-- The first loop of `GetNextNodeRef` (lines 4026-4035): the value of `nodeIndex`
at its end, which is also the number of entries in front of `pNodeList`. -/
def findAfter : List sSearchList → Nat → Nat → Nat
  | [], _, nodeIndex => nodeIndex
  | pNodeList :: rest, aNodeRef, nodeIndex =>
    if aNodeRef = pNodeList.fNodeRef then nodeIndex + 1
    else findAfter rest aNodeRef (nodeIndex + 1)

/-- The last loop of `GetNextNodeRef` (lines 4128-4152) from `pNodeList` on: the
status, the reference stored through `outNodeRef` if one is, and the entries
afterwards. -/
def openNext (w : Collaborators) : List sSearchList → tDirStatus × Option Nat × List sSearchList
  | [] => (kEndOfSearchNodeList, none, [])
  | pNodeList :: rest =>
    if pNodeList.fOpened = false then
      let r := w.dsOpenDirNode (pNodeList.fDataList.getD [])
      if r.1 = eDSNoErr then
        (eDSNoErr, some r.2, { pNodeList with fNodeRef := r.2, fOpened := true } :: rest)
      else
        let n := openNext w rest
        (n.1, n.2.1, pNodeList :: n.2.2)
    else (eDSNoErr, some pNodeList.fNodeRef, pNodeList :: rest)

/-- What `GetNextNodeRef` leaves behind: the status, the reference stored through
`outNodeRef` if one is, the context, the config list, the calls made on the
mutexes, whether the parent of the local node was probed (`dsOpenDirNode` on
`NetInfo/..`), whether the node lists were replaced after it, and whether the nil
pointer of a config that is not in the list was dereferenced. -/
structure NextNodeResult where
  siResult : tDirStatus
  outNodeRef : Option Nat
  context : sSearchContextData
  pSearchConfigList : List sSearchConfig
  locks : List LockEvent
  probed : Bool
  relisted : Bool
  derefNil : Bool
  deriving DecidableEq, Repr

/-- The test of lines 4050-4066 of `GetNextNodeRef`: `bRecheckNI`. -/
def bRecheckNI (inContext : sSearchContextData) (pNodeList : List sSearchList) : Bool :=
  if inContext.bAutoSearchList then
    match pNodeList with
    | [] => true
    | n :: _ =>
      match n.fNodeName with
      | some name => if (cstr name).take 8 ≠ bytesOf "/NetInfo" then true else false
      | none => false
  else false

/-- `CSearchNode::GetNextNodeRef` (lines 4013-4156). -/
def GetNextNodeRef (w : Collaborators) (pSearchConfigList : List sSearchConfig)
    (inNodeRef : Nat) (inContext : sSearchContextData) : NextNodeResult :=
  let nodeIndex := if inNodeRef ≠ 0 then findAfter inContext.fSearchNodeList inNodeRef 0 else 0
  let probed : Bool :=
    nodeIndex = 1 && bRecheckNI inContext (inContext.fSearchNodeList.drop nodeIndex)
  let openResult := (w.dsOpenDirNode [bytesOf "NetInfo", bytesOf ".."]).1
  let aSearchNodeList := (DoNetInfoDefault w).2
  if probed && openResult = eDSNoErr && aSearchNodeList ≠ [] then
    let aSearchConfig := FindSearchConfigWithKey pSearchConfigList inContext.fSearchConfigKey
    let ldap : List sSearchList :=
      if (match aSearchConfig with
          | some c => (match c.pConfigFromXML with
                       | none => true
                       | some x => x.IsDHCPLDAPEnabled)
          | none => true) then
        (AddDefaultLDAPNodesLast w aSearchNodeList).2
      else aSearchNodeList
    let configs := updateConfig pSearchConfigList inContext.fSearchConfigKey
      (fun c => { c with fSearchNodeList := ldap })
    let newList := DupSearchListWithNewRefs ldap
    let r := openNext w (newList.drop 1)
    { siResult := r.1, outNodeRef := r.2.1,
      context := { inContext with fSearchNodeList := newList.take 1 ++ r.2.2, bListChanged := false },
      pSearchConfigList := configs,
      locks := [LockEvent.Wait Mutex.fMutex, LockEvent.Wait Mutex.fMutex,
                LockEvent.Signal Mutex.fMutex, LockEvent.Signal Mutex.fMutex],
      probed := true, relisted := true, derefNil := aSearchConfig.isNone }
  else
    let r := openNext w (inContext.fSearchNodeList.drop nodeIndex)
    { siResult := r.1, outNodeRef := r.2.1,
      context := { inContext with
                   fSearchNodeList := inContext.fSearchNodeList.take nodeIndex ++ r.2.2 },
      pSearchConfigList := pSearchConfigList,
      locks := [],
      probed := probed, relisted := false, derefNil := false }

/-- `CSearchNode::GetNodePath` (lines 4163-4187). -/
def GetNodePath (inNodeRef : Nat) : List sSearchList → Option tDataList
  | [] => none
  | pNodeList :: rest =>
    if inNodeRef = pNodeList.fNodeRef then pNodeList.fDataList else GetNodePath inNodeRef rest

/-! ### `DoAliasCheck`, `AddDataToOutBuff`, `ExpandAliases` -/

/-- `CSearchNode::DoAliasCheck` (lines 4270-4359): the continue data with
`fAliasList`, `fMetaTypes` and `fAliasAttribute` set. -/
def DoAliasCheck (inRecTypeList inAttrTypeList : Option tDataList)
    (inContinue : sSearchContinueData) : sSearchContinueData :=
  match inRecTypeList with
  | none => inContinue
  | some recTypes =>
    if recTypes.length = 0 then inContinue
    else
      let bUserAlias := recTypes.any (fun s =>
        strcmpEq s kDSStdRecordTypeUsers || strcmpEq s kDSStdUserNamesMeta)
      let bGroupAlias := recTypes.any (fun s =>
        !(strcmpEq s kDSStdRecordTypeUsers || strcmpEq s kDSStdUserNamesMeta)
          && strcmpEq s kDSStdRecordTypeGroups)
      let fAliasList : Option tDataList :=
        if bUserAlias && bGroupAlias then
          some [kDSStdRecordTypeUserAliases, kDSStdRecordTypeGroupAliases]
        else if bUserAlias then some [kDSStdRecordTypeUserAliases]
        else if bGroupAlias then some [kDSStdRecordTypeGroupAliases]
        else inContinue.fAliasList
      let c := { inContinue with fAliasList := fAliasList, fMetaTypes := keNullMetaType }
      if bUserAlias || bGroupAlias then
        let attrs := inAttrTypeList.getD []
        let target := attrs.any (fun s =>
          strcmpEq s kStandardTargetAlias
            || (!strcmpEq s kStandardSourceAlias && strcmpEq s kDSAttributesAll))
        let source := attrs.any (fun s =>
          !strcmpEq s kStandardTargetAlias
            && (strcmpEq s kStandardSourceAlias || strcmpEq s kDSAttributesAll))
        { c with fAliasAttribute := some [kDS1AttrAliasData],
                 fMetaTypes := { keTargetAlias := target, keSourceAlias := source } }
      else c

/-- The library call `dsGetRecordEntry` on a backend buffer: the record of index
`i`, counted from 1. -/
def dsGetRecordEntry (b : Option BackendBuffer) (i : Nat) : Except tDirStatus Record :=
  match b with
  | none => .error eDSNullDataBuff
  | some b =>
    if i = 0 then .error eDSInvalidIndex
    else
      match b.records.get? (i - 1) with
      | some r => .ok r
      | none => .error eDSInvalidIndex

/-- The loop of `AddDataToOutBuff` (lines 4393-4569), at most `fuel` passes: the
status, `fRecIndex` and the out buffer at its end. -/
def addDataLoop (be : Bool) (inContinue : sSearchContinueData) (pSourcePath inTarget : Option tDataList) :
    Nat → Nat → CBuff → tDirStatus × Nat × CBuff
  | 0, fRecIndex, inOutBuff => (eDSNoErr, fRecIndex, inOutBuff)
  | fuel + 1, fRecIndex, inOutBuff =>
    if fRecIndex ≤ inContinue.fRecCount then
      match dsGetRecordEntry inContinue.fDataBuff fRecIndex with
      | .error e => (e, fRecIndex, inOutBuff)
      | .ok pRecEntry =>
        let aRecData := packRecord be inContinue.fMetaTypes inContinue.fAttrOnly pSourcePath inTarget
          pRecEntry
        let r := inOutBuff.AddData be aRecData
        if r.1 = eDSNoErr then
          addDataLoop be inContinue pSourcePath inTarget fuel (fRecIndex + 1) r.2
        else (r.1, fRecIndex, r.2)
    else (eDSNoErr, fRecIndex, inOutBuff)

/-- `CSearchNode::AddDataToOutBuff` (lines 4366-4609): the status, the continue data
and the out buffer afterwards. -/
def AddDataToOutBuff (be : Bool) (inContinue : sSearchContinueData) (inOutBuff : CBuff)
    (inContext : sSearchContextData) (inTarget : Option tDataList) :
    tDirStatus × sSearchContinueData × CBuff :=
  let pSourcePath := GetNodePath inContinue.fNodeRef inContext.fSearchNodeList
  let r := addDataLoop be inContinue pSourcePath inTarget
    (inContinue.fRecCount + 1 - inContinue.fRecIndex) inContinue.fRecIndex inOutBuff
  (r.1, { inContinue with fRecIndex := r.2.1 }, r.2.2)

/-- The loop state of `ExpandAliases`. -/
structure ExpandState where
  siResult : tDirStatus
  done : Bool
  fRecIndex : Nat
  inOutBuff : CBuff
  deriving DecidableEq, Repr

/-- One pass of the loop of `ExpandAliases` (lines 4661-4843). -/
def expandOne (be : Bool) (w : Collaborators) (bk : Backends) (inContinue : sSearchContinueData)
    (q : Query) (buffSize : Nat) (inContext : sSearchContextData) (s : ExpandState) : ExpandState :=
  let value : Except tDirStatus (List Nat × List Nat) :=
    match dsGetRecordEntry inContinue.fDataBuff s.fRecIndex with
    | .error e => .error e
    | .ok pRecEntry =>
      match pRecEntry.attrs with
      | [] => .error eDSInvalidIndex
      | pAttrEntry :: _ =>
        if strcmpEq pAttrEntry.fAttributeSignature kDS1AttrAliasData then
          match pAttrEntry.values with
          | [] => .error eDSInvalidIndex
          | pValueEntry :: _ => .ok (pRecEntry.recType, pValueEntry)
        else .error eDSInvalidIndex
  match value with
  | .error e => { s with siResult := e }
  | .ok (cpRecType, data) =>
    let a := bk.cAlias data
    if a.status ≠ eDSNoErr then { s with siResult := a.status }
    else
      let pTypeList : Except tDirStatus tDataList :=
        match a.recordType with
        | .error e => .error e
        | .ok cpAliasType =>
          if strcmpEq cpRecType kDSStdRecordTypeUserAliases
              && strcmpEq cpAliasType kDSStdRecordTypeUsers then .ok [kDSStdRecordTypeUsers]
          else if strcmpEq cpRecType kDSStdRecordTypeGroupAliases
              && strcmpEq cpAliasType kDSStdRecordTypeGroups then .ok [kDSStdRecordTypeGroups]
          else .error eDSInvalidIndex
      let s := { s with fRecIndex := s.fRecIndex + 1, done := true }
      match pTypeList with
      | .error e => { s with siResult := e }
      | .ok pTypeList =>
        match a.recordName with
        | .error e => { s with siResult := e }
        | .ok pNameList =>
          match a.recordLocation with
          | .error e => { s with siResult := e }
          | .ok pPathList =>
            let o := w.dsOpenDirNode pPathList
            if o.1 ≠ eDSNoErr then { s with siResult := o.1 }
            else
              let reply := bk.dsGetRecordList o.2 buffSize
                { q with fInRecNameList := pNameList, fInRecTypeList := some pTypeList } 0 none
              if reply.siResult ≠ eDSNoErr then { s with siResult := reply.siResult }
              else
                let myContinue : sSearchContinueData :=
                  { sSearchContinueData.zero with
                      fNodeRef := inContinue.fNodeRef, fRecIndex := 1, fRecCount := 1,
                      fAttrOnly := q.fInAttribInfoOnly, fMetaTypes := inContinue.fMetaTypes,
                      fDataBuff := some { fBufferSize := buffSize, records := reply.records } }
                let r := AddDataToOutBuff be myContinue s.inOutBuff inContext (some pPathList)
                if r.1 = kBuffFull then
                  { siResult := r.1, done := true, fRecIndex := s.fRecIndex - 1, inOutBuff := r.2.2 }
                else
                  { siResult := r.1, done := false, fRecIndex := s.fRecIndex, inOutBuff := r.2.2 }

/-- The loop of `ExpandAliases` (line 4659), at most `fuel` passes. -/
def expandLoop (be : Bool) (w : Collaborators) (bk : Backends) (inContinue : sSearchContinueData)
    (q : Query) (buffSize : Nat) (inContext : sSearchContextData) : Nat → ExpandState → ExpandState
  | 0, s => s
  | fuel + 1, s =>
    if s.fRecIndex ≤ inContinue.fRecCount ∧ s.siResult = eDSNoErr ∧ s.done = false then
      expandLoop be w bk inContinue q buffSize inContext fuel
        (expandOne be w bk inContinue q buffSize inContext s)
    else s

/-- `CSearchNode::ExpandAliases` (lines 4616-4866) called from `GetRecordList`: the
status returned, which is `eDSNoErr` on every path, the continue data and the out
buffer afterwards. The counter `fID` is declared in `CSearchNode.h`, which is not
among the source files; `inContinue->fID++` (line 4657) is taken to count in a
`uInt32`, the type of the counters that the source declares (`uInt32 recCount`,
`uInt32 nodeIndex`), so it wraps around at `2^32`. -/
def ExpandAliases (be : Bool) (w : Collaborators) (bk : Backends) (inContinue : sSearchContinueData)
    (inOutBuff : CBuff) (q : Query) (buffSize : Nat) (inContext : sSearchContextData) :
    tDirStatus × sSearchContinueData × CBuff :=
  let inContinue := { inContinue with fID := add32 inContinue.fID 1 }
  let s := expandLoop be w bk inContinue q buffSize inContext
    (inContinue.fRecCount + 1 - inContinue.fRecIndex)
    { siResult := eDSNoErr, done := false, fRecIndex := inContinue.fRecIndex, inOutBuff := inOutBuff }
  (eDSNoErr, { inContinue with fRecIndex := s.fRecIndex }, s.inOutBuff)

/-! ### `GetRecordList` -/

/-- The request `sGetRecordList`: the node reference, the size of `fInDataBuff`, the
request passed on to the backend nodes, `fOutRecEntryCount` (on entry the limit on
the records to return, 0 for none) and `fIOContinueData` (the token, `none` for
nil). -/
structure sGetRecordList where
  fInNodeRef : Nat
  fInDataBuffSize : Nat
  query : Query
  fOutRecEntryCount : Nat
  fIOContinueData : Option Nat
  deriving DecidableEq, Repr

/-- The variables of `GetRecordList` that its loop reads and writes. -/
structure LoopState where
  runState : eSearchState
  lastState : eSearchState
  siResult : tDirStatus
  recCount : Nat
  done : Bool
  pContinue : sSearchContinueData
  pContinueFreed : Bool
  inOutBuff : CBuff
  fOutRecEntryCount : Nat
  fIOContinueData : Option Nat
  bKeepOldBuffer : Bool
  context : sSearchContextData
  pSearchConfigList : List sSearchConfig
  gSNContinue : List (Nat × Nat × sSearchContinueData)
  nextToken : Nat
  locks : List LockEvent
  derefNil : Bool
  deriving DecidableEq, Repr

/-- The statements `inData->fIOContinueData = pContinue;
gSNContinue->AddItem( pContinue, inData->fInNodeRef )`: the continue data are
registered under a new token, which is handed to the caller. -/
def LoopState.addItem (s : LoopState) (fInNodeRef : Nat) : LoopState :=
  { s with fIOContinueData := some s.nextToken
           gSNContinue := s.gSNContinue ++ [(s.nextToken, fInNodeRef, s.pContinue)]
           nextToken := s.nextToken + 1 }

/-- The record count asked of the backend (lines 2441-2448 and 2494-2501). -/
def askCount (c : sSearchContinueData) : Nat :=
  if c.fLimitRecSearch > c.fTotalRecCount then c.fLimitRecSearch - c.fTotalRecCount else 0

/-- The first `switch ( runState )` of the loop of `GetRecordList` (lines
2435-2606): the task of the state. -/
def doTask (be : Bool) (w : Collaborators) (bk : Backends) (inData : sGetRecordList)
    (s : LoopState) : LoopState :=
  let buffSize := (s.pContinue.fDataBuff.map (fun b => b.fBufferSize)).getD 0
  match s.runState with
  | keGetRecordList =>
    let reply := bk.dsGetRecordList s.pContinue.fNodeRef buffSize inData.query
      (askCount s.pContinue) s.pContinue.fContextData
    { s with siResult := reply.siResult
             recCount := reply.recCount
             pContinue := { s.pContinue with
                            fDataBuff := some { fBufferSize := buffSize, records := reply.records }
                            fContextData := reply.fContextData
                            fRecCount := reply.recCount
                            fRecIndex := 1 }
             lastState := keGetRecordList }
  | keAddDataToBuff =>
    let r := AddDataToOutBuff be s.pContinue s.inOutBuff s.context none
    let renew := s.bKeepOldBuffer && r.1 = eDSNoErr
    { s with siResult := r.1
             inOutBuff := r.2.2
             pContinue :=
               if renew then
                 { r.2.1 with fDataBuff := some { fBufferSize := inData.fInDataBuffSize, records := [] } }
               else r.2.1
             bKeepOldBuffer := if renew then false else s.bKeepOldBuffer
             lastState := keAddDataToBuff }
  | keGetAliases =>
    let reply := bk.dsGetRecordList s.pContinue.fNodeRef buffSize
      { inData.query with fInRecTypeList := s.pContinue.fAliasList
                          fInAttribTypeList := s.pContinue.fAliasAttribute
                          fInAttribInfoOnly := false }
      (askCount s.pContinue) s.pContinue.fContextData
    { s with siResult := reply.siResult
             recCount := reply.recCount
             pContinue := { s.pContinue with
                            fDataBuff := some { fBufferSize := buffSize, records := reply.records }
                            fContextData := reply.fContextData
                            fRecCount := reply.recCount
                            fRecIndex := 1 }
             lastState := keGetAliases }
  | keExpandAliases =>
    let r := ExpandAliases be w bk s.pContinue s.inOutBuff inData.query inData.fInDataBuffSize
      s.context
    { s with siResult := r.1, pContinue := r.2.1, inOutBuff := r.2.2, lastState := keExpandAliases }
  | keGetNextNodeRef =>
    let r := GetNextNodeRef w s.pSearchConfigList s.pContinue.fNodeRef s.context
    { s with siResult := r.siResult
             pContinue := { s.pContinue with fNodeRef := r.outNodeRef.getD s.pContinue.fNodeRef }
             context := r.context
             pSearchConfigList := r.pSearchConfigList
             locks := s.locks ++ r.locks
             derefNil := s.derefNil || r.derefNil
             lastState := keGetNextNodeRef }
  | keSetContinueData =>
    match s.lastState with
    | keAddDataToBuff | keExpandAliases =>
      let n := s.inOutBuff.GetDataBlockCount
      let s := { s with fOutRecEntryCount := n
                        pContinue := { s.pContinue with
                                       fTotalRecCount := s.pContinue.fTotalRecCount + n
                                       fState := s.lastState } }
      { s.addItem inData.fInNodeRef with siResult := eDSNoErr }
    | keGetRecordList | keGetNextNodeRef =>
      let n := s.inOutBuff.GetDataBlockCount
      let s := { s with fOutRecEntryCount := n
                        pContinue := { s.pContinue with
                                       fTotalRecCount := s.pContinue.fTotalRecCount + n
                                       fState := keGetRecordList } }
      if s.siResult = kEndOfSearchNodeList then
        { s with siResult := eDSNoErr, fIOContinueData := none }
      else s.addItem inData.fInNodeRef
    | keBufferTooSmall =>
      let s := { s with pContinue := { s.pContinue with
                                       fState := if s.pContinue.fContextData = none then keAddDataToBuff
                                                 else keGetRecordList } }
      { s.addItem inData.fInNodeRef with siResult := eDSBufferTooSmall }
    | _ => s
  | keDone => { s with pContinueFreed := true, done := true }
  | _ => { s with done := true }

/-- The state after a node gave no records (more): the aliases of the node if alias
types are registered, the next node otherwise. -/
def aliasesOrNextNode (c : sSearchContinueData) : eSearchState :=
  if c.fAliasList ≠ none then keGetAliases else keGetNextNodeRef

/-- The test `fLimitRecSearch <= fTotalRecCount + fOutRecEntryCount &&
fLimitRecSearch != 0` (lines 2679 and 2780). -/
def limitReached (c : sSearchContinueData) (fOutRecEntryCount : Nat) : Bool :=
  c.fLimitRecSearch ≤ c.fTotalRecCount + fOutRecEntryCount && c.fLimitRecSearch ≠ 0

/-- The second `switch ( runState )` of the loop of `GetRecordList` (lines
2611-2877): the change of state. -/
def changeState (s : LoopState) : LoopState :=
  match s.runState with
  | keGetRecordList =>
    if s.siResult = eDSNoErr then
      if s.pContinue.fRecCount ≠ 0 then { s with runState := keAddDataToBuff }
      else if s.pContinue.fContextData = none then
        { s with runState := aliasesOrNextNode s.pContinue }
      else s
    else if s.siResult = eDSRecordNotFound ∨ s.siResult = eDSInvalidRecordName
        ∨ s.siResult = eDSInvalidRecordType then
      { s with runState := aliasesOrNextNode s.pContinue }
    else if s.siResult = eDSBufferTooSmall then
      { s with lastState := keBufferTooSmall, runState := keSetContinueData }
    else { s with runState := keGetNextNodeRef }
  | keAddDataToBuff =>
    let aRecCnt := s.inOutBuff.GetDataBlockCount
    if s.siResult = eDSNoErr ∨ (s.siResult = kBuffFull ∧ aRecCnt > 0) then
      let s := { s with fOutRecEntryCount := aRecCnt }
      if limitReached s.pContinue s.fOutRecEntryCount then
        { s with pContinue := { s.pContinue with
                                fTotalRecCount := s.pContinue.fTotalRecCount + s.fOutRecEntryCount
                                fState := keAddDataToBuff }
                 runState := keDone
                 fIOContinueData := none
                 siResult := eDSNoErr }
      else if s.siResult = kBuffFull then { s with runState := keSetContinueData }
      else if s.pContinue.fContextData ≠ none then
        { s with lastState := keGetRecordList, runState := keGetRecordList }
      else { s with runState := aliasesOrNextNode s.pContinue }
    else if s.siResult = kBuffFull then
      { s with runState := keSetContinueData, lastState := keBufferTooSmall }
    else { s with runState := keDone }
  | keGetAliases =>
    if s.siResult = eDSNoErr then
      if s.pContinue.fRecCount ≠ 0 then { s with runState := keExpandAliases }
      else if s.pContinue.fContextData = none then { s with runState := keGetNextNodeRef }
      else s
    else { s with runState := keGetNextNodeRef }
  | keExpandAliases =>
    if s.siResult = eDSNoErr then
      if s.pContinue.fID > 5 then
        if s.pContinue.fContextData ≠ none then
          { s with pContinue := { s.pContinue with fContextData := none, fID := 0 } }
        else s
      else
        let s := { s with fOutRecEntryCount := s.inOutBuff.GetDataBlockCount }
        if limitReached s.pContinue s.fOutRecEntryCount then
          { s with pContinue := { s.pContinue with
                                  fTotalRecCount := s.pContinue.fTotalRecCount + s.fOutRecEntryCount
                                  fState := keExpandAliases }
                   runState := keDone
                   fIOContinueData := none
                   siResult := eDSNoErr }
        else if s.pContinue.fContextData ≠ none then { s with runState := keGetAliases }
        else
          let s := { s with recCount := s.inOutBuff.GetDataBlockCount }
          if s.recCount = 0 then { s with runState := keGetNextNodeRef }
          else { s with runState := keSetContinueData }
    else if s.siResult = kBuffFull then { s with runState := keSetContinueData }
    else { s with runState := keDone }
  | keGetNextNodeRef =>
    let s := { s with recCount := s.inOutBuff.GetDataBlockCount }
    if s.siResult = eDSNoErr then
      if s.recCount = 0 then { s with runState := keGetRecordList }
      else { s with runState := keSetContinueData }
    else if s.siResult = kEndOfSearchNodeList then { s with runState := keSetContinueData }
    else { s with runState := keDone }
  | _ => { s with done := true }

/-- One pass of the loop `while ( !done )` of `GetRecordList`. -/
def loopStep (be : Bool) (w : Collaborators) (bk : Backends) (inData : sGetRecordList)
    (s : LoopState) : LoopState :=
  changeState (doTask be w bk inData s)

/-- The loop `while ( !done )` of `GetRecordList`, at most `fuel` passes: the state
when `done` is set, `none` when it is not set within `fuel` passes. -/
def runLoop (be : Bool) (w : Collaborators) (bk : Backends) (inData : sGetRecordList) :
    Nat → LoopState → Option LoopState
  | 0, s => if s.done then some s else none
  | fuel + 1, s => if s.done then some s else runLoop be w bk inData fuel (loopStep be w bk inData s)

/-- What a call of `GetRecordList` leaves behind: the status returned, the fields
`fOutRecEntryCount` and `fIOContinueData` of the request, the out buffer if it was
set up, the shared state, and whether a nil pointer was dereferenced. -/
structure GetRecordListResult where
  siResult : tDirStatus
  fOutRecEntryCount : Nat
  fIOContinueData : Option Nat
  outBuff : Option CBuff
  state : SearchNodeState
  derefNil : Bool
  deriving DecidableEq, Repr

/-- The `catch` of `GetRecordList` (lines 2884-2892) for the status `err`. -/
def catchGetRecordList (err : tDirStatus) (inData : sGetRecordList) (st : SearchNodeState)
    (pContext : Option sSearchContextData) (fIOContinueData : Option Nat) : GetRecordListResult :=
  let signalRef : List LockEvent :=
    match pContext with
    | some c => if c.pSearchListMutex then [LockEvent.Signal (Mutex.pSearchListMutex inData.fInNodeRef)]
                else []
    | none => []
  { siResult := err
    fOutRecEntryCount := inData.fOutRecEntryCount
    fIOContinueData := fIOContinueData
    outBuff := none
    state := { st with
               locks := st.locks ++ [LockEvent.Signal Mutex.fMutex] ++ signalRef
               gSNNodeRef := match pContext with
                 | some c => setItemData st.gSNNodeRef inData.fInNodeRef c
                 | none => st.gSNNodeRef }
    derefNil := pContext.isNone }

/-- The constant `'StdA'`, the buffer type of a record list. -/
def kStdA : Nat := 1400136769

/-- `CSearchNode::GetRecordList` (lines 2258-2903), its loop making at most `fuel`
passes; `none` when the loop does not end within them. -/
def GetRecordList (be : Bool) (w : Collaborators) (bk : Backends) (fDirRef : Nat)
    (fuel : Nat) (st : SearchNodeState) (inData : sGetRecordList) : Option GetRecordListResult :=
  match GetItemData st.gSNNodeRef inData.fInNodeRef with
  | none => some (catchGetRecordList eDSInvalidNodeRef inData st none inData.fIOContinueData)
  | some pContext =>
    if pContext.pSearchListMutex = false then
      some (catchGetRecordList eDSBadContextData inData st (some pContext) inData.fIOContinueData)
    else
      let st := { st with locks := st.locks ++
        [LockEvent.Wait Mutex.fMutex, LockEvent.Wait (Mutex.pSearchListMutex inData.fInNodeRef),
         LockEvent.Wait Mutex.fMutex, LockEvent.Signal Mutex.fMutex] }
      match FindSearchConfigWithKey st.pSearchConfigList pContext.fSearchConfigKey with
      | none => some (catchGetRecordList eDSInvalidNodeRef inData st (some pContext) inData.fIOContinueData)
      | some aSearchConfig =>
        let changed : Bool :=
          pContext.bListChanged && pContext.fSearchConfigKey ≠ ConfigKey.eDSNetworkSearchNodeName
        if changed && inData.fIOContinueData ≠ none then
          some (catchGetRecordList eDSInvalidContinueData inData st (some pContext)
            inData.fIOContinueData)
        else
          let pContext : sSearchContextData :=
            if changed then
              { pContext with
                fSearchNodeList := DupSearchListWithNewRefs aSearchConfig.fSearchNodeList
                bAutoSearchList :=
                  if aSearchConfig.fSearchPolicy = kNetInfoSearchPolicy then true else false
                bListChanged := false }
            else pContext
          let st := if changed then { st with gSNContinue := RemoveItems st.gSNContinue inData.fInNodeRef }
                    else st
          let st := { st with locks := st.locks ++ [LockEvent.Signal Mutex.fMutex] }
          if pContext.fSearchNodeList = [] then
            some (catchGetRecordList eSearchPathNotDefined inData st (some pContext)
              inData.fIOContinueData)
          else
            let entry : Except GetRecordListResult LoopState :=
              let s0 : LoopState :=
                { runState := keGetRecordList, lastState := keUnknownState, siResult := eDSNoErr,
                  recCount := 0, done := false, pContinue := sSearchContinueData.zero,
                  pContinueFreed := false,
                  inOutBuff := CBuff.Initialize inData.fInDataBuffSize kStdA,
                  fOutRecEntryCount := 0, fIOContinueData := none, bKeepOldBuffer := false,
                  context := pContext, pSearchConfigList := st.pSearchConfigList,
                  gSNContinue := st.gSNContinue, nextToken := st.nextToken, locks := st.locks,
                  derefNil := false }
              match inData.fIOContinueData with
              | some token =>
                match VerifyItem st.gSNContinue token with
                | some pInContinue =>
                  let oldSize := (pInContinue.fDataBuff.map (fun b => b.fBufferSize)).getD 0
                  let resized : Bool := inData.fInDataBuffSize ≠ oldSize
                  let keep : Bool := resized && pInContinue.fState = keAddDataToBuff
                  let pContinue : sSearchContinueData :=
                    { pInContinue with
                      fID := 0
                      fDataBuff :=
                        if resized && !keep then
                          some { fBufferSize := inData.fInDataBuffSize, records := [] }
                        else pInContinue.fDataBuff }
                  .ok { s0 with pContinue := pContinue
                                bKeepOldBuffer := keep
                                gSNContinue := RemoveItem st.gSNContinue token
                                runState := pContinue.fState }
                | none =>
                  .error (catchGetRecordList eDSInvalidContinueData inData st (some pContext)
                    inData.fIOContinueData)
              | none =>
                let pContinue : sSearchContinueData :=
                  { sSearchContinueData.zero with
                    fDataBuff := some { fBufferSize := inData.fInDataBuffSize, records := [] } }
                let r := GetNextNodeRef w st.pSearchConfigList 0 pContext
                let pContinue := { pContinue with fNodeRef := r.outNodeRef.getD 0 }
                if r.siResult ≠ eDSNoErr then
                  .error (catchGetRecordList r.siResult inData
                    { st with pSearchConfigList := r.pSearchConfigList, locks := st.locks ++ r.locks }
                    (some r.context) inData.fIOContinueData)
                else
                  let pContinue :=
                    { pContinue with fDirRef := fDirRef, fRecIndex := 1, fTotalRecCount := 0,
                                     fLimitRecSearch := inData.fOutRecEntryCount }
                  let pContinue := DoAliasCheck inData.query.fInRecTypeList
                    inData.query.fInAttribTypeList pContinue
                  .ok { s0 with pContinue := pContinue, context := r.context,
                                pSearchConfigList := r.pSearchConfigList,
                                locks := st.locks ++ r.locks }
            match entry with
            | .error res => some res
            | .ok s0 =>
              match runLoop be w bk inData fuel s0 with
              | none => none
              | some s =>
                some
                  { siResult := s.siResult
                    fOutRecEntryCount := s.fOutRecEntryCount
                    fIOContinueData := s.fIOContinueData
                    outBuff := some s.inOutBuff
                    state :=
                      { pSearchConfigList := s.pSearchConfigList
                        gSNNodeRef := setItemData st.gSNNodeRef inData.fInNodeRef s.context
                        gSNContinue := s.gSNContinue
                        nextToken := s.nextToken
                        locks := s.locks ++ [LockEvent.Signal (Mutex.pSearchListMutex inData.fInNodeRef)] }
                    derefNil := s.derefNil }

/-! ## Scenario: one local node holding three user records -/

namespace Scenario

/-- The three records of the local node. -/
def localRecords : List Record :=
  [ { recType := kDSStdRecordTypeUsers, recName := bytesOf "amy",
      attrs := [{ fAttributeSignature := bytesOf "dsAttrTypeStandard:UniqueID", values := [bytesOf "501"] }] },
    { recType := kDSStdRecordTypeUsers, recName := bytesOf "bob",
      attrs := [{ fAttributeSignature := bytesOf "dsAttrTypeStandard:UniqueID", values := [bytesOf "502"] }] },
    { recType := kDSStdRecordTypeUsers, recName := bytesOf "cyd",
      attrs := [{ fAttributeSignature := bytesOf "dsAttrTypeStandard:UniqueID", values := [bytesOf "503"] }] } ]

/-- The reference under which the local node opens. -/
def localRef : Nat := 101

/-- The collaborators: only the local node can be opened, there are no default LDAP
paths and no default network nodes. -/
def world : Collaborators :=
  { discoverLocal := .ok (bytesOf "/NetInfo/root")
    ldapPaths := []
    networkPages := []
    newConfig := (eDSNoErr, { custom := [], dhcpLDAPEnabled := false })
    dsOpenDirNode := fun name =>
      if name = dsBuildFromPathPriv kstrDefaultLocalNodeName then (eDSNoErr, localRef)
      else (eDSOpenNodeFailed, 0) }

/-- The backend: the local node answers a request for user records with its three
records at once and any other request with no records. -/
def backends : Backends :=
  { dsGetRecordList := fun nodeRef _ q _ _ =>
      if nodeRef = localRef ∧ q.fInRecTypeList = some [kDSStdRecordTypeUsers] then
        { siResult := eDSNoErr, recCount := 3, records := localRecords, fContextData := none }
      else { siResult := eDSNoErr, recCount := 0, records := [], fContextData := none }
    cAlias := fun _ =>
      { status := eDSInvalidBuffFormat, recordType := .error eDSInvalidBuffFormat,
        recordName := .error eDSInvalidBuffFormat, recordLocation := .error eDSInvalidBuffFormat } }

/-- The Authentication search config before a policy is set. -/
def baseConfig : sSearchConfig :=
  { fSearchNodeList := []
    fSearchPolicy := 0
    pConfigFromXML := some { custom := [], dhcpLDAPEnabled := false }
    fSearchNodeName := kstrAuthenticationNodeName
    fSearchConfigFilePrefix := none
    fDirNodeType := 4
    fSearchConfigKey := ConfigKey.eDSAuthenticationSearchNodeName }

/-- The Authentication search config switched to the LocalOnly policy. -/
def localOnlyConfig : sSearchConfig := (SwitchSearchPolicy world kLocalSearchPolicy baseConfig).config

/-- The reference the client holds. -/
def clientRef : Nat := 7

/-- The shared state after the client opened the Authentication search node. -/
def opened : SearchNodeState :=
  { pSearchConfigList := [localOnlyConfig]
    gSNNodeRef :=
      match (OpenDirNode world [localOnlyConfig] (some kstrAuthenticationNodeName)).2 with
      | some c => [(clientRef, c)]
      | none => []
    gSNContinue := []
    nextToken := 1
    locks := [] }

/-- The request: all user records with all attributes, no limit, into a buffer of
`size` bytes, with the token `token`. -/
def request (size : Nat) (token : Option Nat) : sGetRecordList :=
  { fInNodeRef := clientRef
    fInDataBuffSize := size
    query := { fInRecNameList := [bytesOf "dsRecordsAll"], fInPatternMatch := 1,
               fInRecTypeList := some [kDSStdRecordTypeUsers],
               fInAttribTypeList := some [bytesOf "dsAttrTypeStandard:UniqueID"],
               fInAttribInfoOnly := false }
    fOutRecEntryCount := 0
    fIOContinueData := token }

end Scenario

/-! ## Reading a packed record back, and sample inputs -/

/-- The accessors in a row: `GetRecordEntry` for record `uiRec`, `GetAttributeEntry`
for its attribute `i`, `GetAttributeValue` for the value `j` of it; the bytes of the
value. -/
def readBack (be : Bool) (b : CBuff) (uiRec i j : Nat) : Except tDirStatus (List Nat) :=
  match GetRecordEntry be b uiRec with
  | .error e => .error e
  | .ok re =>
    match (GetAttributeEntry be b.mem b.fBufferSize re.attrContextOffset i).2 with
    | .error e => .error e
    | .ok ae =>
      match (GetAttributeValue be b.mem b.fBufferSize ae.valueContextOffset j).2 with
      | .error e => .error e
      | .ok v => .ok (v.fBufferData b.mem)

/-- The names of the records in the out buffer, read with `GetRecordEntry`. -/
def recordNames (be : Bool) (b : CBuff) : List (Except tDirStatus (List Nat)) :=
  (List.range b.GetDataBlockCount).map (fun i =>
    match GetRecordEntry be b (i + 1) with
    | .ok re => .ok re.pRecName
    | .error e => .error e)

/-- A record with a value that holds a zero byte. -/
def binaryRecord : Record :=
  { recType := bytesOf "dsRecTypeStandard:Computers", recName := bytesOf "host",
    attrs := [{ fAttributeSignature := bytesOf "dsAttrTypeStandard:ENetAddress",
                values := [[65, 0, 66]] }] }

/-- A record of C strings: two attributes, of two values and of one. -/
def sampleRecord : Record :=
  { recType := bytesOf "dsRecTypeStandard:Users", recName := bytesOf "amy",
    attrs := [{ fAttributeSignature := bytesOf "dsAttrTypeStandard:RecordName",
                values := [bytesOf "amy", bytesOf "Amy A."] },
              { fAttributeSignature := bytesOf "dsAttrTypeStandard:UniqueID",
                values := [bytesOf "501"] }] }

/-- The out buffer of 200 bytes after `sampleRecord` was added. -/
def sampleBuff (be : Bool) : CBuff :=
  ((CBuff.Initialize 200 kStdA).AddData be
    (packRecord be keNullMetaType false none none sampleRecord)).2

/-- The bytes of a record with an empty type, an empty name and one attribute whose
block declares 100 bytes and ends there, in big-endian order. -/
def truncatedRecord : List Nat := [0, 0, 0, 0, 0, 1, 0, 0, 0, 100]

/-- The out buffer of 64 bytes in which `truncatedRecord` is the only block; the
block ends where the buffer ends. -/
def truncatedBuff : CBuff := ((CBuff.Initialize 64 kStdA).AddData true truncatedRecord).2

/-- The bytes of a record with an empty type, an empty name and one attribute block
of 10 bytes: an empty signature and one value, which declares `0xFFFFFFFF` bytes and
holds 2; in big-endian order. -/
def overflowRecord : List Nat :=
  [0, 0, 0, 0, 0, 1, 0, 0, 0, 10, 0, 0, 0, 1, 255, 255, 255, 255, 65, 66]

/-- The out buffer of 64 bytes in which `overflowRecord` is the only block. -/
def overflowBuff : CBuff := ((CBuff.Initialize 64 kStdA).AddData true overflowRecord).2

/-- The collaborators of a host with no default network nodes. -/
def noNetworkNodes : Collaborators :=
  { discoverLocal := .ok (bytesOf "/NetInfo/root")
    ldapPaths := []
    networkPages := [.ok []]
    newConfig := (eDSNoErr, { custom := [], dhcpLDAPEnabled := false })
    dsOpenDirNode := fun _ => (eDSOpenNodeFailed, 0) }

/-! ## The notice of a policy switch, and the start of `AttributeValueSearch` -/

/-- `CSearchNode::ContextSetListChangedProc` (lines 5504-5517): the context of a node
reference, which is one whose mutex pointer is set, gets `bListChanged`. -/
def ContextSetListChangedProc (pContext : sSearchContextData) : sSearchContextData :=
  if pContext.pSearchListMutex then { pContext with bListChanged := true } else pContext

/-- Modelled from the spec: `CPlugInRef::DoOnAllItems` (`CPlugInRef.h` is not among
the source files): the procedure is applied to the data of every registered item. -/
def DoOnAllItems (proc : sSearchContextData → sSearchContextData)
    (l : List (Nat × sSearchContextData)) : List (Nat × sSearchContextData) :=
  l.map (fun e => (e.1, proc e.2))

/-- The shared state after `SwitchSearchPolicy` told the contexts of a switch (line
569): `gSNNodeRef->DoOnAllItems( CSearchNode::ContextSetListChangedProc )`. -/
def SearchNodeState.listChanged (st : SearchNodeState) : SearchNodeState :=
  { st with gSNNodeRef := DoOnAllItems ContextSetListChangedProc st.gSNNodeRef }

/-- The request `sDoAttrValueSearchWithData` as far as the start of
`AttributeValueSearch` reads it: the node reference, the size of `fOutDataBuff`,
`fOutMatchRecordCount` and `fIOContinueData` (the token, `none` for nil). -/
structure sDoAttrValueSearchWithData where
  fInNodeRef : Nat
  fOutDataBuffSize : Nat
  fOutMatchRecordCount : Nat
  fIOContinueData : Option Nat
  deriving DecidableEq, Repr

/-- What a call of `AttributeValueSearch` leaves behind when a status is thrown at
its start: the status returned, the fields `fOutMatchRecordCount` and
`fIOContinueData` of the request, the shared state, and whether a nil pointer was
dereferenced. -/
structure AttributeValueSearchResult where
  siResult : tDirStatus
  fOutMatchRecordCount : Nat
  fIOContinueData : Option Nat
  state : SearchNodeState
  derefNil : Bool
  deriving DecidableEq, Repr

/-- The `catch` of `AttributeValueSearch` (lines 3980-3988) for the status `err`:
`fMutex` is signalled, then `pContext->pSearchListMutex` is read, also when
`pContext` is nil. -/
def catchAttributeValueSearch (err : tDirStatus) (inData : sDoAttrValueSearchWithData)
    (st : SearchNodeState) (pContext : Option sSearchContextData) : AttributeValueSearchResult :=
  let signalRef : List LockEvent :=
    match pContext with
    | some c => if c.pSearchListMutex then [LockEvent.Signal (Mutex.pSearchListMutex inData.fInNodeRef)]
                else []
    | none => []
  { siResult := err
    fOutMatchRecordCount := inData.fOutMatchRecordCount
    fIOContinueData := inData.fIOContinueData
    state := { st with
               locks := st.locks ++ [LockEvent.Signal Mutex.fMutex] ++ signalRef
               gSNNodeRef := match pContext with
                 | some c => setItemData st.gSNNodeRef inData.fInNodeRef c
                 | none => st.gSNNodeRef }
    derefNil := pContext.isNone }

/-- The start of `CSearchNode::AttributeValueSearch` (lines 3336-3393), from the
lookup of the context to the test of its node list: `.error` is what the call leaves
behind when a status is thrown there, `.ok` the context and the shared state with
which the call goes on to the continue data. -/
def AttributeValueSearch_start (st : SearchNodeState) (inData : sDoAttrValueSearchWithData) :
    Except AttributeValueSearchResult (sSearchContextData × SearchNodeState) :=
  match GetItemData st.gSNNodeRef inData.fInNodeRef with
  | none => .error (catchAttributeValueSearch eDSInvalidNodeRef inData st none)
  | some pContext =>
    if pContext.pSearchListMutex = false then
      .error (catchAttributeValueSearch eDSBadContextData inData st (some pContext))
    else
      let st := { st with locks := st.locks ++
        [LockEvent.Wait Mutex.fMutex, LockEvent.Wait (Mutex.pSearchListMutex inData.fInNodeRef),
         LockEvent.Wait Mutex.fMutex, LockEvent.Signal Mutex.fMutex] }
      match FindSearchConfigWithKey st.pSearchConfigList pContext.fSearchConfigKey with
      | none => .error (catchAttributeValueSearch eDSInvalidNodeRef inData st (some pContext))
      | some aSearchConfig =>
        let changed : Bool :=
          pContext.bListChanged && pContext.fSearchConfigKey ≠ ConfigKey.eDSNetworkSearchNodeName
        if changed && inData.fIOContinueData ≠ none then
          .error (catchAttributeValueSearch eDSInvalidContinueData inData st (some pContext))
        else
          let pContext : sSearchContextData :=
            if changed then
              { pContext with
                fSearchNodeList := DupSearchListWithNewRefs aSearchConfig.fSearchNodeList
                bAutoSearchList :=
                  if aSearchConfig.fSearchPolicy = kNetInfoSearchPolicy then true else false
                bListChanged := false }
            else pContext
          let st := if changed then { st with gSNContinue := RemoveItems st.gSNContinue inData.fInNodeRef }
                    else st
          let st := { st with locks := st.locks ++ [LockEvent.Signal Mutex.fMutex] }
          if pContext.fSearchNodeList = [] then
            .error (catchAttributeValueSearch eSearchPathNotDefined inData st (some pContext))
          else .ok (pContext, st)

/-- What the loop of `GetRecordList` keeps from pass to pass, for a token `t` and a
config key `key`: the table of continue data does not hold `t`, every token handed
out so far is below `nextToken`, the node list of the context is not empty, the
context is one of a node reference with the key `key`, and the config of that key
is in the list. -/
def LoopState.Keeps (t : Nat) (key : ConfigKey) (s : LoopState) : Prop :=
  VerifyItem s.gSNContinue t = none ∧ t < s.nextToken ∧ s.context.fSearchNodeList ≠ []
    ∧ s.context.pSearchListMutex = true ∧ s.context.fSearchConfigKey = key
    ∧ FindSearchConfigWithKey s.pSearchConfigList key ≠ none

/-! ## `DoPlugInCustomCall` -/

/-- A `tDataBuffer` of a request; `fBufferData` is `none` for nil. -/
structure tDataBuffer where
  fBufferSize : Nat
  fBufferLength : Nat
  fBufferData : Option (List Nat)
  deriving DecidableEq, Repr

/-- The request `sDoPlugInCustomCall`; the buffers are `none` for nil. -/
structure sDoPlugInCustomCall where
  fInNodeRef : Nat
  fInRequestCode : Nat
  fInRequestData : Option tDataBuffer
  fOutRequestResponse : Option tDataBuffer
  deriving DecidableEq, Repr

/-- The value of `sizeof( AuthorizationExternalForm )`, which is
`kAuthorizationExternalFormLength` of the Security framework. -/
def kAuthorizationExternalFormLength : Nat := 32

/-- The value of `sizeof( CFIndex )`. -/
def kSizeofCFIndex : Nat := 4

/-- The right that `DoPlugInCustomCall` asks for. -/
def kConfigureRight : List Nat := bytesOf "system.services.directory.configure"

/-- The value of `errAuthorizationSuccess`. -/
def errAuthorizationSuccess : Int := 0

/-- A `uInt32` read as `sInt32`. -/
def toSInt32 (n : Nat) : Int :=
  if n % U32 < 2147483648 then (n % U32 : Nat) else ((n % U32 : Nat) : Int) - 4294967296

/-- The value of a config key as `uInt32`: the pattern constants are the ones of
`DirServicesTypes.h`. -/
def ConfigKey.value : ConfigKey → Nat
  | .eDSAuthenticationSearchNodeName => 8705
  | .eDSContactsSearchNodeName => 8708
  | .eDSNetworkSearchNodeName => 8709
  | .otherKey k => k

/-- What the Security framework and the configuration object answer to
`DoPlugInCustomCall`.

* `AuthorizationCreateFromExternalForm`: the status and the authorization reference
  for the external form, the first bytes of the request data.
* `AuthorizationCopyRights`: the status for an authorization reference and the name
  of the right asked for.
* `SetSearchPolicy`, `SetListArray` (on the property list parsed from the XML data)
  and `SetDHCPLDAPDictionary` (the same): the configuration object afterwards.
* `WriteConfig`: the status of writing the configuration file.
* `dhcpLDAPXML`: the XML data of the dictionary that `GetDHCPLDAPDictionary`
  returns, `none` when there is no dictionary or no data can be made of it. -/
structure ConfigCollaborators where
  AuthorizationCreateFromExternalForm : List Nat → Int × Nat
  AuthorizationCopyRights : Nat → List Nat → Int
  SetSearchPolicy : CConfigs → Nat → CConfigs
  SetListArray : CConfigs → List Nat → CConfigs
  SetDHCPLDAPDictionary : CConfigs → List Nat → CConfigs
  WriteConfig : CConfigs → tDirStatus
  dhcpLDAPXML : CConfigs → Option (List Nat)

/-- What a call of `DoPlugInCustomCall` leaves behind: the status returned, the
shared state, the response buffer, and what the call of `SwitchSearchPolicy` left
behind if one was made. -/
structure CustomCallResult where
  siResult : tDirStatus
  state : SearchNodeState
  fOutRequestResponse : Option tDataBuffer
  switched : Option SwitchResult
  deriving DecidableEq, Repr

/-- The `catch` of `DoPlugInCustomCall` (lines 5069-5073) for the status `err`. -/
def catchCustomCall (err : tDirStatus) (st : SearchNodeState) (resp : Option tDataBuffer) :
    CustomCallResult :=
  { siResult := err
    state := { st with locks := st.locks ++ [LockEvent.Signal Mutex.fMutex] }
    fOutRequestResponse := resp
    switched := none }

/-- The calls of `ContextSetListChangedProc` on the mutexes: a wait and a signal on
the mutex of every node reference. -/
def listChangedLocks (l : List (Nat × sSearchContextData)) : List LockEvent :=
  l.flatMap (fun e =>
    if e.2.pSearchListMutex then
      [LockEvent.Wait (Mutex.pSearchListMutex e.1), LockEvent.Signal (Mutex.pSearchListMutex e.1)]
    else [])

/-- The call `SwitchSearchPolicy( inSearchPolicy, aSearchConfig )` on the config of
key `key`, which is `aSearchConfig` at that moment: the config is stored back, the
contexts are told when the switch says so, `fMutex` is waited for and signalled. -/
def switchConfig (w : Collaborators) (st : SearchNodeState) (key : ConfigKey)
    (inSearchPolicy : Nat) (aSearchConfig : sSearchConfig) : SearchNodeState × SwitchResult :=
  let r := SwitchSearchPolicy w inSearchPolicy aSearchConfig
  ({ st with
     pSearchConfigList := updateConfig st.pSearchConfigList key (fun _ => r.config)
     gSNNodeRef := if r.notified then DoOnAllItems ContextSetListChangedProc st.gSNNodeRef
                   else st.gSNNodeRef
     locks := st.locks ++ [LockEvent.Wait Mutex.fMutex]
       ++ (if r.notified then listChangedLocks st.gSNNodeRef else [])
       ++ [LockEvent.Signal Mutex.fMutex] }, r)

/-- The statements `SetSearchPolicy( policy ); siResult = WriteConfig()` on the
configuration object of the config when it has one (lines 4935-4939): the status
and the config afterwards. -/
def saveSearchPolicy (a : ConfigCollaborators) (siResult : tDirStatus) (policy : Nat)
    (cfg : sSearchConfig) : tDirStatus × sSearchConfig :=
  match cfg.pConfigFromXML with
  | some x =>
    let x := a.SetSearchPolicy x policy
    (a.WriteConfig x, { cfg with pConfigFromXML := some x })
  | none => (siResult, cfg)

/-- The `switch ( aRequest )` of `DoPlugInCustomCall` (lines 4923-5065), which the
call reaches with the authorization granted. -/
def customRequest (be : Bool) (w : Collaborators) (a : ConfigCollaborators) (st : SearchNodeState)
    (inData : sDoPlugInCustomCall) (bufLen : Nat) (data : List Nat)
    (pContext : sSearchContextData) : CustomCallResult :=
  let st := { st with locks := st.locks ++
    [LockEvent.Wait Mutex.fMutex, LockEvent.Wait Mutex.fMutex, LockEvent.Signal Mutex.fMutex] }
  let resp := inData.fOutRequestResponse
  let key := pContext.fSearchConfigKey
  let finish (siResult : tDirStatus) (st : SearchNodeState) (resp : Option tDataBuffer)
      (switched : Option SwitchResult) : CustomCallResult :=
    { siResult := siResult
      state := { st with locks := st.locks ++ [LockEvent.Signal Mutex.fMutex] }
      fOutRequestResponse := resp
      switched := switched }
  match FindSearchConfigWithKey st.pSearchConfigList key with
  | none => catchCustomCall eDSInvalidNodeRef st resp
  | some aSearchConfig =>
    if aSearchConfig.fSearchNodeList = [] then catchCustomCall eSearchPathNotDefined st resp
    else
      let aRequest := inData.fInRequestCode
      let policyOf : Option Nat :=
        if aRequest = 111 then some kNetInfoSearchPolicy
        else if aRequest = 222 then some kLocalSearchPolicy
        else if aRequest = 333 then some kCustomSearchPolicy
        else none
      match policyOf with
      | some policy =>
        let sw := switchConfig w st key policy aSearchConfig
        let saved := saveSearchPolicy a eDSNoErr policy sw.2.config
        finish saved.1
          { sw.1 with pSearchConfigList := updateConfig sw.1.pSearchConfigList key (fun _ => saved.2) }
          resp (some sw.2)
      | none =>
        let xmlDataLength := toSInt32 (bufLen - kAuthorizationExternalFormLength)
        let xmlData := (data.drop kAuthorizationExternalFormLength).take xmlDataLength.toNat
        if aRequest = 444 then
          if xmlDataLength ≤ 0 then catchCustomCall eDSInvalidBuffFormat st resp
          else
            let saved : tDirStatus × sSearchConfig :=
              match aSearchConfig.pConfigFromXML with
              | some x =>
                let x := a.SetListArray x xmlData
                (a.WriteConfig x, { aSearchConfig with pConfigFromXML := some x })
              | none => (eDSNoErr, aSearchConfig)
            let sw := switchConfig w st key kCustomSearchPolicy saved.2
            finish saved.1 sw.1 resp (some sw.2)
        else if aRequest = 555 then
          match resp with
          | none => catchCustomCall eDSNullDataBuff st resp
          | some out =>
            match out.fBufferData with
            | none => catchCustomCall eDSEmptyBuffer st resp
            | some old =>
              if out.fBufferSize < kSizeofCFIndex then catchCustomCall eDSInvalidBuffFormat st resp
              else
                match aSearchConfig.pConfigFromXML with
                | some x =>
                  let len := ((a.dhcpLDAPXML x).map (fun d => d.length)).getD 0
                  finish eDSNoErr st
                    (some { out with fBufferData := some (enc32 be len ++ old.drop kSizeofCFIndex)
                                     fBufferLength := kSizeofCFIndex }) none
                | none => finish eDSNoErr st resp none
        else if aRequest = 556 then
          match resp with
          | none => catchCustomCall eDSNullDataBuff st resp
          | some out =>
            match out.fBufferData with
            | none => catchCustomCall eDSEmptyBuffer st resp
            | some old =>
              match aSearchConfig.pConfigFromXML with
              | some x =>
                match a.dhcpLDAPXML x with
                | some xml =>
                  if out.fBufferSize < xml.length % U32 then catchCustomCall eDSBufferTooSmall st resp
                  else
                    finish eDSNoErr st
                      (some { out with fBufferData := some (xml ++ old.drop xml.length)
                                       fBufferLength := xml.length }) none
                | none => finish eDSNoErr st resp none
              | none => finish eDSNoErr st resp none
        else if aRequest = 557 then
          if xmlDataLength ≤ 0 then catchCustomCall eDSInvalidBuffFormat st resp
          else
            let saved : tDirStatus × sSearchConfig :=
              match aSearchConfig.pConfigFromXML with
              | some x =>
                let x := a.SetDHCPLDAPDictionary x xmlData
                (a.WriteConfig x, { aSearchConfig with pConfigFromXML := some x })
              | none => (eDSNoErr, aSearchConfig)
            let st := { st with pSearchConfigList := updateConfig st.pSearchConfigList key (fun _ => saved.2) }
            if saved.2.fSearchConfigKey.value = kNetInfoSearchPolicy then
              let sw := switchConfig w st key saved.2.fSearchConfigKey.value saved.2
              finish saved.1 sw.1 resp (some sw.2)
            else finish saved.1 st resp none
        else finish eDSNoErr st resp none

/-- `CSearchNode::DoPlugInCustomCall` (lines 4872-5083); `inData` is `none` for
nil. -/
def DoPlugInCustomCall (be : Bool) (w : Collaborators) (a : ConfigCollaborators)
    (st : SearchNodeState) (inData : Option sDoPlugInCustomCall) : CustomCallResult :=
  match inData with
  | none => catchCustomCall eDSNullParameter st none
  | some inData =>
    let resp := inData.fOutRequestResponse
    match inData.fInRequestData with
    | none => catchCustomCall eDSNullDataBuff st resp
    | some fInRequestData =>
      match fInRequestData.fBufferData with
      | none => catchCustomCall eDSEmptyBuffer st resp
      | some data =>
        match GetItemData st.gSNNodeRef inData.fInNodeRef with
        | none => catchCustomCall eDSInvalidNodeRef st resp
        | some pContext =>
          if pContext.fSearchConfigKey = ConfigKey.eDSNetworkSearchNodeName then
            catchCustomCall eDSInvalidNodeRef st resp
          else
            let bufLen := fInRequestData.fBufferLength
            if bufLen < kAuthorizationExternalFormLength then
              catchCustomCall eDSInvalidBuffFormat st resp
            else
              let auth := a.AuthorizationCreateFromExternalForm
                (data.take kAuthorizationExternalFormLength)
              if auth.1 ≠ errAuthorizationSuccess then catchCustomCall eDSPermissionError st resp
              else if a.AuthorizationCopyRights auth.2 kConfigureRight ≠ errAuthorizationSuccess then
                catchCustomCall eDSPermissionError st resp
              else customRequest be w a st inData bufLen data pContext

/-- The request carries data that `AuthorizationCreateFromExternalForm` converts and
for which `AuthorizationCopyRights` grants the right to configure. -/
def grantsConfigure (a : ConfigCollaborators) (inData : Option sDoPlugInCustomCall) : Bool :=
  match inData with
  | none => false
  | some inData =>
    match inData.fInRequestData with
    | none => false
    | some fInRequestData =>
      match fInRequestData.fBufferData with
      | none => false
      | some data =>
        let auth := a.AuthorizationCreateFromExternalForm (data.take kAuthorizationExternalFormLength)
        auth.1 = errAuthorizationSuccess
          && a.AuthorizationCopyRights auth.2 kConfigureRight = errAuthorizationSuccess

/-! ## `GetDirNodeInfo` -/

/-- The constant `kDS1AttrSearchPath` of `DirServicesConst.h`. -/
def kDS1AttrSearchPath : List Nat := bytesOf "dsAttrTypeStandard:SearchPath"
/-- The constant `kDS1AttrNSPSearchPath` of `DirServicesConst.h`. -/
def kDS1AttrNSPSearchPath : List Nat := bytesOf "dsAttrTypeStandard:NSPSearchPath"
/-- The constant `kDS1AttrLSPSearchPath` of `DirServicesConst.h`. -/
def kDS1AttrLSPSearchPath : List Nat := bytesOf "dsAttrTypeStandard:LSPSearchPath"
/-- The constant `kDS1AttrCSPSearchPath` of `DirServicesConst.h`. -/
def kDS1AttrCSPSearchPath : List Nat := bytesOf "dsAttrTypeStandard:CSPSearchPath"
/-- The constant `kDS1AttrSearchPolicy` of `DirServicesConst.h`. -/
def kDS1AttrSearchPolicy : List Nat := bytesOf "dsAttrTypeStandard:SearchPolicy"
/-- The constant `kDS1AttrReadOnlyNode` of `DirServicesConst.h`. -/
def kDS1AttrReadOnlyNode : List Nat := bytesOf "dsAttrTypeStandard:ReadOnlyNode"

/-- The record type of the node info, `"dsAttrTypeStandard:SearchNodeInfo"`. -/
def kSearchNodeInfoType : List Nat := bytesOf "dsAttrTypeStandard:SearchNodeInfo"

/-- The constant `'Gdni'`, the buffer type of a node info. -/
def kGdni : Nat := 1197764201

/-- The request `sGetDirNodeInfo`: the node reference, the attribute types asked
for (what `CAttributeList` makes of `fInDirNodeInfoTypeList`), `fInAttrInfoOnly`,
the size of `fOutDataBuff` and the reference `fOutAttrListRef` under which the new
context is registered. -/
structure sGetDirNodeInfo where
  fInNodeRef : Nat
  fInDirNodeInfoTypeList : List (List Nat)
  fInAttrInfoOnly : Bool
  fOutDataBuffSize : Nat
  fOutAttrListRef : Nat
  deriving DecidableEq, Repr

/-- The record type and name of the node info (lines 1847-1862): `aRecData` and
`searchNodeNameBufLen` afterwards; `fSearchNodeName` is `none` for nil. -/
def nodeInfoHeader (be : Bool) (fSearchNodeName : Option (List Nat)) : List Nat × Nat :=
  let aRecData := AppendString (AppendShort be [] (strlen kSearchNodeInfoType)) kSearchNodeInfoType
  match fSearchNodeName with
  | some name => (AppendString (AppendShort be aRecData (strlen name)) name, add32 (strlen name) 2)
  | none =>
    (AppendString (AppendShort be aRecData (strlen (bytesOf "SearchNodeInfo")))
      (bytesOf "SearchNodeInfo"), 16)

/-- The names `p = pListPtr->fNodeName` of the nodes of a list. -/
def nodeNames (l : List sSearchList) : List (List Nat) := l.map (fun n => n.fNodeName.getD [])

/-- The list holds a node whose `fNodeName` is nil, on which `::strlen( p )` reads
through the nil pointer. -/
def nilName (l : List sSearchList) : Bool := l.any (fun n => n.fNodeName.isNone)

/-- The block that one attribute of the node info adds to `aAttrData` (for instance
lines 1869-1908): the name, and when values are asked for the value count and the
values; then the length of all that in front. -/
def nodeInfoBlock (be : Bool) (fInAttrInfoOnly : Bool) (a : List Nat × List (List Nat)) : List Nat :=
  let aTmpData := AppendString (AppendShort be [] (strlen a.1)) a.1
  let aTmpData :=
    if fInAttrInfoOnly = false then
      a.2.foldl (fun d p => AppendString (AppendLong be d (strlen p)) p)
        (AppendShort be aTmpData a.2.length)
    else aTmpData
  AppendBlock (AppendLong be [] aTmpData.length) aTmpData

/-- The search path of the Automatic policy as `GetDirNodeInfo` puts it together
(lines 1927-1933). The variable `localNodeName` keeps the path of the local node
from one call to the next; the collaborators give the same path at every call. -/
def nspList (w : Collaborators) (aSearchConfig : sSearchConfig) : List sSearchList :=
  let pListPtr := GetNetInfoPaths w true none
  if (match aSearchConfig.pConfigFromXML with
      | none => true
      | some x => x.IsDHCPLDAPEnabled) then (AddDefaultLDAPNodesLast w pListPtr).2
  else pListPtr

/-- The search path of the Custom policy as `GetDirNodeInfo` puts it together (lines
2040-2054): the local node with the custom list of the configuration behind it. -/
def cspList (w : Collaborators) (aSearchConfig : sSearchConfig) : List sSearchList :=
  GetLocalPaths w none ++
    (match aSearchConfig.pConfigFromXML with
     | some x => x.GetCustom
     | none => [])

/-- The value of the policy attribute (lines 2108-2127). -/
def policyValue (aSearchConfig : sSearchConfig) : List Nat :=
  if aSearchConfig.fSearchPolicy = kNetInfoSearchPolicy then kDS1AttrNSPSearchPath
  else if aSearchConfig.fSearchPolicy = kLocalSearchPolicy then kDS1AttrLSPSearchPath
  else if aSearchConfig.fSearchPolicy = kCustomSearchPolicy then kDS1AttrCSPSearchPath
  else bytesOf "Unknown"

/-- One pass of the loop over the attribute types asked for (lines 1864-2176), for
the type `pAttrName`: the attributes it adds, each with its name and, when values
are asked for, its values; whether a status is thrown, which is
`eSearchPathNotDefined`; and whether a name is read through a nil pointer. -/
def nodeInfoPass (w : Collaborators) (pContext : sSearchContextData) (aSearchConfig : sSearchConfig)
    (fInAttrInfoOnly : Bool) (pAttrName : List Nat) :
    List (List Nat × List (List Nat)) × Bool × Bool :=
  let all := strcmpEq pAttrName kDSAttributesAll
  let notNetwork : Bool := pContext.fSearchConfigKey ≠ ConfigKey.eDSNetworkSearchNodeName
  let withValues : Bool := !fInAttrInfoOnly
  let path : Bool := all || strcmpEq pAttrName kDS1AttrSearchPath
  let nsp : Bool := (all || strcmpEq pAttrName kDS1AttrNSPSearchPath) && notNetwork
  let lsp : Bool := (all || strcmpEq pAttrName kDS1AttrLSPSearchPath) && notNetwork
  let csp : Bool := (all || strcmpEq pAttrName kDS1AttrCSPSearchPath) && notNetwork
  let policy : Bool := all || strcmpEq pAttrName kDS1AttrSearchPolicy
  let readOnly : Bool := all || strcmpEq pAttrName kDS1AttrReadOnlyNode
  let values (l : List (List Nat)) : List (List Nat) := if withValues then l else []
  ((if path then [(kDS1AttrSearchPath, values (nodeNames pContext.fSearchNodeList))] else [])
    ++ (if nsp then [(kDS1AttrNSPSearchPath, values (nodeNames (nspList w aSearchConfig)))] else [])
    ++ (if lsp then [(kDS1AttrLSPSearchPath, values (nodeNames (GetLocalPaths w none)))] else [])
    ++ (if csp then [(kDS1AttrCSPSearchPath, values (nodeNames (cspList w aSearchConfig)))] else [])
    ++ (if policy then [(kDS1AttrSearchPolicy, values [policyValue aSearchConfig])] else [])
    ++ (if readOnly then [(kDS1AttrReadOnlyNode, values [bytesOf "ReadOnly"])] else []),
   withValues && ((nsp && GetNetInfoPaths w true none = [])
     || ((lsp || csp) && GetLocalPaths w none = [])),
   withValues && ((path && nilName pContext.fSearchNodeList)
     || (nsp && nilName (nspList w aSearchConfig))
     || (lsp && nilName (GetLocalPaths w none))
     || (csp && nilName (cspList w aSearchConfig))))

/-- The loop over the attribute types asked for: the attributes of all passes, and
whether a pass throws or reads a name through a nil pointer. -/
def nodeInfoAttrs (w : Collaborators) (pContext : sSearchContextData) (aSearchConfig : sSearchConfig)
    (fInAttrInfoOnly : Bool) : List (List Nat) → List (List Nat × List (List Nat)) × Bool × Bool
  | [] => ([], false, false)
  | pAttrName :: rest =>
    let p := nodeInfoPass w pContext aSearchConfig fInAttrInfoOnly pAttrName
    let r := nodeInfoAttrs w pContext aSearchConfig fInAttrInfoOnly rest
    (p.1 ++ r.1, p.2.1 || r.2.1, p.2.2 || r.2.2)

/-- What a call of `GetDirNodeInfo` leaves behind: the status returned,
`fOutAttrInfoCount` if it was set, the out buffer if it was set up, the context
registered under `fOutAttrListRef` if one was made, the shared state, and whether a
name was read through a nil pointer. -/
structure GetDirNodeInfoResult where
  siResult : tDirStatus
  fOutAttrInfoCount : Option Nat
  outBuff : Option CBuff
  pAttrContext : Option sSearchContextData
  state : SearchNodeState
  derefNil : Bool
  deriving DecidableEq, Repr

/-- The `catch` of `GetDirNodeInfo` (lines 2210-2214) for the status `err`. -/
def catchGetDirNodeInfo (err : tDirStatus) (st : SearchNodeState) (derefNil : Bool) :
    GetDirNodeInfoResult :=
  { siResult := err, fOutAttrInfoCount := none, outBuff := none, pAttrContext := none,
    state := { st with locks := st.locks ++ [LockEvent.Signal Mutex.fMutex] },
    derefNil := derefNil }

/-- `CSearchNode::GetDirNodeInfo` (lines 1792-2251). -/
def GetDirNodeInfo (be : Bool) (w : Collaborators) (st : SearchNodeState)
    (inData : sGetDirNodeInfo) : GetDirNodeInfoResult :=
  match GetItemData st.gSNNodeRef inData.fInNodeRef with
  | none => catchGetDirNodeInfo eDSInvalidNodeRef st false
  | some pContext =>
    let st := { st with locks := st.locks ++
      [LockEvent.Wait Mutex.fMutex, LockEvent.Wait Mutex.fMutex, LockEvent.Signal Mutex.fMutex] }
    match FindSearchConfigWithKey st.pSearchConfigList pContext.fSearchConfigKey with
    | none => catchGetDirNodeInfo eDSInvalidNodeRef st false
    | some aSearchConfig =>
      if inData.fInDirNodeInfoTypeList.length = 0 then
        catchGetDirNodeInfo eDSEmptyNodeInfoTypeList st false
      else
        let outBuff := CBuff.Initialize inData.fOutDataBuffSize kGdni
        let header := nodeInfoHeader be (some aSearchConfig.fSearchNodeName)
        let attrs := nodeInfoAttrs w pContext aSearchConfig inData.fInAttrInfoOnly
          inData.fInDirNodeInfoTypeList
        if attrs.2.1 then catchGetDirNodeInfo eSearchPathNotDefined st attrs.2.2
        else
          let aAttrData := attrs.1.foldl
            (fun d a => AppendBlock d (nodeInfoBlock be inData.fInAttrInfoOnly a)) []
          let uiAttrCnt := attrs.1.length
          let st := { st with locks := st.locks ++ [LockEvent.Signal Mutex.fMutex] }
          let aRecData := AppendBlock (AppendShort be header.1 uiAttrCnt) aAttrData
          let outBuff := (outBuff.AddData be aRecData).2
          match outBuff.GetDataBlock 1 with
          | some uiOffset =>
            let pAttrContext := { MakeContextData with offset := add32 (add32 uiOffset 39) header.2 }
            { siResult := eDSNoErr, fOutAttrInfoCount := some uiAttrCnt, outBuff := some outBuff,
              pAttrContext := some pAttrContext,
              state := { st with gSNNodeRef := st.gSNNodeRef ++ [(inData.fOutAttrListRef, pAttrContext)] },
              derefNil := attrs.2.2 }
          | none =>
            { siResult := eDSBufferTooSmall, fOutAttrInfoCount := some uiAttrCnt, outBuff := some outBuff,
              pAttrContext := none, state := st, derefNil := attrs.2.2 }

/-! ## Scenarios: a traversal over several calls, a node that cannot be opened -/

namespace Scenario

/-- The next call of a traversal: `GetRecordList` on the state that the call before
left behind, with the token that it handed out, into a buffer of `size` bytes. -/
def resume (be : Bool) (w : Collaborators) (bk : Backends) (size : Nat)
    (before : Option GetRecordListResult) : Option GetRecordListResult :=
  match before with
  | some r => GetRecordList be w bk 1 8 r.state (request size r.fIOContinueData)
  | none => none

/-- What the caller sees of a call: the status, `fOutRecEntryCount`, the token and
the names of the records in the out buffer. -/
def seen (be : Bool) (r : Option GetRecordListResult) :
    Option (tDirStatus × Nat × Option Nat × Option (List (Except tDirStatus (List Nat)))) :=
  r.map (fun r => (r.siResult, r.fOutRecEntryCount, r.fIOContinueData,
    r.outBuff.map (recordNames be)))

/-- The packed form of the record `i` of the local node as the search node adds it
to its out buffer. -/
def packedLocal (be : Bool) (i : Nat) : List Nat :=
  match localRecords.get? i with
  | some r => packRecord be keNullMetaType false none none r
  | none => []

/-- The number of blocks in a buffer of `size` bytes after as many of the records,
in their order, were added as fit: `n` blocks of `used` bytes are in it already. -/
def fitCount (size : Nat) : List Record → Nat → Nat → Nat
  | [], n, _ => n
  | r :: rest, n, used =>
    let len := 4 + (packRecord true keNullMetaType false none none r).length
    if CBuff.bookkeeping (n + 1) + (used + len) ≤ size then fitCount size rest (n + 1) (used + len)
    else n

/-- A backend that fills the buffer it is given: the local node answers a request
for user records with as many of its three records as fit the buffer, from the
record on that the cursor names, and with a cursor when records are left; it
answers `eDSBufferTooSmall` when not one record fits. -/
def sizedBackends : Backends :=
  { dsGetRecordList := fun nodeRef size q _ ctx =>
      if nodeRef = localRef ∧ q.fInRecTypeList = some [kDSStdRecordTypeUsers] then
        let left := localRecords.drop (ctx.getD 0)
        let k := fitCount size left 0 0
        if k = 0 ∧ left ≠ [] then
          { siResult := eDSBufferTooSmall, recCount := 0, records := [], fContextData := ctx }
        else
          { siResult := eDSNoErr, recCount := k, records := left.take k,
            fContextData := if k < left.length then some (ctx.getD 0 + k) else none }
      else { siResult := eDSNoErr, recCount := 0, records := [], fContextData := none }
    cAlias := backends.cAlias }

/-- The node `NodeX` of a custom search path; the collaborators `world` cannot open
it. -/
def nodeX : sSearchList :=
  { fNodeName := some (bytesOf "/LDAPv3/nodex.example.com")
    fDataList := some (dsBuildFromPathPriv (bytesOf "/LDAPv3/nodex.example.com"))
    fNodeRef := 0
    fOpened := false }

/-- The Authentication search config switched to the Custom policy, the custom list
of the configuration file being `[nodeX]`. -/
def customConfig : sSearchConfig :=
  (SwitchSearchPolicy world kCustomSearchPolicy
    { baseConfig with pConfigFromXML := some { custom := [nodeX], dhcpLDAPEnabled := false } }).config

/-- The shared state after the client opened the Authentication search node under
the Custom policy. -/
def openedCustom : SearchNodeState :=
  { pSearchConfigList := [customConfig]
    gSNNodeRef :=
      match (OpenDirNode world [customConfig] (some kstrAuthenticationNodeName)).2 with
      | some c => [(clientRef, c)]
      | none => []
    gSNContinue := []
    nextToken := 1
    locks := [] }

end Scenario

/-! ## Scenario: a reference to the Network search node -/

namespace Scenario

/-- The collaborators of a host on which `dsFindDirNodes` finds one default network
node; `dsOpenDirNode` opens it under the reference `localRef`, so that the backend
of the scenario answers for it. -/
def networkWorld : Collaborators :=
  { discoverLocal := .ok (bytesOf "/NetInfo/root")
    ldapPaths := []
    networkPages := [.ok [[bytesOf "LDAPv3", bytesOf "srv.example.com"]]]
    newConfig := (eDSNoErr, { custom := [], dhcpLDAPEnabled := false })
    dsOpenDirNode := fun _ => (eDSNoErr, localRef) }

/-- The shared state after the client opened the Network search node. -/
def openedNetwork : SearchNodeState :=
  { pSearchConfigList := [localOnlyConfig, networkSearchConfig none]
    gSNNodeRef :=
      match (OpenDirNode networkWorld [localOnlyConfig, networkSearchConfig none]
              (some kstrNetworkNodeName)).2 with
      | some c => [(clientRef, c)]
      | none => []
    gSNContinue := []
    nextToken := 1
    locks := [] }

/-- The state of the reference to the Network search node after a first call of
`GetRecordList` into a buffer of 100 bytes, which hands out a token, and a policy
switch after it, which sets `bListChanged` in the context of every reference. -/
def networkListChanged : Option SearchNodeState :=
  (GetRecordList true networkWorld sizedBackends 1 8 openedNetwork (request 100 none)).map
    (fun r => r.state.listChanged)

end Scenario

namespace Scenario

/-- The call of `GetRecordList` on the reference to the Network search node with the
token 1 after the policy switch. -/
def networkResumed : Option GetRecordListResult :=
  match networkListChanged with
  | some s => GetRecordList true networkWorld sizedBackends 1 8 s (request 100 (some 1))
  | none => none

/-- A request of `AttributeValueSearch` on the reference `ref` with the token
`token`. -/
def searchRequest (ref : Nat) (token : Option Nat) : sDoAttrValueSearchWithData :=
  { fInNodeRef := ref, fOutDataBuffSize := 512, fOutMatchRecordCount := 0, fIOContinueData := token }

end Scenario

namespace Scenario

/-- The shared state after the first call of the traversal into a buffer of 100
bytes: it holds the token 1. -/
def afterFirstCall : SearchNodeState :=
  match GetRecordList true world sizedBackends 1 8 opened (request 100 none) with
  | some r => r.state
  | none => opened

end Scenario

/-! ## Scenarios: a node that answers in pages, and a node with aliases -/

namespace Scenario

/-- A backend that answers in pages and never returns more records than it is asked
for (a count of 0 asks for all): the local node answers the first request for user
records with `amy` and a cursor, and the request with the cursor with `bob` and
`cyd`. -/
def pagedBackends : Backends :=
  { dsGetRecordList := fun nodeRef _ q count ctx =>
      if nodeRef = localRef ∧ q.fInRecTypeList = some [kDSStdRecordTypeUsers] then
        match ctx with
        | none =>
          { siResult := eDSNoErr, recCount := 1, records := localRecords.take 1,
            fContextData := some 1 }
        | some _ =>
          let page := if count = 0 then localRecords.drop 1 else (localRecords.drop 1).take count
          { siResult := eDSNoErr, recCount := page.length, records := page, fContextData := none }
      else { siResult := eDSNoErr, recCount := 0, records := [], fContextData := none }
    cAlias := backends.cAlias }

/-- The reference under which the node `/LDAPv3/remote` opens. -/
def remoteRef : Nat := 202

/-- The collaborators: the local node and the node `/LDAPv3/remote` can be opened. -/
def aliasWorld : Collaborators :=
  { world with
    dsOpenDirNode := fun name =>
      if name = dsBuildFromPathPriv kstrDefaultLocalNodeName then (eDSNoErr, localRef)
      else if name = [bytesOf "LDAPv3", bytesOf "remote"] then (eDSNoErr, remoteRef)
      else (eDSOpenNodeFailed, 0) }

/-- The alias record of the local node for the user `name` of the node
`/LDAPv3/remote`; its alias data are the name. -/
def aliasRecord (name : String) : Record :=
  { recType := kDSStdRecordTypeUserAliases, recName := bytesOf name,
    attrs := [{ fAttributeSignature := kDS1AttrAliasData, values := [bytesOf name] }] }

/-- The backend: the local node holds the user `amy` and two user aliases, which it
returns one to a page (`bob` with a cursor, then `cyd`); the node `/LDAPv3/remote`
holds the users `bob` and `cyd` and returns the one asked for by name. `CAliases`
reads the alias data as a user of that name on `/LDAPv3/remote`. -/
def aliasBackends : Backends :=
  { dsGetRecordList := fun nodeRef _ q _ ctx =>
      if nodeRef = localRef ∧ q.fInRecTypeList = some [kDSStdRecordTypeUsers] then
        { siResult := eDSNoErr, recCount := 1, records := localRecords.take 1, fContextData := none }
      else if nodeRef = localRef ∧ q.fInRecTypeList = some [kDSStdRecordTypeUserAliases] then
        match ctx with
        | none =>
          { siResult := eDSNoErr, recCount := 1, records := [aliasRecord "bob"],
            fContextData := some 1 }
        | some _ =>
          { siResult := eDSNoErr, recCount := 1, records := [aliasRecord "cyd"],
            fContextData := none }
      else if nodeRef = remoteRef ∧ q.fInRecTypeList = some [kDSStdRecordTypeUsers] then
        let found := (localRecords.drop 1).filter (fun r => q.fInRecNameList = [r.recName])
        { siResult := eDSNoErr, recCount := found.length, records := found, fContextData := none }
      else { siResult := eDSNoErr, recCount := 0, records := [], fContextData := none }
    cAlias := fun data =>
      { status := eDSNoErr, recordType := .ok kDSStdRecordTypeUsers, recordName := .ok [data],
        recordLocation := .ok [bytesOf "LDAPv3", bytesOf "remote"] } }

/-- The continue data registered under the token of a call, as far as the place of
resumption goes: the state, `fRecIndex` and the names of the records in
`fDataBuff`. -/
def resumesAt (r : Option GetRecordListResult) :
    Option (Option (eSearchState × Nat × List (List Nat))) :=
  r.map (fun r =>
    match r.fIOContinueData with
    | some t =>
      (VerifyItem r.state.gSNContinue t).map (fun d =>
        (d.fState, d.fRecIndex, ((d.fDataBuff.map (fun b => b.records)).getD []).map (fun x => x.recName)))
    | none => none)

/-- A loop state of `GetRecordList` right after `AddDataToOutBuff` returned
`eDSNoErr`: the limit is `limit`, `total` records went out in earlier calls and the
out buffer holds one record. -/
def drained (limit total : Nat) : LoopState :=
  { runState := eSearchState.keAddDataToBuff, lastState := eSearchState.keAddDataToBuff,
    siResult := eDSNoErr, recCount := 1, done := false,
    pContinue := { sSearchContinueData.zero with
                   fNodeRef := localRef, fRecCount := 1, fRecIndex := 2,
                   fLimitRecSearch := limit, fTotalRecCount := total },
    pContinueFreed := false, inOutBuff := sampleBuff true, fOutRecEntryCount := 0,
    fIOContinueData := none, bKeepOldBuffer := false,
    context := MakeContextData, pSearchConfigList := [], gSNContinue := [], nextToken := 1,
    locks := [], derefNil := false }

end Scenario

/-! ## Scenario: custom calls -/

namespace Scenario

/-- The configuration object as the custom calls of the scenario change it: the
custom list is replaced by `[nodeX]`, the rest is left alone; writing succeeds. The
authorization is the parameter: the status of `AuthorizationCreateFromExternalForm`
and the one of `AuthorizationCopyRights`. -/
def configWith (create rights : Int) : ConfigCollaborators :=
  { AuthorizationCreateFromExternalForm := fun _ => (create, 77)
    AuthorizationCopyRights := fun _ _ => rights
    SetSearchPolicy := fun x _ => x
    SetListArray := fun x _ => { x with custom := [nodeX] }
    SetDHCPLDAPDictionary := fun x _ => x
    WriteConfig := fun _ => eDSNoErr
    dhcpLDAPXML := fun _ => none }

/-- A custom call on the reference of the client with the request code `code`: the
request data are an external form of 32 bytes followed by 4 bytes. -/
def customCall (code : Nat) : Option sDoPlugInCustomCall :=
  some { fInNodeRef := clientRef
         fInRequestCode := code
         fInRequestData := some { fBufferSize := 64, fBufferLength := 36,
                                  fBufferData := some (List.replicate 36 1) }
         fOutRequestResponse := none }

end Scenario

/-! ## Scenario: the node info of the reference -/

namespace Scenario

/-- The request for all attributes of the node info of the reference of the client,
with values, into a buffer of 512 bytes. -/
def infoRequest : sGetDirNodeInfo :=
  { fInNodeRef := clientRef, fInDirNodeInfoTypeList := [kDSAttributesAll],
    fInAttrInfoOnly := false, fOutDataBuffSize := 512, fOutAttrListRef := 9 }

end Scenario

namespace Scenario

/-- The context of the reference of the client under the Custom policy. -/
def customContext : sSearchContextData :=
  (GetItemData openedCustom.gSNNodeRef clientRef).getD MakeContextData

/-- The attributes of the node info that the passes of `GetDirNodeInfo` make for the
request `infoRequest`. -/
def infoAttrs : List (List Nat × List (List Nat)) :=
  (nodeInfoAttrs world customContext customConfig false infoRequest.fInDirNodeInfoTypeList).1

/-- The node info read back: for each of the first `n` attributes the name that
`GetAttributeEntry` returns on the new context and the values that
`GetAttributeValue` returns. -/
def infoValues (be : Bool) (n : Nat) : List (Except tDirStatus (List Nat × List (List Nat))) :=
  let r := GetDirNodeInfo be world openedCustom infoRequest
  match r.outBuff, r.pAttrContext with
  | some b, some c =>
    (List.range n).map (fun i =>
      match (GetAttributeEntry be b.mem b.fBufferSize c.offset (i + 1)).2 with
      | .ok e =>
        .ok (e.fAttributeSignature,
          (List.range e.fAttributeValueCount).map (fun j =>
            match (GetAttributeValue be b.mem b.fBufferSize e.valueContextOffset (j + 1)).2 with
            | .ok v => v.fBufferData b.mem
            | .error _ => []))
      | .error err => .error err)
  | _, _ => []

end Scenario

/-! ## The indicator files of the search policy -/

/-- Which of the files `.DSRunningSP1`, `.DSRunningSP2` and `.DSRunningSP3` exist in
the directory `/Library/Preferences/DirectoryService`. -/
structure IndicatorFiles where
  sp1 : Bool
  sp2 : Bool
  sp3 : Bool
  deriving DecidableEq, Repr

/-- `CSearchNode::RemoveSearchPolicyIndicatorFile` (lines 5575-5601): each file that
`stat` finds is removed; `rm -f` is taken to succeed. -/
def RemoveSearchPolicyIndicatorFile (f : IndicatorFiles) : IndicatorFiles :=
  let f := if f.sp1 then { f with sp1 := false } else f
  let f := if f.sp2 then { f with sp2 := false } else f
  if f.sp3 then { f with sp3 := false } else f

/-- `CSearchNode::SetSearchPolicyIndicatorFile` (lines 5524-5569): the files
afterwards; `mkdir` and `touch` are taken to succeed. -/
def SetSearchPolicyIndicatorFile (inSearchNodeKey : ConfigKey) (inSearchPolicyIndex : Nat)
    (f : IndicatorFiles) : IndicatorFiles :=
  if inSearchNodeKey = ConfigKey.eDSAuthenticationSearchNodeName then
    let f := RemoveSearchPolicyIndicatorFile f
    if inSearchPolicyIndex = 3 then { f with sp3 := true }
    else if inSearchPolicyIndex = 2 then { f with sp2 := true }
    else { f with sp1 := true }
  else f

/-- The indicator files after a call of `SwitchSearchPolicy` with the result `r`:
`SetSearchPolicyIndicatorFile` is called with the key of the config and the index
`r.indicator` (lines 557-566), or not at all. -/
def SwitchResult.files (r : SwitchResult) (f : IndicatorFiles) : IndicatorFiles :=
  match r.indicator with
  | some inSearchPolicyIndex =>
    SetSearchPolicyIndicatorFile r.config.fSearchConfigKey inSearchPolicyIndex f
  | none => f

/-! ## `ExpandAliases` after the query of the target node -/

/-- The statements of `ExpandAliases` that follow the call of `dsGetRecordList` on
the node an alias points to (lines 4784-4806), `reply` being the answer of the node
opened for `pPathList` and `s` the loop state with `fRecIndex` advanced already. -/
def afterTargetQuery (be : Bool) (inContinue : sSearchContinueData) (q : Query) (buffSize : Nat)
    (inContext : sSearchContextData) (s : ExpandState) (pPathList : tDataList)
    (reply : BackendReply) : ExpandState :=
  if reply.siResult ≠ eDSNoErr then { s with siResult := reply.siResult }
  else
    let myContinue : sSearchContinueData :=
      { sSearchContinueData.zero with
          fNodeRef := inContinue.fNodeRef, fRecIndex := 1, fRecCount := 1,
          fAttrOnly := q.fInAttribInfoOnly, fMetaTypes := inContinue.fMetaTypes,
          fDataBuff := some { fBufferSize := buffSize, records := reply.records } }
    let r := AddDataToOutBuff be myContinue s.inOutBuff inContext (some pPathList)
    if r.1 = kBuffFull then
      { siResult := r.1, done := true, fRecIndex := s.fRecIndex - 1, inOutBuff := r.2.2 }
    else
      { siResult := r.1, done := false, fRecIndex := s.fRecIndex, inOutBuff := r.2.2 }

/-! ## Properties of a sequence of calls on the mutexes -/

/-- The calls `tr` that a path makes release exactly the mutexes they acquire: every
mutex named in them is signalled as often as it is waited for. -/
def releasesWhatItAcquires (tr : List LockEvent) : Bool :=
  tr.all (fun e =>
    match e with
    | LockEvent.Wait m => tr.count (LockEvent.Wait m) = tr.count (LockEvent.Signal m)
    | LockEvent.Signal m => tr.count (LockEvent.Wait m) = tr.count (LockEvent.Signal m))

/-- The calls keep the order of the mutexes: `fMutex` is not waited for while the
mutex of a reference is held and `fMutex` is not; `g` and `r` count how often
`fMutex` and the mutexes of references are held before the calls. -/
def globalMutexFirst : List LockEvent → Nat → Nat → Bool
  | [], _, _ => true
  | LockEvent.Wait Mutex.fMutex :: rest, g, r =>
    if 0 < r ∧ g = 0 then false else globalMutexFirst rest (g + 1) r
  | LockEvent.Wait (Mutex.pSearchListMutex _) :: rest, g, r => globalMutexFirst rest g (r + 1)
  | LockEvent.Signal Mutex.fMutex :: rest, g, r => globalMutexFirst rest (g - 1) r
  | LockEvent.Signal (Mutex.pSearchListMutex _) :: rest, g, r => globalMutexFirst rest g (r - 1)

/-! ## Passes of the loop that only count -/

/-- The loop of `GetRecordList` is in the state `keExpandAliases` after an
`ExpandAliases` that returned `eDSNoErr`, the counter `fID` is at 5 or above, so that
it is above 5 after the next `ExpandAliases` unless it wraps around, there is no
continue data of the node, and no record of the page is left to expand. -/
def LoopState.Spins (s : LoopState) : Prop :=
  s.runState = keExpandAliases ∧ s.lastState = keExpandAliases ∧ s.siResult = eDSNoErr
    ∧ s.done = false ∧ 5 ≤ s.pContinue.fID ∧ s.pContinue.fContextData = none
    ∧ s.pContinue.fRecCount < s.pContinue.fRecIndex

instance (s : LoopState) : Decidable s.Spins := by
  unfold LoopState.Spins; infer_instance

/-- The loop state with the counter `fID` at `n`. -/
def LoopState.withID (s : LoopState) (n : Nat) : LoopState :=
  { s with pContinue := { s.pContinue with fID := n } }

/-- The state after `k` passes of the loop of `GetRecordList` from `s` on, none of
which found `done` set; `none` when one of them found it set. -/
def passes (be : Bool) (w : Collaborators) (bk : Backends) (inData : sGetRecordList) :
    Nat → LoopState → Option LoopState
  | 0, s => some s
  | k + 1, s => if s.done then none else passes be w bk inData k (loopStep be w bk inData s)

/-! ## Entries of a node list that are open or can be opened -/

/-- The entry is marked open, or `dsOpenDirNode` opens the node it names. -/
def opensFor (w : Collaborators) (n : sSearchList) : Bool :=
  n.fOpened || decide ((w.dsOpenDirNode (n.fDataList.getD [])).1 = eDSNoErr)

/-- The reference of an entry that is open or can be opened: the one stored in it
when it is marked open, the one `dsOpenDirNode` hands out otherwise. -/
def handleFor (w : Collaborators) (n : sSearchList) : Nat :=
  if n.fOpened then n.fNodeRef else (w.dsOpenDirNode (n.fDataList.getD [])).2

/-- The entry marked open with its reference; an entry that is marked open already
is left as it is. -/
def markOpen (w : Collaborators) (n : sSearchList) : sSearchList :=
  if n.fOpened then n else { n with fNodeRef := handleFor w n, fOpened := true }

/-! ## The nodes `GetNetInfoPaths` makes -/

/-- The path `/NetInfo/root/c1/.../ck` of the domain with the components `comps`
below the root. -/
def netInfoPath (comps : List (List Nat)) : List Nat :=
  netInfoRoot ++ comps.flatMap (fun c => 47 :: c)

/-- The node `GetNetInfoPaths` makes in a pass of its loop that is not the first
(lines 776-833 with `bSetLocalFirst` not set): a domain above the local node, `p`
being its path. -/
def domainNode (p : List Nat) : sSearchList :=
  { fNodeName := some p, fDataList := some (dsBuildFromPathPriv p), fNodeRef := 0, fOpened := false }

/-- The node `GetNetInfoPaths` makes in the first pass of its loop (lines 776-833
with `bSetLocalFirst` set): the local node, `p` being its true path. -/
def localNode (bFullPath : Bool) (p : List Nat) : sSearchList :=
  { fNodeName := some (if bFullPath then p else kstrDefaultLocalNodeName)
    fDataList := some (dsBuildFromPathPriv kstrDefaultLocalNodeName)
    fNodeRef := 0
    fOpened := false }

/-! ## Scenarios: default LDAP paths, a parent domain, a node with six pages of aliases -/

namespace Scenario

/-- The collaborators of a host that got a default LDAP path from DHCP: the local
node and the LDAP node can be opened. -/
def ldapWorld : Collaborators :=
  { world with
    ldapPaths := [bytesOf "/LDAPv3/ldap.example.com"]
    dsOpenDirNode := fun name =>
      if name = dsBuildFromPathPriv kstrDefaultLocalNodeName then (eDSNoErr, localRef)
      else if name = [bytesOf "LDAPv3", bytesOf "ldap.example.com"] then (eDSNoErr, remoteRef)
      else (eDSOpenNodeFailed, 0) }

/-- The Authentication search config of a configuration file that enables the
default LDAP paths. -/
def dhcpConfig : sSearchConfig :=
  { baseConfig with pConfigFromXML := some { custom := [], dhcpLDAPEnabled := true } }

/-- The switch of `dhcpConfig` to the Automatic policy. -/
def automaticSwitch : SwitchResult := SwitchSearchPolicy ldapWorld kNetInfoSearchPolicy dhcpConfig

/-- The context of a reference to the Authentication search node under the Automatic
policy with the default LDAP path, after the local node was opened for a first
query. -/
def automaticContext : sSearchContextData :=
  match (OpenDirNode ldapWorld [automaticSwitch.config] (some kstrAuthenticationNodeName)).2 with
  | some c => (GetNextNodeRef ldapWorld [automaticSwitch.config] 0 c).context
  | none => MakeContextData

/-- The Authentication search config switched to the Automatic policy on a host
whose local node is its own root. -/
def standaloneConfig : sSearchConfig := (SwitchSearchPolicy world kNetInfoSearchPolicy baseConfig).config

/-- The shared state after the client opened the Authentication search node under
`standaloneConfig`. -/
def openedStandalone : SearchNodeState :=
  { pSearchConfigList := [standaloneConfig]
    gSNNodeRef :=
      match (OpenDirNode world [standaloneConfig] (some kstrAuthenticationNodeName)).2 with
      | some c => [(clientRef, c)]
      | none => []
    gSNContinue := []
    nextToken := 1
    locks := [] }

/-- The collaborators once the parent domain of the local node can be reached: the
true path of the local node is `/NetInfo/root/dept`, and the local node, its parent
`NetInfo/..` and the node `/NetInfo/root` can be opened. -/
def parentWorld : Collaborators :=
  { world with
    discoverLocal := .ok (bytesOf "/NetInfo/root/dept")
    dsOpenDirNode := fun name =>
      if name = dsBuildFromPathPriv kstrDefaultLocalNodeName then (eDSNoErr, localRef)
      else if name = [bytesOf "NetInfo", bytesOf ".."] then (eDSNoErr, 303)
      else if name = [bytesOf "NetInfo", bytesOf "root"] then (eDSNoErr, remoteRef)
      else (eDSOpenNodeFailed, 0) }

/-- The shared state after the client opened the Network search node on a host with
no default network nodes. -/
def openedEmptyNetwork : SearchNodeState :=
  { pSearchConfigList := [localOnlyConfig, networkSearchConfig none]
    gSNNodeRef :=
      match (OpenDirNode noNetworkNodes [localOnlyConfig, networkSearchConfig none]
              (some kstrNetworkNodeName)).2 with
      | some c => [(clientRef, c)]
      | none => []
    gSNContinue := []
    nextToken := 1
    locks := [] }

/-- The backend: the local node holds the user `amy` and `pages` user aliases, which
it returns one to a page, each page but the last with a cursor; the node
`/LDAPv3/remote` holds the users `bob` and `cyd` and returns the one asked for by
name. `CAliases` reads the alias data as a user of that name on `/LDAPv3/remote`. -/
def aliasPages (pages : Nat) : Backends :=
  { dsGetRecordList := fun nodeRef _ q _ ctx =>
      if nodeRef = localRef ∧ q.fInRecTypeList = some [kDSStdRecordTypeUsers] then
        { siResult := eDSNoErr, recCount := 1, records := localRecords.take 1, fContextData := none }
      else if nodeRef = localRef ∧ q.fInRecTypeList = some [kDSStdRecordTypeUserAliases] then
        let page := ctx.getD 0
        { siResult := eDSNoErr, recCount := 1,
          records := [aliasRecord (if page % 2 = 0 then "bob" else "cyd")],
          fContextData := if page + 1 < pages then some (page + 1) else none }
      else if nodeRef = remoteRef ∧ q.fInRecTypeList = some [kDSStdRecordTypeUsers] then
        let found := (localRecords.drop 1).filter (fun r => q.fInRecNameList = [r.recName])
        { siResult := eDSNoErr, recCount := found.length, records := found, fContextData := none }
      else { siResult := eDSNoErr, recCount := 0, records := [], fContextData := none }
    cAlias := aliasBackends.cAlias }

/-- The state in which the loop of `GetRecordList` starts for the request
`request 2048 none` on the reference of the client in the state `opened`: the local
node is open, and the alias types of the request for users are registered. -/
def aliasEntry : LoopState :=
  { runState := eSearchState.keGetRecordList, lastState := eSearchState.keUnknownState,
    siResult := eDSNoErr, recCount := 0, done := false,
    pContinue :=
      DoAliasCheck (request 2048 none).query.fInRecTypeList (request 2048 none).query.fInAttribTypeList
        { sSearchContinueData.zero with
          fDataBuff := some { fBufferSize := 2048, records := [] }
          fNodeRef := localRef, fDirRef := 1, fRecIndex := 1 },
    pContinueFreed := false, inOutBuff := CBuff.Initialize 2048 kStdA, fOutRecEntryCount := 0,
    fIOContinueData := none, bKeepOldBuffer := false,
    context :=
      (GetNextNodeRef aliasWorld opened.pSearchConfigList 0
        ((GetItemData opened.gSNNodeRef clientRef).getD MakeContextData)).context,
    pSearchConfigList := opened.pSearchConfigList, gSNContinue := [], nextToken := 1,
    locks := [LockEvent.Wait Mutex.fMutex, LockEvent.Wait (Mutex.pSearchListMutex clientRef),
              LockEvent.Wait Mutex.fMutex, LockEvent.Signal Mutex.fMutex,
              LockEvent.Signal Mutex.fMutex],
    derefNil := false }

/-- The state of the loop of `GetRecordList` after 14 passes from `aliasEntry` on
with the node of six alias pages: the user and the six aliases are in the out
buffer, `ExpandAliases` was called six times, and the cursor of the node is nil. -/
def aliasSpin : LoopState :=
  (passes true aliasWorld (aliasPages 6) (request 2048 none) 14 aliasEntry).getD aliasEntry

/-- A loop state of `GetRecordList` about to ask the local node for records, into a
buffer of 512 bytes. -/
def fetching : LoopState :=
  { drained 0 0 with
    runState := eSearchState.keGetRecordList
    pContinue := { sSearchContinueData.zero with
                   fNodeRef := localRef, fRecIndex := 1,
                   fDataBuff := some { fBufferSize := 512, records := [] } }
    inOutBuff := CBuff.Initialize 512 kStdA }

/-- The continue data of `GetRecordList` after the local node returned a page with
the alias record for `bob`. -/
def aliasPage : sSearchContinueData :=
  { sSearchContinueData.zero with
    fNodeRef := localRef, fRecCount := 1, fRecIndex := 1,
    fDataBuff := some { fBufferSize := 512, records := [aliasRecord "bob"] } }

/-- The loop state of `ExpandAliases` at its start, the out buffer of 512 bytes being
empty. -/
def expandStart : ExpandState :=
  { siResult := eDSNoErr, done := false, fRecIndex := 1, inOutBuff := CBuff.Initialize 512 kStdA }

/-- The call of `GetRecordList` on the reference to the Network search node with no
token after the policy switch. -/
def networkNewQuery : Option GetRecordListResult :=
  match networkListChanged with
  | some s => GetRecordList true networkWorld sizedBackends 1 8 s (request 100 none)
  | none => none

/-- What is left of a reference after a call: `bListChanged`, and for each entry of
the node list whether it is marked open and its reference; and the tokens of the
table of continue data with the references they are registered against. -/
def leftBehind (r : Option GetRecordListResult) :
    Option (Option (Bool × List (Bool × Nat)) × List (Nat × Nat)) :=
  r.map (fun r =>
    ((GetItemData r.state.gSNNodeRef clientRef).map (fun c =>
        (c.bListChanged, c.fSearchNodeList.map (fun n => (n.fOpened, n.fNodeRef)))),
     r.state.gSNContinue.map (fun e => (e.1, e.2.1))))

/-- The shared state `afterFirstCall` with the reference of the client as it is when
newly opened and with no continue data. -/
def reopened : SearchNodeState :=
  { opened with nextToken := afterFirstCall.nextToken, locks := afterFirstCall.locks }

end Scenario

/-! # Theorems -/

/-! ## Layout lemmas -/

theorem At_append {mem : Mem} {p : Nat} {a b : List Nat} :
    At mem p (a ++ b) ↔ At mem p a ∧ At mem (p + a.length) b := by
  constructor
  · intro h
    refine ⟨fun i hi => ?_, fun i hi => ?_⟩
    · have := h i (by simp; omega)
      rw [this, List.getD_append _ _ _ _ hi]
    · have := h (a.length + i) (by simp; omega)
      rw [← Nat.add_assoc] at this
      rw [this, List.getD_append_right _ _ _ _ (by omega)]
      simp
  · rintro ⟨ha, hb⟩ i hi
    by_cases h : i < a.length
    · rw [ha i h, List.getD_append _ _ _ _ h]
    · have hi' : i - a.length < b.length := by simp at hi; omega
      have := hb (i - a.length) hi'
      rw [List.getD_append_right _ _ _ _ (by omega), ← this]
      congr 1; omega

theorem rdBytes_of_At {mem : Mem} {p : Nat} {bs : List Nat} (h : At mem p bs) :
    rdBytes mem p bs.length = bs := by
  apply List.ext_getElem
  · simp [rdBytes]
  · intro i h1 h2
    simp [rdBytes] at h1 ⊢
    rw [h i h2]
    simp [List.getD_eq_getElem?_getD, List.getElem?_eq_getElem h2]

theorem enc16_length (be : Bool) (v : Nat) : (enc16 be v).length = 2 := by
  unfold enc16; split <;> rfl

theorem enc32_length (be : Bool) (v : Nat) : (enc32 be v).length = 4 := by
  unfold enc32; split <;> rfl

theorem rd16_of_At {be : Bool} {mem : Mem} {p v : Nat} (hv : v < U16)
    (h : At mem p (enc16 be v)) : rd16 be mem p = v := by
  have h0 := h 0
  have h1 := h 1
  unfold U16 at hv
  cases be <;> simp [enc16, rd16] at h0 h1 ⊢ <;> rw [h0, h1] <;> omega

theorem rd32_of_At {be : Bool} {mem : Mem} {p v : Nat} (hv : v < U32)
    (h : At mem p (enc32 be v)) : rd32 be mem p = v := by
  have h0 := h 0
  have h1 := h 1
  have h2 := h 2
  have h3 := h 3
  unfold U32 at hv
  cases be <;> simp [enc32, rd32] at h0 h1 h2 h3 ⊢ <;> rw [h0, h1, h2, h3] <;> omega

theorem add32_of_lt {a b : Nat} (h : a + b < U32) : add32 a b = a + b := by
  unfold add32; exact Nat.mod_eq_of_lt h

theorem At_memOf_writeAt (data : List Nat) (off : Nat) (bs : List Nat)
    (h : off + bs.length ≤ data.length) : At (memOf (writeAt data off bs)) off bs := by
  intro i hi
  unfold memOf writeAt
  have hlen : (List.take off data).length = off := by simp; omega
  rw [List.append_assoc, List.getD_append_right _ _ _ _ (by omega)]
  have : off + i - (List.take off data).length = i := by omega
  rw [this]
  exact List.getD_append _ _ _ _ hi

theorem encBlock_length (be : Bool) (body : List Nat) :
    (encBlock be body).length = 4 + body.length := by
  simp [encBlock, enc32_length]

theorem U32_eq : U32 = 4294967296 := rfl
theorem U16_eq : U16 = 65536 := rfl

theorem skipBlocks_At (be : Bool) (mem : Mem) (limit : Nat) (hl : limit < U32) :
    ∀ (bodies : List (List Nat)) (p : Nat),
      At mem p (bodies.flatMap (encBlock be)) →
      p + (bodies.flatMap (encBlock be)).length ≤ limit →
      ∃ rs, skipBlocks be mem limit bodies.length p
        = (rs, .ok (p + (bodies.flatMap (encBlock be)).length))
  | [], p, _, _ => ⟨[], by simp [skipBlocks]⟩
  | b :: bs, p, hat, hle => by
    have hU := U32_eq
    rw [List.flatMap_cons, At_append, encBlock_length] at hat
    rw [List.flatMap_cons, List.length_append, encBlock_length] at hle
    obtain ⟨h1, h2⟩ := hat
    unfold encBlock at h1
    rw [At_append] at h1
    have hlen : rd32 be mem p = b.length := rd32_of_At (by omega) h1.1
    obtain ⟨rs, hrs⟩ := skipBlocks_At be mem limit hl bs (p + (4 + b.length)) h2 (by omega)
    refine ⟨(p, 4) :: rs, ?_⟩
    simp only [skipBlocks, List.length_cons]
    rw [if_neg (by rw [add32_of_lt (by omega)]; omega), hlen,
      add32_of_lt (a := 4) (by omega), add32_of_lt (by omega), hrs]
    simp only [List.flatMap_cons, List.length_append, encBlock_length]
    congr 2
    omega

theorem sumValues_At (be : Bool) (mem : Mem) (limit : Nat) (hl : limit < U32) :
    ∀ (bodies : List (List Nat)) (p total : Nat),
      At mem p (bodies.flatMap (encBlock be)) →
      p + (bodies.flatMap (encBlock be)).length ≤ limit →
      ∃ rs t, sumValues be mem limit bodies.length p total = (rs, .ok t)
  | [], p, total, _, _ => ⟨[], (p, total), by simp [sumValues]⟩
  | b :: bs, p, total, hat, hle => by
    have hU := U32_eq
    rw [List.flatMap_cons, At_append, encBlock_length] at hat
    rw [List.flatMap_cons, List.length_append, encBlock_length] at hle
    obtain ⟨h1, h2⟩ := hat
    unfold encBlock at h1
    rw [At_append] at h1
    have hlen : rd32 be mem p = b.length := rd32_of_At (by omega) h1.1
    obtain ⟨rs, t, hrs⟩ := sumValues_At be mem limit hl bs (p + (4 + b.length))
      (add32 total b.length) h2 (by omega)
    refine ⟨(p, 4) :: rs, t, ?_⟩
    simp only [sumValues, List.length_cons]
    rw [if_neg (by rw [add32_of_lt (by omega)]; omega), hlen,
      add32_of_lt (a := 4) (by omega), add32_of_lt (by omega), hrs]

theorem foldl_append_flatMap {α : Type} (f : α → List Nat) :
    ∀ (l : List α) (init : List Nat),
      l.foldl (fun d a => d ++ f a) init = init ++ l.flatMap f
  | [], init => by simp
  | a :: l, init => by simp [foldl_append_flatMap f l, List.append_assoc]

theorem packValues_eq (be : Bool) (vs : List (List Nat)) :
    packValues be vs = vs.flatMap (fun v => encBlock be (cstr v)) := by
  unfold packValues
  have := foldl_append_flatMap (fun v => encBlock be (cstr v)) vs []
  simpa [AppendString, AppendLong, strlen, encBlock, List.append_assoc] using this

theorem cstr_of_IsCStr {s : List Nat} (h : IsCStr s) : cstr s = s := by
  unfold cstr
  rw [List.takeWhile_eq_self_iff]
  intro b hb
  simpa using h b hb

theorem flatMap_cstr {be : Bool} {vs : List (List Nat)} (h : ∀ v ∈ vs, IsCStr v) :
    vs.flatMap (fun v => encBlock be (cstr v)) = vs.flatMap (encBlock be) := by
  induction vs with
  | nil => rfl
  | cons v vs ih =>
    simp only [List.flatMap_cons]
    rw [cstr_of_IsCStr (h v (by simp)), ih (fun w hw => h w (by simp [hw]))]

theorem attrBody_length (be : Bool) (sig : List Nat) (values : List (List Nat)) :
    (attrBody be sig values).length
      = 2 + (sig.length + (2 + (values.flatMap (encBlock be)).length)) := by
  simp [attrBody, enc16_length]

theorem At_encBlock {be : Bool} {mem : Mem} {p : Nat} {b : List Nat} :
    At mem p (encBlock be b) ↔ At mem p (enc32 be b.length) ∧ At mem (p + 4) b := by
  unfold encBlock
  rw [At_append, enc32_length]

theorem GetAttributeValue_At (be : Bool) (mem : Mem) (size q : Nat) (sig : List Nat)
    (values : List (List Nat)) (hsize : size < U32) (hsig : sig.length < U16)
    (hcnt : values.length < U16)
    (hat : At mem q (encBlock be (attrBody be sig values)))
    (hle : q + (4 + (attrBody be sig values).length) ≤ size)
    (j : Nat) (hj : j < values.length) :
    ∃ pos, (GetAttributeValue be mem size q (j + 1)).2
        = .ok { fBufferLength := values[j].length, fDataPos := pos, fAttributeValueID := 0 }
      ∧ rdBytes mem pos values[j].length = values[j] := by
  have hU := U32_eq
  have hU' := U16_eq
  have hsplit : values = values.take j ++ (values[j] :: values.drop (j + 1)) := by
    rw [← List.drop_eq_getElem_cons hj, List.take_append_drop]
  have hlenB := attrBody_length be sig values
  rw [At_encBlock] at hat
  obtain ⟨a0, a1⟩ := hat
  unfold attrBody at a1
  rw [At_append, enc16_length, At_append, At_append, enc16_length] at a1
  obtain ⟨a1, a2, a3, a4⟩ := a1
  rw [hsplit, List.flatMap_append, List.flatMap_cons, At_append, At_append] at a4
  obtain ⟨a4, a5, -⟩ := a4
  rw [At_encBlock] at a5
  obtain ⟨a5, a6⟩ := a5
  have hVL : (values.flatMap (encBlock be)).length
      = ((values.take j).flatMap (encBlock be)).length + (4 + values[j].length)
        + ((values.drop (j + 1)).flatMap (encBlock be)).length := by
    conv_lhs => rw [hsplit]
    simp only [List.flatMap_append, List.flatMap_cons, List.length_append, encBlock_length]
    omega
  have e0 : rd32 be mem q = (attrBody be sig values).length := rd32_of_At (by omega) a0
  have e1 : rd16 be mem (q + 4) = sig.length := rd16_of_At hsig a1
  have e2 : rd16 be mem (q + 4 + 2 + sig.length) = values.length := rd16_of_At hcnt a3
  have htk : (values.take j).length = j := by simp; omega
  obtain ⟨rs, hrs⟩ := skipBlocks_At be mem ((attrBody be sig values).length + q + 4) (by omega)
    (values.take j) (q + 4 + 2 + sig.length + 2) a4 (by omega)
  rw [htk] at hrs
  have e3 : rd32 be mem (q + 4 + 2 + sig.length + 2 + ((values.take j).flatMap (encBlock be)).length)
      = values[j].length := rd32_of_At (by omega) a5
  refine ⟨q + 4 + 2 + sig.length + 2 + ((values.take j).flatMap (encBlock be)).length + 4,
    ?_, rdBytes_of_At a6⟩
  have k1 : add32 4 q = 4 + q := add32_of_lt (by omega)
  have k2 : add32 q 4 = q + 4 := add32_of_lt (by omega)
  have k3 : add32 (add32 (attrBody be sig values).length q) 4
      = (attrBody be sig values).length + q + 4 := by
    rw [add32_of_lt (a := (attrBody be sig values).length) (by omega), add32_of_lt (by omega)]
  have k4 : add32 2 (q + 4) = 2 + (q + 4) := add32_of_lt (by omega)
  have k5 : add32 (q + 4) (2 + sig.length) = q + 4 + 2 + sig.length := by
    rw [add32_of_lt (by omega)]; omega
  have k6 : add32 2 (q + 4 + 2 + sig.length) = 2 + (q + 4 + 2 + sig.length) :=
    add32_of_lt (by omega)
  have k7 : add32 (q + 4 + 2 + sig.length) 2 = q + 4 + 2 + sig.length + 2 :=
    add32_of_lt (by omega)
  have k8 : add32 4 (q + 4 + 2 + sig.length + 2 + ((values.take j).flatMap (encBlock be)).length)
      = 4 + (q + 4 + 2 + sig.length + 2 + ((values.take j).flatMap (encBlock be)).length) :=
    add32_of_lt (by omega)
  have k9 : add32 (q + 4 + 2 + sig.length + 2 + ((values.take j).flatMap (encBlock be)).length) 4
      = q + 4 + 2 + sig.length + 2 + ((values.take j).flatMap (encBlock be)).length + 4 :=
    add32_of_lt (by omega)
  have k10 : add32 values[j].length
      (q + 4 + 2 + sig.length + 2 + ((values.take j).flatMap (encBlock be)).length + 4)
      = values[j].length
        + (q + 4 + 2 + sig.length + 2 + ((values.take j).flatMap (encBlock be)).length + 4) :=
    add32_of_lt (by omega)
  have c1 : ¬ (4 + q > size) := by omega
  have c2 : ¬ ((attrBody be sig values).length + q + 4 > size) := by omega
  have c3 : ¬ (2 + (q + 4) > (attrBody be sig values).length + q + 4) := by omega
  have c4 : ¬ (2 + (q + 4 + 2 + sig.length) > (attrBody be sig values).length + q + 4) := by omega
  have c5 : ¬ (j + 1 > values.length) := by omega
  have c6 : ¬ (4 + (q + 4 + 2 + sig.length + 2 + ((values.take j).flatMap (encBlock be)).length)
      > (attrBody be sig values).length + q + 4) := by omega
  have c7 : ¬ (values[j].length
      + (q + 4 + 2 + sig.length + 2 + ((values.take j).flatMap (encBlock be)).length + 4)
      > (attrBody be sig values).length + q + 4) := by omega
  simp only [GetAttributeValue, Nat.add_one_ne_zero, if_false, Nat.add_sub_cancel,
    k1, k2, e0, k3, e1, k4, k5, k6, e2, k7, hrs, k8, e3, k9, k10, c1, c2, c3, c4, c5, c6, c7]

theorem GetAttributeValue_index (be : Bool) (mem : Mem) (size q : Nat) (sig : List Nat)
    (values : List (List Nat)) (hsize : size < U32) (hsig : sig.length < U16)
    (hcnt : values.length < U16)
    (hat : At mem q (encBlock be (attrBody be sig values)))
    (hle : q + (4 + (attrBody be sig values).length) ≤ size)
    (uiIndex : Nat) (hidx : values.length < uiIndex) :
    GetAttributeValue be mem size q uiIndex
      = ([(q, 4), (q + 4, 2), (q + 4 + 2 + sig.length, 2)], .error eDSInvalidIndex) := by
  have hU := U32_eq
  have hU' := U16_eq
  have hlenB := attrBody_length be sig values
  rw [At_encBlock] at hat
  obtain ⟨a0, a1⟩ := hat
  unfold attrBody at a1
  rw [At_append, enc16_length, At_append, At_append, enc16_length] at a1
  obtain ⟨a1, -, a3, -⟩ := a1
  have e0 : rd32 be mem q = (attrBody be sig values).length := rd32_of_At (by omega) a0
  have e1 : rd16 be mem (q + 4) = sig.length := rd16_of_At hsig a1
  have e2 : rd16 be mem (q + 4 + 2 + sig.length) = values.length := rd16_of_At hcnt a3
  have k1 : add32 4 q = 4 + q := add32_of_lt (by omega)
  have k2 : add32 q 4 = q + 4 := add32_of_lt (by omega)
  have k3 : add32 (add32 (attrBody be sig values).length q) 4
      = (attrBody be sig values).length + q + 4 := by
    rw [add32_of_lt (a := (attrBody be sig values).length) (by omega), add32_of_lt (by omega)]
  have k4 : add32 2 (q + 4) = 2 + (q + 4) := add32_of_lt (by omega)
  have k5 : add32 (q + 4) (2 + sig.length) = q + 4 + 2 + sig.length := by
    rw [add32_of_lt (by omega)]; omega
  have k6 : add32 2 (q + 4 + 2 + sig.length) = 2 + (q + 4 + 2 + sig.length) :=
    add32_of_lt (by omega)
  have c0 : ¬ (uiIndex = 0) := by omega
  have c1 : ¬ (4 + q > size) := by omega
  have c2 : ¬ ((attrBody be sig values).length + q + 4 > size) := by omega
  have c3 : ¬ (2 + (q + 4) > (attrBody be sig values).length + q + 4) := by omega
  have c4 : ¬ (2 + (q + 4 + 2 + sig.length) > (attrBody be sig values).length + q + 4) := by omega
  have c5 : uiIndex > values.length := hidx
  simp only [GetAttributeValue, if_false, if_true, k1, k2, e0, k3, e1, k4, k5, k6, e2,
    c0, c1, c2, c3, c4, c5, List.cons_append, List.nil_append]

theorem GetAttributeEntry_At (be : Bool) (mem : Mem) (size off N : Nat) (pre : List (List Nat))
    (sig : List Nat) (values : List (List Nat)) (hsize : size < U32) (hN : N < U16)
    (hpre : pre.length < N) (hsig : sig.length < U16) (hcnt : values.length < U16)
    (hat0 : At mem off (enc16 be N))
    (hat1 : At mem (off + 2) (pre.flatMap (encBlock be)))
    (hat2 : At mem (off + 2 + (pre.flatMap (encBlock be)).length)
      (encBlock be (attrBody be sig values)))
    (hle : off + 2 + (pre.flatMap (encBlock be)).length + (4 + (attrBody be sig values).length)
      ≤ size) :
    ∃ e, (GetAttributeEntry be mem size off (pre.length + 1)).2 = .ok e
      ∧ e.fAttributeSignature = sig ∧ e.fAttributeValueCount = values.length
      ∧ e.valueContextOffset = off + 2 + (pre.flatMap (encBlock be)).length := by
  have hU := U32_eq
  have hU' := U16_eq
  have hlenB := attrBody_length be sig values
  rw [At_encBlock] at hat2
  obtain ⟨a0, a1⟩ := hat2
  unfold attrBody at a1
  rw [At_append, enc16_length, At_append, At_append, enc16_length] at a1
  obtain ⟨a1, a2, a3, a4⟩ := a1
  generalize hQ : off + 2 + (pre.flatMap (encBlock be)).length = Q at *
  have e00 : rd16 be mem off = N := rd16_of_At hN hat0
  have e0 : rd32 be mem Q = (attrBody be sig values).length := rd32_of_At (by omega) a0
  have e1 : rd16 be mem (Q + 4) = sig.length := rd16_of_At hsig a1
  have e2 : rd16 be mem (Q + 4 + 2 + sig.length) = values.length := rd16_of_At hcnt a3
  obtain ⟨rs, hrs⟩ := skipBlocks_At be mem size hsize pre (off + 2) hat1 (by omega)
  rw [hQ] at hrs
  obtain ⟨rs', ⟨o, t⟩, hsum⟩ := sumValues_At be mem (Q + 4 + (attrBody be sig values).length)
    (by omega) values (Q + 4 + 2 + sig.length + 2) 0 a4 (by omega)
  have k0 : add32 2 off = 2 + off := add32_of_lt (by omega)
  have k0' : add32 off 2 = off + 2 := add32_of_lt (by omega)
  have k1 : add32 4 Q = 4 + Q := add32_of_lt (by omega)
  have k2 : add32 Q 4 = Q + 4 := add32_of_lt (by omega)
  have k3 : add32 (Q + 4) (attrBody be sig values).length
      = Q + 4 + (attrBody be sig values).length := add32_of_lt (by omega)
  have k4 : add32 2 (Q + 4) = 2 + (Q + 4) := add32_of_lt (by omega)
  have k4' : add32 (Q + 4) 2 = Q + 4 + 2 := add32_of_lt (by omega)
  have k5 : add32 (Q + 4) (2 + sig.length) = Q + 4 + 2 + sig.length := by
    rw [add32_of_lt (by omega)]; omega
  have k6 : add32 2 (Q + 4 + 2 + sig.length) = 2 + (Q + 4 + 2 + sig.length) :=
    add32_of_lt (by omega)
  have k7 : add32 (Q + 4 + 2 + sig.length) 2 = Q + 4 + 2 + sig.length + 2 :=
    add32_of_lt (by omega)
  have c1 : ¬ (2 + off > size) := by omega
  have c2 : ¬ (pre.length + 1 > N) := by omega
  have c3 : ¬ (4 + Q > size) := by omega
  have c4 : ¬ (2 + (Q + 4) > Q + 4 + (attrBody be sig values).length) := by omega
  have c5 : ¬ (2 + (Q + 4 + 2 + sig.length) > Q + 4 + (attrBody be sig values).length) := by
    omega
  refine ⟨{ fAttributeValueCount := values.length, fAttributeDataSize := t,
             fAttributeValueMaxSize := 512,
             fAttributeSignature := rdBytes mem (Q + 4 + 2) sig.length,
             valueContextOffset := Q }, ?_, ?_⟩
  · simp only [GetAttributeEntry, Nat.add_one_ne_zero, if_false, Nat.add_sub_cancel,
      k0, k0', e00, hrs, k1, k2, e0, k3, k4, k4', e1, k5, k6, e2, k7, hsum, c1, c2, c3, c4, c5]
  · refine ⟨rdBytes_of_At a2, rfl, rfl⟩

theorem packAttr_eq (be : Bool) (a : Attribute) (h : a.Packable) :
    packAttr be false a = encBlock be (a.body be) := by
  obtain ⟨h1, -, -, h4⟩ := h
  have hv := packValues_eq be a.values
  rw [flatMap_cstr h4] at hv
  simp only [packAttr, AppendString, AppendShort, AppendBlock, AppendLong, strlen,
    cstr_of_IsCStr h1, hv, if_true, List.nil_append,
    List.append_assoc, Attribute.body, attrBody]
  rfl

theorem foldl_packAttr (be : Bool) :
    ∀ (attrs : List Attribute) (init : List Nat), (∀ a ∈ attrs, a.Packable) →
      attrs.foldl (fun d a => AppendBlock d (packAttr be false a)) init
        = init ++ (attrs.map (Attribute.body be)).flatMap (encBlock be)
  | [], init, _ => by simp
  | a :: l, init, h => by
    simp only [List.foldl_cons, List.map_cons, List.flatMap_cons]
    rw [foldl_packAttr be l _ (fun x hx => h x (by simp [hx])), AppendBlock,
      packAttr_eq be a (h a (by simp)), List.append_assoc]

theorem packRecord_eq (be : Bool) (s t : Option tDataList) (r : Record) (h : r.Packable) :
    packRecord be keNullMetaType false s t r
      = enc16 be r.recType.length ++ (r.recType ++ (enc16 be r.recName.length ++ (r.recName
          ++ (enc16 be r.attrs.length ++ (r.attrs.map (Attribute.body be)).flatMap (encBlock be))))) := by
  obtain ⟨h1, -, h3, -, -, h6⟩ := h
  have hf := foldl_packAttr be r.attrs [] h6
  simp only [AppendBlock, List.nil_append] at hf
  simp only [packRecord, keNullMetaType, Bool.or_false, Bool.and_false, Bool.false_eq_true,
    if_false, Nat.add_zero, AppendString, AppendShort,
    AppendBlock, strlen, cstr_of_IsCStr h1, cstr_of_IsCStr h3, List.nil_append,
    List.append_assoc, hf]
  split
  · rfl
  · rename_i hN
    have : r.attrs = [] := by
      cases hr : r.attrs with
      | nil => rfl
      | cons a l => simp [hr] at hN
    simp [this]

theorem CBuff.Initialize_WF (size type : Nat) : (CBuff.Initialize size type).WF := by
  simp [CBuff.WF, CBuff.Initialize]

theorem flatMap_split (be : Bool) (bodies : List (List Nat)) (i : Nat) (hi : i < bodies.length) :
    bodies.flatMap (encBlock be)
      = (bodies.take i).flatMap (encBlock be)
        ++ (encBlock be bodies[i] ++ (bodies.drop (i + 1)).flatMap (encBlock be)) := by
  conv_lhs => rw [← List.take_append_drop i bodies, List.drop_eq_getElem_cons hi]
  simp only [List.flatMap_append, List.flatMap_cons]

/-! ## The resolver -/

theorem cstr_localName : cstr kstrDefaultLocalNodeName = kstrDefaultLocalNodeName := by decide

theorem GetLocalPaths_some (w : Collaborators) (name : List Nat) :
    GetLocalPaths w (some name)
      = [{ fNodeName := some (cstr name)
           fDataList := some (dsBuildFromPathPriv kstrDefaultLocalNodeName)
           fNodeRef := 0
           fOpened := false }] := by
  simp [GetLocalPaths]

theorem AddLocalNodesAsFirstPaths_eq (w : Collaborators) (l : List sSearchList) :
    AddLocalNodesAsFirstPaths w l = (eDSNoErr, forcedLocalNode :: l) := by
  unfold AddLocalNodesAsFirstPaths
  rw [GetLocalPaths_some, cstr_localName]
  by_cases h : l = []
  · subst h; simp [forcedLocalNode]
  · simp [h, forcedLocalNode]

theorem forcedLocalNode_addressesLocal : forcedLocalNode.addressesLocal := rfl

theorem netInfoLoop_head (bFullPath bLocalIsRoot : Bool) (fuel : Nat) (s : List Nat) (n : Nat) :
    ∃ node rest, netInfoLoop bFullPath bLocalIsRoot (fuel + 1) s n true = node :: rest
      ∧ node.addressesLocal := by
  refine ⟨_, _, rfl, ?_⟩
  simp [sSearchList.addressesLocal]

theorem GetNetInfoPaths_head (w : Collaborators) (bFullPath : Bool) (name : Option (List Nat)) :
    ∃ node rest, GetNetInfoPaths w bFullPath name = node :: rest ∧ node.addressesLocal := by
  unfold GetNetInfoPaths
  generalize (match name with
    | some name => some name
    | none => match w.discoverLocal with
      | .ok path => some path
      | .error _ => none) = aSearchPath
  cases aSearchPath with
  | none => exact ⟨forcedLocalNode, [], by simp, forcedLocalNode_addressesLocal⟩
  | some path =>
    by_cases hp : (cstr path).take 13 = netInfoRoot
    · obtain ⟨node, rest, h1, h2⟩ := netInfoLoop_head bFullPath (decide (cstr path = netInfoRoot))
        (cstr path).length (cstr path) (cstr path).length
      refine ⟨node, rest, ?_, h2⟩
      simp only [hp, if_true, h1]
      simp
    · exact ⟨forcedLocalNode, [], by simp [hp], forcedLocalNode_addressesLocal⟩

theorem DoNetInfoDefault_eq (w : Collaborators) :
    DoNetInfoDefault w = (eDSNoErr, GetNetInfoPaths w false none) := by
  obtain ⟨node, rest, h, -⟩ := GetNetInfoPaths_head w false none
  simp [DoNetInfoDefault, h]

theorem AddDefaultLDAPNodesLast_eq (w : Collaborators) (l : List sSearchList) :
    AddDefaultLDAPNodesLast w l
      = if GetDefaultLDAPPaths w = [] then (eSearchPathNotDefined, l)
        else (eDSNoErr, l ++ GetDefaultLDAPPaths w) := by
  unfold AddDefaultLDAPNodesLast
  by_cases h : GetDefaultLDAPPaths w = []
  · simp [h]
  · by_cases hl : l = []
    · subst hl; simp [h]
    · simp [h, hl]

theorem AddDefaultLDAPNodesLast_list (w : Collaborators) (l : List sSearchList) :
    (AddDefaultLDAPNodesLast w l).2 = l ++ GetDefaultLDAPPaths w := by
  rw [AddDefaultLDAPNodesLast_eq]
  by_cases h : GetDefaultLDAPPaths w = []
  · simp [h]
  · simp [h]

theorem switch_base_eq (w : Collaborators) (policy : Nat) (c : CConfigs) (l : List sSearchList) :
    (if policy = kCustomSearchPolicy then AddLocalNodesAsFirstPaths w c.GetCustom
     else if policy = kLocalSearchPolicy then AddLocalNodesAsFirstPaths w l
     else DoNetInfoDefault w)
      = (eDSNoErr, if policy = kCustomSearchPolicy then forcedLocalNode :: c.GetCustom
                   else if policy = kLocalSearchPolicy then forcedLocalNode :: l
                   else GetNetInfoPaths w false none) := by
  split_ifs <;> simp [AddLocalNodesAsFirstPaths_eq, DoNetInfoDefault_eq]

theorem switch_base_head (w : Collaborators) (policy : Nat) (c : CConfigs) (l : List sSearchList) :
    ∃ node rest,
      (if policy = kCustomSearchPolicy then forcedLocalNode :: c.GetCustom
       else if policy = kLocalSearchPolicy then forcedLocalNode :: l
       else GetNetInfoPaths w false none) = node :: rest ∧ node.addressesLocal := by
  split_ifs
  · exact ⟨_, _, rfl, forcedLocalNode_addressesLocal⟩
  · exact ⟨_, _, rfl, forcedLocalNode_addressesLocal⟩
  · exact GetNetInfoPaths_head w false none

theorem SwitchSearchPolicy_some (w : Collaborators) (policy : Nat) (cfg : sSearchConfig)
    (c : CConfigs) (hc : cfg.pConfigFromXML = some c) :
    (SwitchSearchPolicy w policy cfg).siResult = eDSNoErr
    ∧ (SwitchSearchPolicy w policy cfg).config.fSearchNodeList
      = (if policy = kCustomSearchPolicy then forcedLocalNode :: c.GetCustom
         else if policy = kLocalSearchPolicy then [forcedLocalNode]
         else GetNetInfoPaths w false none)
        ++ (if policy = kNetInfoSearchPolicy ∧ c.IsDHCPLDAPEnabled = true then GetDefaultLDAPPaths w
            else []) := by
  unfold SwitchSearchPolicy
  simp only [hc, switch_base_eq, if_true, AddDefaultLDAPNodesLast_list]
  refine ⟨trivial, ?_⟩
  by_cases h1 : policy = kNetInfoSearchPolicy
  · have h3 : ¬ policy = kCustomSearchPolicy := by rw [h1]; decide
    have h2 : ¬ policy = kLocalSearchPolicy := by rw [h1]; decide
    by_cases he : c.IsDHCPLDAPEnabled = true
    · simp [h1, he, AddDefaultLDAPNodesLast_list]
    · simp [h1, he]
  · simp [h1]

/-! ## The buffer codec: round trip and bounds -/

theorem packAttr_eq_cstr (be : Bool) (a : Attribute) :
    packAttr be false a
      = encBlock be (attrBody be (cstr a.fAttributeSignature) (a.values.map cstr)) := by
  have hv : packValues be a.values = (a.values.map cstr).flatMap (encBlock be) := by
    rw [packValues_eq]
    induction a.values with
    | nil => rfl
    | cons v vs ih => simp only [List.flatMap_cons, List.map_cons, ih]
  simp only [packAttr, AppendString, AppendShort, AppendBlock, AppendLong, strlen,
    hv, if_true, List.nil_append, List.append_assoc, attrBody, List.length_map]
  rfl

/-- C1, counterexample: a record whose value holds the bytes 65, 0, 66 is packed the
way `AddDataToOutBuff` does into a buffer of 200 bytes; `GetRecordEntry`,
`GetAttributeEntry` and `GetAttributeValue` then hand back the single byte 65, not
the value, in either byte order. -/
theorem roundtrip_cuts_value_at_zero_byte :
    (((CBuff.Initialize 200 kStdA).AddData true
        (packRecord true keNullMetaType false none none binaryRecord)).1 = eDSNoErr
      ∧ readBack true ((CBuff.Initialize 200 kStdA).AddData true
          (packRecord true keNullMetaType false none none binaryRecord)).2 1 1 1 = .ok [65])
    ∧ (((CBuff.Initialize 200 kStdA).AddData false
        (packRecord false keNullMetaType false none none binaryRecord)).1 = eDSNoErr
      ∧ readBack false ((CBuff.Initialize 200 kStdA).AddData false
          (packRecord false keNullMetaType false none none binaryRecord)).2 1 1 1 = .ok [65])
    ∧ (binaryRecord.attrs.map (fun a => a.values)) = [[[65, 0, 66]]] := by
  refine ⟨⟨?_, ?_⟩, ⟨?_, ?_⟩, ?_⟩ <;> decide

/-- C1, amended: for every record whose type, name, attribute signatures and values
are C strings (no zero byte) and whose lengths and counts fit the 16-bit fields, when
`AddDataToOutBuff` packs it with values and without alias meta attributes and
`AddData` stores it in a buffer smaller than 4 GiB, `GetRecordEntry` returns its
type, name and attribute count, `GetAttributeEntry(i)` the signature and value count
of attribute `i`, and `GetAttributeValue(j)` the bytes of value `j`, in the original
order. -/
theorem roundtrip_record (be : Bool) (b0 b : CBuff) (r : Record) (s t : Option tDataList)
    (hwf : b0.WF) (hsize : b0.fBufferSize < U32) (hr : r.Packable)
    (hadd : CBuff.AddData be b0 (packRecord be keNullMetaType false s t r) = (eDSNoErr, b)) :
    ∃ off, GetRecordEntry be b (b0.fOffsets.length + 1)
        = .ok { pRecType := r.recType, pRecName := r.recName,
                fRecordAttributeCount := r.attrs.length, attrContextOffset := off }
      ∧ ∀ (i : Nat) (hi : i < r.attrs.length), ∃ e,
          (GetAttributeEntry be b.mem b.fBufferSize off (i + 1)).2 = .ok e
          ∧ e.fAttributeSignature = r.attrs[i].fAttributeSignature
          ∧ e.fAttributeValueCount = r.attrs[i].values.length
          ∧ ∀ (j : Nat) (hj : j < r.attrs[i].values.length), ∃ v,
              (GetAttributeValue be b.mem b.fBufferSize e.valueContextOffset (j + 1)).2 = .ok v
              ∧ v.fBufferData b.mem = r.attrs[i].values[j] := by
  have hU := U32_eq
  have hU' := U16_eq
  obtain ⟨hw1, hw2⟩ := hwf
  have hpk := packRecord_eq be s t r hr
  obtain ⟨-, ht, -, hn, hN, hattrs⟩ := hr
  generalize hD : packRecord be keNullMetaType false s t r = D at *
  unfold CBuff.AddData at hadd
  split at hadd
  · simp at hadd
  rename_i hfit
  simp only [Prod.mk.injEq, true_and] at hadd
  simp only [CBuff.bookkeeping] at hfit
  generalize hoff : b0.fDataStart - (4 + D.length) = off0 at *
  have hbmem : b.mem = memOf (writeAt b0.fBufferData off0 (enc32 be D.length ++ D)) := by
    rw [← hadd]; rfl
  have hbsize : b.fBufferSize = b0.fBufferSize := by rw [← hadd]
  have hboffs : b.fOffsets = b0.fOffsets ++ [off0] := by rw [← hadd]
  clear hadd
  have hblock := At_memOf_writeAt b0.fBufferData off0 (enc32 be D.length ++ D)
    (by simp only [List.length_append, enc32_length]; omega)
  rw [← hbmem] at hblock
  clear hbmem
  rw [hbsize]
  rw [At_append, enc32_length] at hblock
  obtain ⟨hb0, hb1⟩ := hblock
  have hDlen : D.length = 2 + (r.recType.length + (2 + (r.recName.length
      + (2 + ((r.attrs.map (Attribute.body be)).flatMap (encBlock be)).length)))) := by
    rw [hpk]; simp [enc16_length]
  rw [hpk, At_append, enc16_length, At_append, At_append, enc16_length, At_append, At_append,
    enc16_length] at hb1
  obtain ⟨p1, p2, p3, p4, p5, p6⟩ := hb1
  have e0 : rd32 be b.mem off0 = D.length := rd32_of_At (by omega) hb0
  have e1 : rd16 be b.mem (off0 + 4) = r.recType.length := rd16_of_At ht p1
  have e2 : rd16 be b.mem (off0 + 4 + 2 + r.recType.length) = r.recName.length := rd16_of_At hn p3
  have e3 : rd16 be b.mem (off0 + 4 + 2 + r.recType.length + 2 + r.recName.length)
      = r.attrs.length := rd16_of_At hN p5
  refine ⟨off0 + 4 + 2 + r.recType.length + 2 + r.recName.length, ?_, ?_⟩
  · have g1 : b.fOffsets.get? b0.fOffsets.length = some off0 := by simp [hboffs]
    have k1 : add32 2 0 = 2 := rfl
    have k1' : add32 0 2 = 2 := rfl
    have k2 : add32 2 r.recType.length = 2 + r.recType.length := add32_of_lt (by omega)
    have k3 : add32 2 (2 + r.recType.length) = 2 + (2 + r.recType.length) :=
      add32_of_lt (by omega)
    have k3' : add32 (2 + r.recType.length) 2 = 2 + r.recType.length + 2 :=
      add32_of_lt (by omega)
    have k4 : add32 (2 + r.recType.length + 2) r.recName.length
        = 2 + r.recType.length + 2 + r.recName.length := add32_of_lt (by omega)
    have k5 : add32 2 (2 + r.recType.length + 2 + r.recName.length)
        = 2 + (2 + r.recType.length + 2 + r.recName.length) := add32_of_lt (by omega)
    have k6 : add32 (add32 off0 (2 + r.recType.length + 2 + r.recName.length)) 4
        = off0 + 4 + 2 + r.recType.length + 2 + r.recName.length := by
      rw [add32_of_lt (a := off0) (by omega), add32_of_lt (by omega)]; omega
    have q1 : off0 + 4 + (2 + r.recType.length) = off0 + 4 + 2 + r.recType.length := by omega
    have q2 : off0 + 4 + (2 + r.recType.length + 2) = off0 + 4 + 2 + r.recType.length + 2 := by
      omega
    have q3 : off0 + 4 + (2 + r.recType.length + 2 + r.recName.length)
        = off0 + 4 + 2 + r.recType.length + 2 + r.recName.length := by omega
    have c0 : ¬ (b.fBufferSize = 0) := by omega
    have c1 : ¬ (b0.fOffsets.length + 1 > b.fOffsets.length) := by simp [hboffs]
    have c2 : ¬ (2 > D.length) := by omega
    have c3 : ¬ (2 + (2 + r.recType.length) > D.length) := by omega
    have c4 : ¬ (2 + (2 + r.recType.length + 2 + r.recName.length) > D.length) := by omega
    simp only [GetRecordEntry, CBuff.GetDataBlockCount, CBuff.GetDataBlock,
      CBuff.GetDataBlockLength, Nat.add_one_ne_zero, if_false, Nat.add_sub_cancel, or_false,
      g1, e0, k1, k1', Nat.add_zero, e1, k2, k3, k3', q1, q2, q3, e2, k4, k5, e3, k6,
      c0, c1, c2, c3, c4, rdBytes_of_At p2, rdBytes_of_At p4]
  · intro i hi
    have hi' : i < (r.attrs.map (Attribute.body be)).length := by simpa using hi
    have hai := hattrs r.attrs[i] (List.getElem_mem hi)
    obtain ⟨-, hsig, hcnt, -⟩ := hai
    rw [flatMap_split be _ i hi', At_append, At_append] at p6
    obtain ⟨p6, p7, -⟩ := p6
    have hAl := congrArg List.length (flatMap_split be _ i hi')
    simp only [List.length_append, encBlock_length] at hAl
    have hbody : (r.attrs.map (Attribute.body be))[i]
        = attrBody be r.attrs[i].fAttributeSignature r.attrs[i].values := by
      simp [Attribute.body]
    rw [hbody] at p7 hAl
    have htk : ((r.attrs.map (Attribute.body be)).take i).length = i := by
      simp; omega
    obtain ⟨e, he, hs, hc, ho⟩ := GetAttributeEntry_At be b.mem b0.fBufferSize
      (off0 + 4 + 2 + r.recType.length + 2 + r.recName.length) r.attrs.length
      ((r.attrs.map (Attribute.body be)).take i) r.attrs[i].fAttributeSignature r.attrs[i].values
      hsize hN (by omega) hsig hcnt p5 p6 p7 (by omega)
    rw [htk] at he
    refine ⟨e, he, hs, hc, ?_⟩
    intro j hj
    obtain ⟨pos, hv, hd⟩ := GetAttributeValue_At be b.mem b0.fBufferSize e.valueContextOffset
      r.attrs[i].fAttributeSignature r.attrs[i].values hsize hsig hcnt (by rw [ho]; exact p7)
      (by rw [ho]; omega) j hj
    exact ⟨_, hv, hd⟩

set_option maxRecDepth 100000 in
/-- C1, witness: the round trip of `sampleRecord` through a buffer of 200 bytes. -/
theorem roundtrip_record_witness :
    ∃ off, GetRecordEntry true (sampleBuff true) 1
        = .ok { pRecType := sampleRecord.recType, pRecName := sampleRecord.recName,
                fRecordAttributeCount := sampleRecord.attrs.length, attrContextOffset := off }
      ∧ ∀ (i : Nat) (hi : i < sampleRecord.attrs.length), ∃ e,
          (GetAttributeEntry true (sampleBuff true).mem (sampleBuff true).fBufferSize off (i + 1)).2
            = .ok e
          ∧ e.fAttributeSignature = sampleRecord.attrs[i].fAttributeSignature
          ∧ e.fAttributeValueCount = sampleRecord.attrs[i].values.length
          ∧ ∀ (j : Nat) (hj : j < sampleRecord.attrs[i].values.length), ∃ v,
              (GetAttributeValue true (sampleBuff true).mem (sampleBuff true).fBufferSize
                e.valueContextOffset (j + 1)).2 = .ok v
              ∧ v.fBufferData (sampleBuff true).mem = sampleRecord.attrs[i].values[j] :=
  roundtrip_record true (CBuff.Initialize 200 kStdA) (sampleBuff true) sampleRecord none none
    (CBuff.Initialize_WF 200 kStdA) (by decide) (by decide) (Prod.ext (by decide) rfl)

/-- C2, the code at the failing input: the out buffer of 64 bytes holds one record
block, stored at its end, whose only attribute block declares 100 bytes and ends
with the buffer. `GetRecordEntry` returns the attribute-list offset 58, and
`GetAttributeEntry` at that offset returns an entry (status `eDSNoErr`) after
reading the two bytes at positions 64 and 65 and the two at positions 66 and 67,
which lie past the end of the buffer. -/
theorem GetAttributeEntry_reads_past_buffer :
    GetRecordEntry true truncatedBuff 1
        = .ok { pRecType := [], pRecName := [], fRecordAttributeCount := 1,
                attrContextOffset := 58 }
      ∧ truncatedBuff.fBufferSize = 64
      ∧ GetAttributeEntry true truncatedBuff.mem 64 58 1
        = ([(58, 2), (60, 4), (64, 2), (66, 2), (66, 0)],
           .ok { fAttributeValueCount := 0, fAttributeDataSize := 0,
                 fAttributeValueMaxSize := 512, fAttributeSignature := [],
                 valueContextOffset := 60 })
      ∧ ¬ (∀ rd ∈ (GetAttributeEntry true truncatedBuff.mem 64 58 1).1, Read.within 64 rd) := by
  refine ⟨?_, ?_, ?_, ?_⟩ <;> decide

/-- C3, the code at the failing input: the out buffer of 64 bytes holds one record
block whose only attribute has one value declaring `0xFFFFFFFF` bytes.
`GetRecordEntry` and `GetAttributeEntry` return the value-list offset 50; in
`GetAttributeValue` the sum `usValueLen + offset` = `0xFFFFFFFF + 62` wraps around
to 61, the last check passes, and a value (status `eDSNoErr`) of 4294967295 bytes is
copied from position 62 on, of which only two lie inside the buffer. -/
theorem GetAttributeValue_length_overflow :
    GetRecordEntry true overflowBuff 1
        = .ok { pRecType := [], pRecName := [], fRecordAttributeCount := 1,
                attrContextOffset := 48 }
      ∧ overflowBuff.fBufferSize = 64
      ∧ (GetAttributeEntry true overflowBuff.mem 64 48 1).2
        = .ok { fAttributeValueCount := 1, fAttributeDataSize := 4294967295,
                fAttributeValueMaxSize := 512, fAttributeSignature := [],
                valueContextOffset := 50 }
      ∧ GetAttributeValue true overflowBuff.mem 64 50 1
        = ([(50, 4), (54, 2), (56, 2), (58, 4), (62, 4294967295)],
           .ok { fBufferLength := 4294967295, fDataPos := 62, fAttributeValueID := 0 })
      ∧ add32 4294967295 62 = 61
      ∧ ¬ Read.within 64 (62, 4294967295) := by
  refine ⟨?_, ?_, ?_, ?_, ?_, ?_⟩ <;> decide

/-- C4: for every attribute block that `AddDataToOutBuff` packs (with values) and
that lies inside a buffer smaller than 4 GiB, and every index greater than the
number `V` of its values, `GetAttributeValue` fails with `eDSInvalidIndex`; it has
then read the block length, the signature length and the value count only, and
every read ends at or before the position where the first value starts. -/
theorem GetAttributeValue_index_past_count (be : Bool) (mem : Mem) (size q : Nat) (a : Attribute)
    (uiIndex : Nat) (hsize : size < U32) (hsig : strlen a.fAttributeSignature < U16)
    (hcnt : a.values.length < U16) (hat : At mem q (packAttr be false a))
    (hle : q + (packAttr be false a).length ≤ size) (hidx : a.values.length < uiIndex) :
    GetAttributeValue be mem size q uiIndex
        = ([(q, 4), (q + 4, 2), (q + 4 + 2 + strlen a.fAttributeSignature, 2)],
           .error eDSInvalidIndex)
      ∧ ∀ rd ∈ (GetAttributeValue be mem size q uiIndex).1,
          rd.1 + rd.2 ≤ q + 4 + 2 + strlen a.fAttributeSignature + 2 := by
  rw [packAttr_eq_cstr] at hat hle
  rw [encBlock_length] at hle
  have h := GetAttributeValue_index be mem size q (cstr a.fAttributeSignature) (a.values.map cstr)
    hsize hsig (by simpa using hcnt) hat hle uiIndex (by simpa using hidx)
  rw [h]
  refine ⟨rfl, ?_⟩
  intro rd hrd
  simp only [List.mem_cons, List.mem_singleton, List.not_mem_nil, or_false] at hrd
  unfold strlen
  rcases hrd with rfl | rfl | rfl <;> simp <;> omega

set_option maxRecDepth 100000 in
/-- C4, witness: index 3 on the first attribute of `sampleRecord`, which has two
values, packed at position 7 of a buffer of 64 bytes. -/
theorem GetAttributeValue_index_past_count_witness :
    GetAttributeValue true
        (memOf (List.replicate 7 9 ++ packAttr true false (sampleRecord.attrs.headD ⟨[], []⟩))) 64 7 3
        = ([(7, 4), (7 + 4, 2),
            (7 + 4 + 2 + strlen (sampleRecord.attrs.headD ⟨[], []⟩).fAttributeSignature, 2)],
           .error eDSInvalidIndex)
      ∧ ∀ rd ∈ (GetAttributeValue true
          (memOf (List.replicate 7 9 ++ packAttr true false (sampleRecord.attrs.headD ⟨[], []⟩)))
          64 7 3).1,
          rd.1 + rd.2 ≤ 7 + 4 + 2 + strlen (sampleRecord.attrs.headD ⟨[], []⟩).fAttributeSignature + 2 :=
  GetAttributeValue_index_past_count true _ 64 7 (sampleRecord.attrs.headD ⟨[], []⟩) 3
    (by decide) (by decide) (by decide)
    (by
      intro i hi
      have h7 : (List.replicate 7 (9 : Nat)).length = 7 := by simp
      unfold memOf
      rw [List.getD_append_right _ _ _ _ (by omega), h7, Nat.add_sub_cancel_left])
    (by decide) (by decide)

/-! ## The search path resolver and the config store -/

theorem SwitchSearchPolicy_none_ok (w : Collaborators) (policy : Nat) (cfg : sSearchConfig)
    (hc : cfg.pConfigFromXML = none) (hok : w.newConfig.1 = eDSNoErr) :
    SwitchSearchPolicy w policy cfg
      = SwitchSearchPolicy w policy { cfg with pConfigFromXML := some w.newConfig.2 } := by
  unfold SwitchSearchPolicy
  simp [hc, hok]

theorem SwitchSearchPolicy_none_err (w : Collaborators) (policy : Nat) (cfg : sSearchConfig)
    (hc : cfg.pConfigFromXML = none) (herr : w.newConfig.1 ≠ eDSNoErr) :
    (SwitchSearchPolicy w policy cfg).siResult = w.newConfig.1
      ∧ (SwitchSearchPolicy w policy cfg).config.fSearchNodeList = cfg.fSearchNodeList := by
  unfold SwitchSearchPolicy
  simp [hc, herr]

/-- C5: for every policy value (Automatic, LocalOnly, Custom or any other), every
config and every answer of the collaborators, either `SwitchSearchPolicy` installs
no list at all, which happens exactly when the config has no config file object and
loading one fails (the status of that is returned and the list is left as it was),
or it returns `eDSNoErr` and the list it installs is non-empty with a first entry
that addresses the local node. -/
theorem SwitchSearchPolicy_list_local_first (w : Collaborators) (policy : Nat)
    (cfg : sSearchConfig) :
    (cfg.pConfigFromXML = none ∧ w.newConfig.1 ≠ eDSNoErr
        ∧ (SwitchSearchPolicy w policy cfg).siResult = w.newConfig.1
        ∧ (SwitchSearchPolicy w policy cfg).config.fSearchNodeList = cfg.fSearchNodeList)
    ∨ ((SwitchSearchPolicy w policy cfg).siResult = eDSNoErr
        ∧ ∃ node rest, (SwitchSearchPolicy w policy cfg).config.fSearchNodeList = node :: rest
            ∧ node.addressesLocal) := by
  have key : ∀ (cfg' : sSearchConfig) (c : CConfigs), cfg'.pConfigFromXML = some c →
      (SwitchSearchPolicy w policy cfg').siResult = eDSNoErr
        ∧ ∃ node rest, (SwitchSearchPolicy w policy cfg').config.fSearchNodeList = node :: rest
            ∧ node.addressesLocal := by
    intro cfg' c hc
    obtain ⟨h1, h2⟩ := SwitchSearchPolicy_some w policy cfg' c hc
    obtain ⟨node, rest, h3, h4⟩ := switch_base_head w policy c []
    refine ⟨h1, node, rest ++ (if policy = kNetInfoSearchPolicy ∧ c.IsDHCPLDAPEnabled = true
      then GetDefaultLDAPPaths w else []), ?_, h4⟩
    rw [h2, h3, List.cons_append]
  cases hc : cfg.pConfigFromXML with
  | some c => exact Or.inr (key cfg c hc)
  | none =>
    by_cases hok : w.newConfig.1 = eDSNoErr
    · right
      rw [SwitchSearchPolicy_none_ok w policy cfg hc hok]
      exact key _ w.newConfig.2 rfl
    · left
      exact ⟨rfl, hok, SwitchSearchPolicy_none_err w policy cfg hc hok⟩

/-- C6: for every list `l`, `AddLocalNodesAsFirstPaths` returns `eDSNoErr` and the
local node entry followed by `l`; and under the Custom policy, for every
administrator-supplied list (empty or not), the list `SwitchSearchPolicy` installs
is the local node entry followed by exactly the entries of that list in their
order. -/
theorem custom_policy_local_then_configured (w : Collaborators) (cfg : sSearchConfig)
    (c : CConfigs) (l : List sSearchList) :
    AddLocalNodesAsFirstPaths w l = (eDSNoErr, [forcedLocalNode] ++ l)
      ∧ forcedLocalNode.addressesLocal
      ∧ (SwitchSearchPolicy w kCustomSearchPolicy
          { cfg with pConfigFromXML := some c }).config.fSearchNodeList
        = [forcedLocalNode] ++ c.GetCustom := by
  refine ⟨AddLocalNodesAsFirstPaths_eq w l, forcedLocalNode_addressesLocal, ?_⟩
  have h := (SwitchSearchPolicy_some w kCustomSearchPolicy { cfg with pConfigFromXML := some c }
    c rfl).2
  rw [h]
  have h1 : ¬ kCustomSearchPolicy = kNetInfoSearchPolicy := by decide
  simp [h1]

/-- C7: the list `SwitchSearchPolicy` installs is the list of the policy followed by
the default LDAP paths exactly when the policy is Automatic (and they are enabled in
the config), and by nothing otherwise; the LDAP entries are in the order in which
the collaborator returned the paths; and `AddDefaultLDAPNodesLast` appends them
behind every entry of the list, or, when there are none, reports
`eSearchPathNotDefined` and leaves the list as it is. -/
theorem ldap_paths_last_only_automatic (w : Collaborators) (policy : Nat) (cfg : sSearchConfig)
    (c : CConfigs) (l : List sSearchList) :
    (SwitchSearchPolicy w policy { cfg with pConfigFromXML := some c }).config.fSearchNodeList
        = (if policy = kCustomSearchPolicy then forcedLocalNode :: c.GetCustom
           else if policy = kLocalSearchPolicy then [forcedLocalNode]
           else GetNetInfoPaths w false none)
          ++ (if policy = kNetInfoSearchPolicy ∧ c.IsDHCPLDAPEnabled = true
              then GetDefaultLDAPPaths w else [])
      ∧ AddDefaultLDAPNodesLast w l
        = (if GetDefaultLDAPPaths w = [] then (eSearchPathNotDefined, l)
           else (eDSNoErr, l ++ GetDefaultLDAPPaths w))
      ∧ (GetDefaultLDAPPaths w).map (fun n => n.fNodeName)
        = w.ldapPaths.map (fun v => some (cstr v)) := by
  refine ⟨(SwitchSearchPolicy_some w policy { cfg with pConfigFromXML := some c } c rfl).2,
    AddDefaultLDAPNodesLast_eq w l, ?_⟩
  unfold GetDefaultLDAPPaths
  simp [List.map_map, Function.comp_def]

theorem dupSearchList_length : ∀ (l : List sSearchList) (b : Bool),
    (dupSearchList l b).length = l.length
  | [], _ => rfl
  | n :: rest, b => by
    unfold dupSearchList
    cases n.fNodeName <;> simp [dupSearchList_length rest]

theorem openDirNodeLoop_list (w : Collaborators) (pathStr : List Nat) (ctx : sSearchContextData) :
    ∀ (configs : List sSearchConfig), openDirNodeLoop w pathStr configs = (eDSNoErr, some ctx) →
      (strcmpEq pathStr kstrNetworkNodeName = true
          ∧ ctx.fSearchNodeList = BuildNetworkNodeList w)
      ∨ (strcmpEq pathStr kstrNetworkNodeName = false
          ∧ ∃ c ∈ configs, strcmpEq pathStr c.fSearchNodeName = true
              ∧ ctx.fSearchNodeList.length = c.fSearchNodeList.length)
  | [], h => by simp [openDirNodeLoop] at h
  | c :: rest, h => by
    unfold openDirNodeLoop at h
    by_cases hm : strcmpEq pathStr c.fSearchNodeName = true
    · simp only [hm, if_true, Prod.mk.injEq, Option.some.injEq, true_and] at h
      subst h
      by_cases hn : strcmpEq pathStr kstrNetworkNodeName = true
      · left; exact ⟨hn, by simp [hn]⟩
      · right
        refine ⟨by simpa using hn, c, by simp, hm, ?_⟩
        simp [hn, DupSearchListWithNewRefs, dupSearchList_length]
    · simp only [hm] at h
      rcases openDirNodeLoop_list w pathStr ctx rest h with h1 | ⟨h1, c', hc', h2⟩
      · exact Or.inl h1
      · exact Or.inr ⟨h1, c', by simp [hc'], h2⟩

/-- C8, counterexample: the Network search config is as `Initialize` makes it and
`dsFindDirNodes` finds no default network node; `OpenDirNode` on the Network search
node returns `eDSNoErr` and registers a context whose node list is empty. -/
theorem OpenDirNode_network_empty_list :
    OpenDirNode noNetworkNodes [networkSearchConfig none] (some kstrNetworkNodeName)
      = (eDSNoErr, some { fSearchNodeList := [], bListChanged := false, pSearchListMutex := true,
                          bAutoSearchList := false, offset := 0,
                          fSearchConfigKey := ConfigKey.eDSNetworkSearchNodeName }) := by
  decide

/-- C8, amended: every reference context that `OpenDirNode` creates successfully is
either one of the Network search node, whose node list is the list of default
network nodes that `BuildNetworkNodeList` gathers at that moment (empty when there
are none or the lookup fails), or one of another search node whose config is in the
list; its node list then has as many entries as the list of that config, so that it
is non-empty whenever the list of every config but the Network one is (as
`SwitchSearchPolicy` leaves it). -/
theorem OpenDirNode_node_list (w : Collaborators) (configs : List sSearchConfig)
    (pathStr : List Nat) (ctx : sSearchContextData)
    (h : OpenDirNode w configs (some pathStr) = (eDSNoErr, some ctx)) :
    (strcmpEq pathStr kstrNetworkNodeName = true ∧ ctx.fSearchNodeList = BuildNetworkNodeList w)
    ∨ (strcmpEq pathStr kstrNetworkNodeName = false
        ∧ (∃ c ∈ configs, strcmpEq pathStr c.fSearchNodeName = true
            ∧ ctx.fSearchNodeList.length = c.fSearchNodeList.length)
        ∧ ((∀ c ∈ configs, strcmpEq c.fSearchNodeName kstrNetworkNodeName = false
              → c.fSearchNodeList ≠ []) → ctx.fSearchNodeList ≠ [])) := by
  rcases openDirNodeLoop_list w pathStr ctx configs h with h1 | ⟨h1, c, hc, h2, h3⟩
  · exact Or.inl h1
  · refine Or.inr ⟨h1, ⟨c, hc, h2, h3⟩, fun hall hnil => ?_⟩
    have hcn : strcmpEq c.fSearchNodeName kstrNetworkNodeName = false := by
      unfold strcmpEq at h1 h2 ⊢
      rw [beq_iff_eq] at h2
      rw [← h2]
      exact h1
    have := hall c hc hcn
    rw [hnil] at h3
    exact this (List.length_eq_zero.mp h3.symm)

/-- C8, witness: the Authentication search node opened in the scenario; its config
was switched to LocalOnly, and the Network config is in the list too. -/
theorem OpenDirNode_node_list_witness :
    (strcmpEq kstrAuthenticationNodeName kstrNetworkNodeName = true
        ∧ [forcedLocalNode] = BuildNetworkNodeList Scenario.world)
    ∨ (strcmpEq kstrAuthenticationNodeName kstrNetworkNodeName = false
        ∧ (∃ c ∈ [Scenario.localOnlyConfig, networkSearchConfig none],
            strcmpEq kstrAuthenticationNodeName c.fSearchNodeName = true
            ∧ [forcedLocalNode].length = c.fSearchNodeList.length)
        ∧ ((∀ c ∈ [Scenario.localOnlyConfig, networkSearchConfig none],
              strcmpEq c.fSearchNodeName kstrNetworkNodeName = false → c.fSearchNodeList ≠ [])
            → [forcedLocalNode] ≠ [])) :=
  OpenDirNode_node_list Scenario.world [Scenario.localOnlyConfig, networkSearchConfig none]
    kstrAuthenticationNodeName
    { fSearchNodeList := [forcedLocalNode], bListChanged := false, pSearchListMutex := true,
      bAutoSearchList := false, offset := 0,
      fSearchConfigKey := ConfigKey.eDSAuthenticationSearchNodeName }
    (by decide)

theorem hasConfigWithKey_false_find (c : sSearchConfig) :
    ∀ (l : List sSearchConfig), hasConfigWithKey l c.fSearchConfigKey = false →
      FindSearchConfigWithKey (l ++ [c]) c.fSearchConfigKey = some c
  | [], _ => by simp [FindSearchConfigWithKey]
  | d :: rest, h => by
    unfold hasConfigWithKey at h
    by_cases hk : d.fSearchConfigKey = c.fSearchConfigKey
    · simp [hk] at h
    · simp only [hk, if_false] at h
      simp only [List.cons_append, FindSearchConfigWithKey, hk, if_false]
      exact hasConfigWithKey_false_find c rest h

theorem hasConfigWithKey_iff (key : ConfigKey) :
    ∀ (l : List sSearchConfig), hasConfigWithKey l key = true ↔ ∃ d ∈ l, d.fSearchConfigKey = key
  | [] => by simp [hasConfigWithKey]
  | d :: rest => by
    unfold hasConfigWithKey
    by_cases hk : d.fSearchConfigKey = key
    · simp [hk]
    · simp [hk, hasConfigWithKey_iff key rest]

/-- C9: when a config with the same key is in the list, `AddSearchConfigToList`
returns `eDSInvalidIndex` and leaves the list unchanged; otherwise it returns
`eDSNoErr`, the list is the old one with the config appended at its end, and
`FindSearchConfigWithKey` on the key of the config then returns that config. -/
theorem AddSearchConfigToList_spec (l : List sSearchConfig) (c : sSearchConfig) :
    ((∃ d ∈ l, d.fSearchConfigKey = c.fSearchConfigKey) →
        AddSearchConfigToList l c = (eDSInvalidIndex, l))
    ∧ ((¬ ∃ d ∈ l, d.fSearchConfigKey = c.fSearchConfigKey) →
        AddSearchConfigToList l c = (eDSNoErr, l ++ [c])
        ∧ FindSearchConfigWithKey (AddSearchConfigToList l c).2 c.fSearchConfigKey = some c) := by
  constructor
  · intro h
    have hd := (hasConfigWithKey_iff c.fSearchConfigKey l).mpr h
    simp [AddSearchConfigToList, hd]
  · intro h
    have hd : hasConfigWithKey l c.fSearchConfigKey = false := by
      cases hb : hasConfigWithKey l c.fSearchConfigKey with
      | false => rfl
      | true => exact absurd ((hasConfigWithKey_iff c.fSearchConfigKey l).mp hb) h
    have h1 : AddSearchConfigToList l c = (eDSNoErr, l ++ [c]) := by
      unfold AddSearchConfigToList
      by_cases hl : l = []
      · subst hl; simp [hd]
      · simp [hd, hl]
    exact ⟨h1, by rw [h1]; exact hasConfigWithKey_false_find c l hd⟩

/-- C9, witness: the Network config is added to the list that holds the
Authentication config, and then once more. -/
theorem AddSearchConfigToList_spec_witness :
    AddSearchConfigToList [Scenario.baseConfig, networkSearchConfig none] (networkSearchConfig none)
        = (eDSInvalidIndex, [Scenario.baseConfig, networkSearchConfig none])
    ∧ (AddSearchConfigToList [Scenario.baseConfig] (networkSearchConfig none)
        = (eDSNoErr, [Scenario.baseConfig] ++ [networkSearchConfig none])
      ∧ FindSearchConfigWithKey
          (AddSearchConfigToList [Scenario.baseConfig] (networkSearchConfig none)).2
          (networkSearchConfig none).fSearchConfigKey = some (networkSearchConfig none)) :=
  ⟨(AddSearchConfigToList_spec [Scenario.baseConfig, networkSearchConfig none]
      (networkSearchConfig none)).1 ⟨networkSearchConfig none, by simp, rfl⟩,
   (AddSearchConfigToList_spec [Scenario.baseConfig] (networkSearchConfig none)).2 (by decide)⟩

/-! ## The query engine -/

set_option maxRecDepth 100000 in
/-- C10: with the policy LocalOnly (installed by `SwitchSearchPolicy`), one local
node that answers the request with its 3 records at once, a record limit of 0 and a
buffer of 512 bytes, one call of `GetRecordList` ends (within 8 passes of its loop),
returns `eDSNoErr` with a record count of 3 and no continue data, leaves no token
registered, and the out buffer holds the three records in the order of the node; in
either byte order. -/
theorem GetRecordList_scenario_A :
    (GetRecordList true Scenario.world Scenario.backends 1 8 Scenario.opened
        (Scenario.request 512 none)).map
        (fun r => (r.siResult, r.fOutRecEntryCount, r.fIOContinueData, r.state.gSNContinue,
          r.outBuff.map (recordNames true)))
      = some (eDSNoErr, 3, none, [],
          some [.ok (bytesOf "amy"), .ok (bytesOf "bob"), .ok (bytesOf "cyd")])
    ∧ (GetRecordList false Scenario.world Scenario.backends 1 8 Scenario.opened
        (Scenario.request 512 none)).map
        (fun r => (r.siResult, r.fOutRecEntryCount, r.fIOContinueData, r.state.gSNContinue,
          r.outBuff.map (recordNames false)))
      = some (eDSNoErr, 3, none, [],
          some [.ok (bytesOf "amy"), .ok (bytesOf "bob"), .ok (bytesOf "cyd")])
    ∧ Scenario.localOnlyConfig.fSearchPolicy = kLocalSearchPolicy
    ∧ Scenario.localRecords.length = 3 := by
  refine ⟨?_, ?_, ?_, ?_⟩ <;> rfl

/-! ## The tables of references and of continue data -/

theorem GetItemData_setItemData (c : sSearchContextData) (ref : Nat) :
    ∀ l : List (Nat × sSearchContextData), GetItemData l ref ≠ none →
      GetItemData (setItemData l ref c) ref = some c := by
  intro l
  induction l with
  | nil => intro h; simp [GetItemData] at h
  | cons e rest ih =>
    obtain ⟨r, c0⟩ := e
    intro h
    by_cases hr : r = ref
    · simp [GetItemData, setItemData, hr]
    · simp only [GetItemData, hr, if_false] at h
      simp [GetItemData, setItemData, hr, ih h]

theorem setItemData_self (c : sSearchContextData) (ref : Nat) :
    ∀ l : List (Nat × sSearchContextData), GetItemData l ref = some c →
      setItemData l ref c = l := by
  intro l
  induction l with
  | nil => intro _; rfl
  | cons e rest ih =>
    obtain ⟨r, c0⟩ := e
    intro h
    by_cases hr : r = ref
    · simp only [GetItemData, hr, if_true, Option.some.injEq] at h
      simp [setItemData, hr, h]
    · simp only [GetItemData, hr, if_false] at h
      simp [setItemData, hr, ih h]

theorem GetItemData_DoOnAllItems (proc : sSearchContextData → sSearchContextData) (ref : Nat) :
    ∀ l : List (Nat × sSearchContextData),
      GetItemData (DoOnAllItems proc l) ref = (GetItemData l ref).map proc := by
  intro l
  induction l with
  | nil => rfl
  | cons e rest ih =>
    obtain ⟨r, c0⟩ := e
    by_cases hr : r = ref
    · simp [GetItemData, DoOnAllItems, hr]
    · simp only [DoOnAllItems] at ih
      simp [GetItemData, DoOnAllItems, hr, ih]

theorem VerifyItem_append (t : Nat) (e : Nat × Nat × sSearchContinueData) (hne : e.1 ≠ t) :
    ∀ l : List (Nat × Nat × sSearchContinueData), VerifyItem l t = none →
      VerifyItem (l ++ [e]) t = none := by
  intro l
  induction l with
  | nil =>
    intro _
    obtain ⟨n, r, d⟩ := e
    simp only [List.nil_append, VerifyItem]
    simp only at hne
    simp [hne]
  | cons x rest ih =>
    obtain ⟨n, r, d⟩ := x
    intro h
    by_cases hn : n = t
    · simp [VerifyItem, hn] at h
    · simp only [VerifyItem, hn, if_false] at h
      simp [VerifyItem, hn, ih h]

theorem VerifyItem_RemoveItem (t : Nat) :
    ∀ l : List (Nat × Nat × sSearchContinueData), VerifyItem (RemoveItem l t) t = none := by
  intro l
  induction l with
  | nil => rfl
  | cons x rest ih =>
    obtain ⟨n, r, d⟩ := x
    simp only [RemoveItem] at ih
    by_cases hn : n = t
    · have hb : (n != t) = false := by simp [hn]
      simp only [RemoveItem, List.filter, hb]
      exact ih
    · have hb : (n != t) = true := by simpa using hn
      simp only [RemoveItem, List.filter, hb, VerifyItem, hn, if_false]
      exact ih

theorem VerifyItem_mem (t : Nat) :
    ∀ l : List (Nat × Nat × sSearchContinueData), VerifyItem l t ≠ none →
      ∃ e ∈ l, e.1 = t := by
  intro l
  induction l with
  | nil => intro h; simp [VerifyItem] at h
  | cons x rest ih =>
    obtain ⟨n, r, d⟩ := x
    intro h
    by_cases hn : n = t
    · exact ⟨(n, r, d), by simp, hn⟩
    · simp only [VerifyItem, hn, if_false] at h
      obtain ⟨e, he, h1⟩ := ih h
      exact ⟨e, by simp [he], h1⟩

/-! ## `GetNextNodeRef`: what it keeps of the context and of the configs -/

theorem openNext_length (w : Collaborators) :
    ∀ l : List sSearchList, (openNext w l).2.2.length = l.length := by
  intro l
  induction l with
  | nil => rfl
  | cons n rest ih =>
    simp only [openNext]
    split_ifs <;> simp [ih]

theorem FindSearchConfigWithKey_updateConfig (key : ConfigKey) (f : sSearchConfig → sSearchConfig)
    (hf : ∀ c, (f c).fSearchConfigKey = c.fSearchConfigKey) :
    ∀ l : List sSearchConfig, FindSearchConfigWithKey l key ≠ none →
      FindSearchConfigWithKey (updateConfig l key f) key ≠ none := by
  intro l
  induction l with
  | nil => intro h; simp [FindSearchConfigWithKey] at h
  | cons c rest ih =>
    intro h
    by_cases hk : c.fSearchConfigKey = key
    · simp [updateConfig, FindSearchConfigWithKey, hk, hf]
    · simp only [FindSearchConfigWithKey, hk, if_false] at h
      simp [updateConfig, FindSearchConfigWithKey, hk, ih h]

theorem GetNextNodeRef_context (w : Collaborators) (configs : List sSearchConfig) (inNodeRef : Nat)
    (c : sSearchContextData) :
    (GetNextNodeRef w configs inNodeRef c).context.pSearchListMutex = c.pSearchListMutex
    ∧ (GetNextNodeRef w configs inNodeRef c).context.fSearchConfigKey = c.fSearchConfigKey
    ∧ (c.fSearchNodeList ≠ [] → (GetNextNodeRef w configs inNodeRef c).context.fSearchNodeList ≠ [])
    ∧ (FindSearchConfigWithKey configs c.fSearchConfigKey ≠ none →
        FindSearchConfigWithKey (GetNextNodeRef w configs inNodeRef c).pSearchConfigList
          c.fSearchConfigKey ≠ none) := by
  unfold GetNextNodeRef
  generalize (if inNodeRef ≠ 0 then findAfter c.fSearchNodeList inNodeRef 0 else 0) = nodeIndex
  simp only
  have hpos : ∀ l : List sSearchList, l ≠ [] → 0 < l.length := fun l hl =>
    List.length_pos.mpr hl
  split
  next h =>
    refine ⟨rfl, rfl, ?_, ?_⟩
    · intro _
      simp only [Bool.and_eq_true, decide_eq_true_eq] at h
      have h3 := hpos _ h.2
      have h4 : 0 < (AddDefaultLDAPNodesLast w (DoNetInfoDefault w).2).2.length := by
        unfold AddDefaultLDAPNodesLast
        simp only
        split_ifs
        · exact h3
        · exact absurd ‹_› h.2
        · simp only [List.length_append]; omega
      intro h0
      have hlen := congrArg List.length h0
      simp only [List.length_append, List.length_take, List.length_nil, DupSearchListWithNewRefs,
        dupSearchList_length] at hlen
      split_ifs at hlen <;> omega
    · intro hfind
      simp only
      apply FindSearchConfigWithKey_updateConfig
      · intro _; rfl
      · exact hfind
  next h =>
    refine ⟨rfl, rfl, ?_, fun hfind => hfind⟩
    intro hne h0
    have hlen := congrArg List.length h0
    simp only [List.length_append, List.length_take, List.length_nil, openNext_length,
      List.length_drop] at hlen
    have := hpos _ hne
    omega
/-! ## The loop of `GetRecordList`: what every pass keeps -/

theorem LoopState.Keeps_congr (t : Nat) (key : ConfigKey) (s s2 : LoopState)
    (h1 : s2.gSNContinue = s.gSNContinue) (h2 : s2.nextToken = s.nextToken)
    (h3 : s2.context = s.context) (h4 : s2.pSearchConfigList = s.pSearchConfigList)
    (h : s.Keeps t key) : s2.Keeps t key := by
  unfold LoopState.Keeps at *
  rw [h1, h2, h3, h4]
  exact h

theorem LoopState.Keeps_addItem (t : Nat) (key : ConfigKey) (s : LoopState) (ref : Nat)
    (h : s.Keeps t key) : (s.addItem ref).Keeps t key := by
  obtain ⟨h1, h2, h3, h4, h5, h6⟩ := h
  refine ⟨?_, ?_, h3, h4, h5, h6⟩
  · exact VerifyItem_append t _ (by simp only; omega) _ h1
  · simp only [LoopState.addItem]; omega

theorem doTask_Keeps (be : Bool) (w : Collaborators) (bk : Backends) (inData : sGetRecordList)
    (t : Nat) (key : ConfigKey) (s : LoopState) (h : s.Keeps t key) :
    (doTask be w bk inData s).Keeps t key := by
  unfold doTask
  cases hr : s.runState <;> simp only
  case keGetNextNodeRef =>
    obtain ⟨h1, h2, h3, h4, h5, h6⟩ := h
    have g := GetNextNodeRef_context w s.pSearchConfigList s.pContinue.fNodeRef s.context
    rw [h5] at g
    exact ⟨h1, h2, g.2.2.1 h3, g.1.trans h4, g.2.1, g.2.2.2 h6⟩
  case keSetContinueData =>
    cases hl : s.lastState <;> simp only
    case keAddDataToBuff | keExpandAliases | keBufferTooSmall =>
      refine LoopState.Keeps_congr t key _ _ rfl rfl rfl rfl (LoopState.Keeps_addItem t key _ _ ?_)
      exact LoopState.Keeps_congr t key s _ rfl rfl rfl rfl h
    case keGetRecordList | keGetNextNodeRef =>
      split_ifs
      · exact LoopState.Keeps_congr t key s _ rfl rfl rfl rfl h
      · refine LoopState.Keeps_addItem t key _ _ ?_
        exact LoopState.Keeps_congr t key s _ rfl rfl rfl rfl h
    all_goals exact h
  all_goals exact LoopState.Keeps_congr t key s _ rfl rfl rfl rfl h

theorem changeState_frame (s : LoopState) :
    (changeState s).gSNContinue = s.gSNContinue ∧ (changeState s).nextToken = s.nextToken
    ∧ (changeState s).context = s.context
    ∧ (changeState s).pSearchConfigList = s.pSearchConfigList
    ∧ (changeState s).inOutBuff = s.inOutBuff
    ∧ (changeState s).locks = s.locks
    ∧ (changeState s).derefNil = s.derefNil := by
  unfold changeState
  cases hr : s.runState <;> simp only <;> (try split_ifs) <;> simp

theorem loopStep_Keeps (be : Bool) (w : Collaborators) (bk : Backends) (inData : sGetRecordList)
    (t : Nat) (key : ConfigKey) (s : LoopState) (h : s.Keeps t key) :
    (loopStep be w bk inData s).Keeps t key := by
  unfold loopStep
  have f := changeState_frame (doTask be w bk inData s)
  exact LoopState.Keeps_congr t key _ _ f.1 f.2.1 f.2.2.1 f.2.2.2.1 (doTask_Keeps be w bk inData t key s h)

theorem runLoop_Keeps (be : Bool) (w : Collaborators) (bk : Backends) (inData : sGetRecordList)
    (t : Nat) (key : ConfigKey) :
    ∀ (fuel : Nat) (s s2 : LoopState), s.Keeps t key → runLoop be w bk inData fuel s = some s2 →
      s2.Keeps t key := by
  intro fuel
  induction fuel with
  | zero =>
    intro s s2 h hr
    simp only [runLoop] at hr
    split_ifs at hr
    simp only [Option.some.injEq] at hr
    exact hr ▸ h
  | succ n ih =>
    intro s s2 h hr
    simp only [runLoop] at hr
    split_ifs at hr
    · simp only [Option.some.injEq] at hr
      exact hr ▸ h
    · exact ih _ _ (loopStep_Keeps be w bk inData t key s h) hr

/-! ## The scenarios B and C of `GetRecordList` -/

set_option maxRecDepth 100000 in
/-- C11, counterexample: the policy is LocalOnly, the local node holds 3 matching
records and fills the buffer it is given, the limit is 0 and the buffer of 100 bytes
holds 1 packed record and not 2. The first call returns 1 record (`amy`) and the
token 1; the second call, made with that token, returns 1 record (`bob`) and the
token 2, not the remaining 2 records without a token. -/
theorem GetRecordList_scenario_B_second_call :
    ((CBuff.Initialize 100 kStdA).AddData true (Scenario.packedLocal true 0)).1 = eDSNoErr
    ∧ (((CBuff.Initialize 100 kStdA).AddData true (Scenario.packedLocal true 0)).2.AddData true
        (Scenario.packedLocal true 1)).1 = kBuffFull
    ∧ Scenario.seen true
        (GetRecordList true Scenario.world Scenario.sizedBackends 1 8 Scenario.opened
          (Scenario.request 100 none))
      = some (eDSNoErr, 1, some 1, some [.ok (bytesOf "amy")])
    ∧ Scenario.seen true
        (Scenario.resume true Scenario.world Scenario.sizedBackends 100
          (GetRecordList true Scenario.world Scenario.sizedBackends 1 8 Scenario.opened
            (Scenario.request 100 none)))
      = some (eDSNoErr, 1, some 2, some [.ok (bytesOf "bob")]) := by
  refine ⟨?_, ?_, ?_, ?_⟩ <;> rfl

set_option maxRecDepth 100000 in
/-- C11, amended: in the same scenario, in either byte order, the first call returns
1 record and a token; a call with that token into a buffer that again holds 1 record
returns the next record and a new token, and the call with the new token returns
the last record and no token; a second call into a buffer that holds 2 records (176
bytes) returns the remaining 2 records and no token. Every call returns
`eDSNoErr`. -/
theorem GetRecordList_scenario_B : ∀ be : Bool,
    Scenario.seen be
        (GetRecordList be Scenario.world Scenario.sizedBackends 1 8 Scenario.opened
          (Scenario.request 100 none))
      = some (eDSNoErr, 1, some 1, some [.ok (bytesOf "amy")])
    ∧ Scenario.seen be
        (Scenario.resume be Scenario.world Scenario.sizedBackends 100
          (GetRecordList be Scenario.world Scenario.sizedBackends 1 8 Scenario.opened
            (Scenario.request 100 none)))
      = some (eDSNoErr, 1, some 2, some [.ok (bytesOf "bob")])
    ∧ Scenario.seen be
        (Scenario.resume be Scenario.world Scenario.sizedBackends 100
          (Scenario.resume be Scenario.world Scenario.sizedBackends 100
            (GetRecordList be Scenario.world Scenario.sizedBackends 1 8 Scenario.opened
              (Scenario.request 100 none))))
      = some (eDSNoErr, 1, none, some [.ok (bytesOf "cyd")])
    ∧ Scenario.seen be
        (Scenario.resume be Scenario.world Scenario.sizedBackends 176
          (GetRecordList be Scenario.world Scenario.sizedBackends 1 8 Scenario.opened
            (Scenario.request 100 none)))
      = some (eDSNoErr, 2, none, some [.ok (bytesOf "bob"), .ok (bytesOf "cyd")]) := by
  intro be
  cases be <;> (refine ⟨?_, ?_, ?_, ?_⟩ <;> rfl)

set_option maxRecDepth 100000 in
/-- C12: the policy is Custom and the custom list is `[nodeX]`, so that the search
path is the local node followed by `nodeX`, which `dsOpenDirNode` cannot open. In
either byte order `GetRecordList` returns `eDSNoErr`, the 3 records of the local
node and no token; `nodeX` stays unopened in the node list of the reference, and
`GetNextNodeRef` behind the local node answers `kEndOfSearchNodeList`. -/
theorem GetRecordList_scenario_C : ∀ be : Bool,
    (Scenario.customConfig.fSearchPolicy = kCustomSearchPolicy
      ∧ Scenario.customConfig.fSearchNodeList.map (fun n => n.fNodeName)
          = [some kstrDefaultLocalNodeName, Scenario.nodeX.fNodeName])
    ∧ (Scenario.world.dsOpenDirNode (Scenario.nodeX.fDataList.getD [])).1 = eDSOpenNodeFailed
    ∧ Scenario.seen be
        (GetRecordList be Scenario.world Scenario.backends 1 8 Scenario.openedCustom
          (Scenario.request 512 none))
      = some (eDSNoErr, 3, none,
          some [.ok (bytesOf "amy"), .ok (bytesOf "bob"), .ok (bytesOf "cyd")])
    ∧ (GetRecordList be Scenario.world Scenario.backends 1 8 Scenario.openedCustom
          (Scenario.request 512 none)).map
        (fun r => (GetItemData r.state.gSNNodeRef Scenario.clientRef).map
          (fun c => (c.fSearchNodeList.map (fun n => (n.fNodeRef, n.fOpened)),
            (GetNextNodeRef Scenario.world r.state.pSearchConfigList Scenario.localRef c).siResult)))
      = some (some ([(Scenario.localRef, true), (0, false)], kEndOfSearchNodeList)) := by
  intro be
  cases be <;> (refine ⟨⟨?_, ?_⟩, ?_, ?_, ?_⟩ <;> rfl)

/-! ## Policy switches, tokens and unknown references -/

set_option maxRecDepth 100000 in
/-- C13, counterexample: a reference to the Network search node holds the token 1
of a first call; a policy switch then sets `bListChanged` in its context. The call
of `GetRecordList` with the token 1 does not fail: it returns `eDSNoErr`, the next
record and the token 2. -/
theorem list_changed_network_token_resumes :
    Scenario.networkListChanged.map
        (fun s => ((GetItemData s.gSNNodeRef Scenario.clientRef).map
          (fun c => (c.bListChanged, c.fSearchConfigKey)), s.gSNContinue.map (fun e => e.1)))
      = some (some (true, ConfigKey.eDSNetworkSearchNodeName), [1])
    ∧ Scenario.seen true Scenario.networkResumed
      = some (eDSNoErr, 1, some 2, some [.ok (bytesOf "bob")]) := by
  refine ⟨?_, ?_⟩ <;> rfl

/-- C13, amended: for every reference that is registered with the context `c` of a
node reference, whose key is not the one of the Network search node and whose
config is in the list: after a policy switch told the contexts (`listChanged`),
`GetRecordList` and `AttributeValueSearch` called on it with a token that is not
nil return `eDSInvalidContinueData`; the context of the reference is `c` with
`bListChanged` set, so its node list is as it was, and the table of continue data
and the config list are as they were. -/
theorem list_changed_token_invalid (be : Bool) (w : Collaborators) (bk : Backends)
    (fDirRef fuel : Nat) (st : SearchNodeState) (inData : sGetRecordList)
    (inSearch : sDoAttrValueSearchWithData) (ref : Nat) (c : sSearchContextData)
    (hc : GetItemData st.gSNNodeRef ref = some c) (hm : c.pSearchListMutex = true)
    (hk : c.fSearchConfigKey ≠ ConfigKey.eDSNetworkSearchNodeName)
    (hf : FindSearchConfigWithKey st.pSearchConfigList c.fSearchConfigKey ≠ none)
    (h1 : inData.fInNodeRef = ref) (h2 : inData.fIOContinueData ≠ none)
    (h3 : inSearch.fInNodeRef = ref) (h4 : inSearch.fIOContinueData ≠ none) :
    (∃ r, GetRecordList be w bk fDirRef fuel st.listChanged inData = some r
        ∧ r.siResult = eDSInvalidContinueData
        ∧ GetItemData r.state.gSNNodeRef ref = some { c with bListChanged := true }
        ∧ r.state.gSNContinue = st.gSNContinue
        ∧ r.state.pSearchConfigList = st.pSearchConfigList)
    ∧ (∃ r, AttributeValueSearch_start st.listChanged inSearch = .error r
        ∧ r.siResult = eDSInvalidContinueData
        ∧ GetItemData r.state.gSNNodeRef ref = some { c with bListChanged := true }
        ∧ r.state.gSNContinue = st.gSNContinue
        ∧ r.state.pSearchConfigList = st.pSearchConfigList) := by
  obtain ⟨cfg, hcfg⟩ := Option.ne_none_iff_exists'.mp hf
  have hget : GetItemData st.listChanged.gSNNodeRef ref = some { c with bListChanged := true } := by
    simp [SearchNodeState.listChanged, GetItemData_DoOnAllItems, hc, ContextSetListChangedProc, hm]
  have hset : GetItemData
      (setItemData st.listChanged.gSNNodeRef ref { c with bListChanged := true }) ref
        = some { c with bListChanged := true } :=
    GetItemData_setItemData _ _ _ (by rw [hget]; simp)
  have hcfg2 : FindSearchConfigWithKey st.listChanged.pSearchConfigList c.fSearchConfigKey
      = some cfg := hcfg
  constructor
  · have e : GetRecordList be w bk fDirRef fuel st.listChanged inData
        = some (catchGetRecordList eDSInvalidContinueData inData
            { st.listChanged with locks := st.listChanged.locks ++
                [LockEvent.Wait Mutex.fMutex, LockEvent.Wait (Mutex.pSearchListMutex inData.fInNodeRef),
                 LockEvent.Wait Mutex.fMutex, LockEvent.Signal Mutex.fMutex] }
            (some { c with bListChanged := true }) inData.fIOContinueData) := by
      unfold GetRecordList
      simp only [h1, hget, hm, Bool.true_eq_false, if_false, hcfg2, hk, ne_eq, not_false_eq_true,
        decide_True, Bool.and_self, h2, if_true]
    refine ⟨_, e, ?_⟩
    simp only [catchGetRecordList, h1, hset, and_self]
    trivial
  · have e : AttributeValueSearch_start st.listChanged inSearch
        = .error (catchAttributeValueSearch eDSInvalidContinueData inSearch
            { st.listChanged with locks := st.listChanged.locks ++
                [LockEvent.Wait Mutex.fMutex, LockEvent.Wait (Mutex.pSearchListMutex inSearch.fInNodeRef),
                 LockEvent.Wait Mutex.fMutex, LockEvent.Signal Mutex.fMutex] }
            (some { c with bListChanged := true })) := by
      unfold AttributeValueSearch_start
      simp only [h3, hget, hm, Bool.true_eq_false, if_false, hcfg2, hk, ne_eq, not_false_eq_true,
        decide_True, Bool.and_self, h4, if_true]
    refine ⟨_, e, ?_⟩
    simp only [catchAttributeValueSearch, h3, hset, and_self]
    trivial

set_option maxRecDepth 100000 in
/-- C13, witness: the reference of the scenario to the Authentication search node,
after a policy switch, called with the token 5. -/
theorem list_changed_token_invalid_witness :
    ∃ c : sSearchContextData, GetItemData Scenario.opened.gSNNodeRef Scenario.clientRef = some c
      ∧ (∃ r, GetRecordList true Scenario.world Scenario.backends 1 8 Scenario.opened.listChanged
            (Scenario.request 100 (some 5)) = some r
          ∧ r.siResult = eDSInvalidContinueData
          ∧ GetItemData r.state.gSNNodeRef Scenario.clientRef = some { c with bListChanged := true }
          ∧ r.state.gSNContinue = Scenario.opened.gSNContinue
          ∧ r.state.pSearchConfigList = Scenario.opened.pSearchConfigList) :=
  ⟨_, rfl,
    (list_changed_token_invalid true Scenario.world Scenario.backends 1 8 Scenario.opened
      (Scenario.request 100 (some 5)) (Scenario.searchRequest Scenario.clientRef (some 5))
      Scenario.clientRef _ rfl rfl (by decide) (by decide) rfl (by decide) rfl (by decide)).1⟩

/-- C14: the reference is registered with the context `c` of a node reference whose
config is in the list and whose node list is not empty, and the request carries the
token `t`. When the table of continue data does not verify `t`, `GetRecordList`
returns `eDSInvalidContinueData` and leaves the table alone. When it verifies `t`
(the tokens of the table being the ones handed out, below `nextToken`) and the list
of the reference has not changed, a call that returns has removed `t` from the
table, and every further call with `t` returns `eDSInvalidContinueData`. -/
theorem token_single_use (be : Bool) (w : Collaborators) (bk : Backends) (fDirRef : Nat)
    (st : SearchNodeState) (inData : sGetRecordList) (t : Nat) (c : sSearchContextData)
    (hc : GetItemData st.gSNNodeRef inData.fInNodeRef = some c) (hm : c.pSearchListMutex = true)
    (hf : FindSearchConfigWithKey st.pSearchConfigList c.fSearchConfigKey ≠ none)
    (hl : c.fSearchNodeList ≠ []) (ht : inData.fIOContinueData = some t) :
    (VerifyItem st.gSNContinue t = none →
      ∀ fuel, ∃ r, GetRecordList be w bk fDirRef fuel st inData = some r
        ∧ r.siResult = eDSInvalidContinueData ∧ r.state.gSNContinue = st.gSNContinue)
    ∧ (VerifyItem st.gSNContinue t ≠ none → (∀ e ∈ st.gSNContinue, e.1 < st.nextToken) →
        (c.bListChanged && decide (c.fSearchConfigKey ≠ ConfigKey.eDSNetworkSearchNodeName)) = false →
        ∀ fuel r, GetRecordList be w bk fDirRef fuel st inData = some r →
          VerifyItem r.state.gSNContinue t = none
          ∧ ∀ fuel2, ∃ r2, GetRecordList be w bk fDirRef fuel2 r.state inData = some r2
              ∧ r2.siResult = eDSInvalidContinueData) := by
  obtain ⟨cfg, hcfg⟩ := Option.ne_none_iff_exists'.mp hf
  -- a call with a token that the table does not hold
  have unverified : ∀ (st2 : SearchNodeState) (c2 : sSearchContextData) (fuel : Nat),
      GetItemData st2.gSNNodeRef inData.fInNodeRef = some c2 → c2.pSearchListMutex = true →
      FindSearchConfigWithKey st2.pSearchConfigList c2.fSearchConfigKey ≠ none →
      c2.fSearchNodeList ≠ [] → VerifyItem st2.gSNContinue t = none →
      ∃ r, GetRecordList be w bk fDirRef fuel st2 inData = some r
        ∧ r.siResult = eDSInvalidContinueData ∧ r.state.gSNContinue = st2.gSNContinue := by
    intro st2 c2 fuel h1 h2 h3 h4 h5
    obtain ⟨cfg2, hcfg2⟩ := Option.ne_none_iff_exists'.mp h3
    by_cases hch : (c2.bListChanged
        && decide (c2.fSearchConfigKey ≠ ConfigKey.eDSNetworkSearchNodeName)) = true
    · refine ⟨catchGetRecordList eDSInvalidContinueData inData
          { st2 with locks := st2.locks ++
              [LockEvent.Wait Mutex.fMutex, LockEvent.Wait (Mutex.pSearchListMutex inData.fInNodeRef),
               LockEvent.Wait Mutex.fMutex, LockEvent.Signal Mutex.fMutex] }
          (some c2) inData.fIOContinueData, ?_, rfl, rfl⟩
      unfold GetRecordList
      simp only [h1, h2, Bool.true_eq_false, if_false, hcfg2, hch, ht, ne_eq, not_false_eq_true,
        decide_True, Bool.and_self, if_true, reduceCtorEq]
    · have hch2 : (c2.bListChanged
          && decide (c2.fSearchConfigKey ≠ ConfigKey.eDSNetworkSearchNodeName)) = false := by
        simpa using hch
      refine ⟨catchGetRecordList eDSInvalidContinueData inData
          { st2 with locks := st2.locks ++
              [LockEvent.Wait Mutex.fMutex, LockEvent.Wait (Mutex.pSearchListMutex inData.fInNodeRef),
               LockEvent.Wait Mutex.fMutex, LockEvent.Signal Mutex.fMutex]
              ++ [LockEvent.Signal Mutex.fMutex] }
          (some c2) inData.fIOContinueData, ?_, rfl, rfl⟩
      unfold GetRecordList
      simp only [h1, h2, Bool.true_eq_false, Bool.false_eq_true, if_false, hcfg2, hch2, ht, Bool.false_and, h4, h5]
  constructor
  · intro hv fuel
    exact unverified st c fuel hc hm hf hl hv
  · intro hv hfresh hch fuel r hr
    obtain ⟨d, hd⟩ := Option.ne_none_iff_exists'.mp hv
    obtain ⟨e, he, het⟩ := VerifyItem_mem t _ hv
    have hlt : t < st.nextToken := het ▸ hfresh e he
    unfold GetRecordList at hr
    simp only [hc, hm, Bool.true_eq_false, Bool.false_eq_true, if_false, hcfg, hch, ht, Bool.false_and, hl, hd] at hr
    split at hr
    · exact absurd hr (by simp)
    · rename_i s hs
      simp only [Option.some.injEq] at hr
      have hk := runLoop_Keeps be w bk inData t c.fSearchConfigKey fuel _ s
        ⟨VerifyItem_RemoveItem t _, hlt, hl, hm, rfl, by rw [hcfg]; simp⟩ hs
      obtain ⟨k1, k2, k3, k4, k5, k6⟩ := hk
      subst hr
      refine ⟨k1, fun fuel2 => ?_⟩
      obtain ⟨r2, e2, e3, _⟩ := unverified
        { pSearchConfigList := s.pSearchConfigList
          gSNNodeRef := setItemData st.gSNNodeRef inData.fInNodeRef s.context
          gSNContinue := s.gSNContinue
          nextToken := s.nextToken
          locks := s.locks ++ [LockEvent.Signal (Mutex.pSearchListMutex inData.fInNodeRef)] }
        s.context fuel2
        (GetItemData_setItemData s.context inData.fInNodeRef st.gSNNodeRef (by rw [hc]; simp))
        k4 (by rw [k5]; exact k6) k3 k1
      exact ⟨r2, e2, e3⟩

set_option maxRecDepth 100000 in
/-- C14, witness: the state after the first call of the traversal of scenario B,
which holds the token 1. A call with the token 9 returns `eDSInvalidContinueData`;
the call with the token 1 resumes (it returns the next record), and after it every
call with the token 1 returns `eDSInvalidContinueData`. -/
theorem token_single_use_witness :
    (VerifyItem Scenario.afterFirstCall.gSNContinue 9 = none
      ∧ ∀ fuel, ∃ r, GetRecordList true Scenario.world Scenario.sizedBackends 1 fuel
          Scenario.afterFirstCall (Scenario.request 100 (some 9)) = some r
        ∧ r.siResult = eDSInvalidContinueData
        ∧ r.state.gSNContinue = Scenario.afterFirstCall.gSNContinue)
    ∧ (VerifyItem Scenario.afterFirstCall.gSNContinue 1 ≠ none
      ∧ Scenario.seen true (GetRecordList true Scenario.world Scenario.sizedBackends 1 8
          Scenario.afterFirstCall (Scenario.request 100 (some 1)))
        = some (eDSNoErr, 1, some 2, some [.ok (bytesOf "bob")])
      ∧ ∀ fuel r, GetRecordList true Scenario.world Scenario.sizedBackends 1 fuel
          Scenario.afterFirstCall (Scenario.request 100 (some 1)) = some r →
        VerifyItem r.state.gSNContinue 1 = none
        ∧ ∀ fuel2, ∃ r2, GetRecordList true Scenario.world Scenario.sizedBackends 1 fuel2 r.state
              (Scenario.request 100 (some 1)) = some r2
            ∧ r2.siResult = eDSInvalidContinueData) :=
  ⟨⟨by decide,
    (token_single_use true Scenario.world Scenario.sizedBackends 1 Scenario.afterFirstCall
      (Scenario.request 100 (some 9)) 9 _ rfl rfl (by decide) (by decide) rfl).1 (by decide)⟩,
   ⟨by decide, rfl,
    (token_single_use true Scenario.world Scenario.sizedBackends 1 Scenario.afterFirstCall
      (Scenario.request 100 (some 1)) 1 _ rfl rfl (by decide) (by decide) rfl).2
      (by decide) (by decide) (by decide)⟩⟩

/-- C15: for every reference that is not registered, `GetRecordList` and
`AttributeValueSearch` hand `eDSInvalidNodeRef` to their `catch`, which signals
`fMutex` although no mutex was acquired and reads `pContext->pSearchListMutex`
through the nil `pContext`. -/
theorem unregistered_reference_catch (be : Bool) (w : Collaborators) (bk : Backends)
    (fDirRef fuel : Nat) (st : SearchNodeState) (inData : sGetRecordList)
    (inSearch : sDoAttrValueSearchWithData)
    (h1 : GetItemData st.gSNNodeRef inData.fInNodeRef = none)
    (h2 : GetItemData st.gSNNodeRef inSearch.fInNodeRef = none) :
    (∃ r, GetRecordList be w bk fDirRef fuel st inData = some r
        ∧ r.siResult = eDSInvalidNodeRef ∧ r.derefNil = true
        ∧ r.state.locks = st.locks ++ [LockEvent.Signal Mutex.fMutex])
    ∧ (∃ r, AttributeValueSearch_start st inSearch = .error r
        ∧ r.siResult = eDSInvalidNodeRef ∧ r.derefNil = true
        ∧ r.state.locks = st.locks ++ [LockEvent.Signal Mutex.fMutex]) := by
  constructor
  · have e : GetRecordList be w bk fDirRef fuel st inData
        = some (catchGetRecordList eDSInvalidNodeRef inData st none inData.fIOContinueData) := by
      unfold GetRecordList
      simp only [h1]
    refine ⟨_, e, ?_⟩
    simp [catchGetRecordList]
  · have e : AttributeValueSearch_start st inSearch
        = .error (catchAttributeValueSearch eDSInvalidNodeRef inSearch st none) := by
      unfold AttributeValueSearch_start
      simp only [h2]
    refine ⟨_, e, ?_⟩
    simp [catchAttributeValueSearch]

/-- C15, witness: the reference 99 in the scenario, where only the reference 7 is
registered and no mutex call was made before. -/
theorem unregistered_reference_catch_witness :
    (∃ r, GetRecordList true Scenario.world Scenario.backends 1 8 Scenario.opened
          { Scenario.request 512 none with fInNodeRef := 99 } = some r
        ∧ r.siResult = eDSInvalidNodeRef ∧ r.derefNil = true
        ∧ r.state.locks = [] ++ [LockEvent.Signal Mutex.fMutex])
    ∧ (∃ r, AttributeValueSearch_start Scenario.opened (Scenario.searchRequest 99 none) = .error r
        ∧ r.siResult = eDSInvalidNodeRef ∧ r.derefNil = true
        ∧ r.state.locks = [] ++ [LockEvent.Signal Mutex.fMutex]) :=
  unregistered_reference_catch true Scenario.world Scenario.backends 1 8 Scenario.opened
    { Scenario.request 512 none with fInNodeRef := 99 } (Scenario.searchRequest 99 none)
    (by decide) (by decide)

/-! ## `DoPlugInCustomCall` and the authorization -/

/-- C16: when the request carries no data for which the two authorization calls
succeed, `DoPlugInCustomCall` leaves the config list, the contexts of the references
and the table of continue data as they were, for every request code, and calls
`SwitchSearchPolicy` not at all. When the call gets as far as the authorization
calls (the request and its data are there, the reference is registered and is not
one to the Network search node, and the data are as long as an external form) and
one of them fails, it returns `eDSPermissionError`. -/
theorem DoPlugInCustomCall_needs_authorization (be : Bool) (w : Collaborators)
    (a : ConfigCollaborators) (st : SearchNodeState) (inData : Option sDoPlugInCustomCall)
    (hg : grantsConfigure a inData = false) :
    ((DoPlugInCustomCall be w a st inData).state.pSearchConfigList = st.pSearchConfigList
      ∧ (DoPlugInCustomCall be w a st inData).state.gSNNodeRef = st.gSNNodeRef
      ∧ (DoPlugInCustomCall be w a st inData).state.gSNContinue = st.gSNContinue
      ∧ (DoPlugInCustomCall be w a st inData).switched = none)
    ∧ (∀ d fInRequestData data c, inData = some d → d.fInRequestData = some fInRequestData →
        fInRequestData.fBufferData = some data →
        GetItemData st.gSNNodeRef d.fInNodeRef = some c →
        c.fSearchConfigKey ≠ ConfigKey.eDSNetworkSearchNodeName →
        kAuthorizationExternalFormLength ≤ fInRequestData.fBufferLength →
        (DoPlugInCustomCall be w a st inData).siResult = eDSPermissionError) := by
  constructor
  · unfold DoPlugInCustomCall
    unfold grantsConfigure at hg
    cases inData with
    | none => simp [catchCustomCall]
    | some d =>
      simp only at hg ⊢
      cases hreq : d.fInRequestData with
      | none => simp [catchCustomCall]
      | some req =>
        simp only [hreq] at hg ⊢
        cases hdata : req.fBufferData with
        | none => simp [catchCustomCall]
        | some data =>
          simp only [hdata] at hg ⊢
          cases hctx : GetItemData st.gSNNodeRef d.fInNodeRef with
          | none => simp [catchCustomCall]
          | some c =>
            simp only
            split_ifs with h1 h2 h3 h4
            · simp [catchCustomCall]
            · simp [catchCustomCall]
            · simp [catchCustomCall]
            · simp [catchCustomCall]
            · exfalso
              simp only [ne_eq, not_not] at h3 h4
              simp [h3, h4] at hg
  · intro d req data c hd hreq hdata hctx hkey hlen
    subst hd
    unfold grantsConfigure at hg
    simp only [hreq, hdata] at hg
    unfold DoPlugInCustomCall
    simp only [hreq, hdata, hctx, hkey, if_false, not_lt.mpr hlen]
    split_ifs with h3 h4
    · rfl
    · rfl
    · exfalso
      simp only [ne_eq, not_not] at h3 h4
      simp [h3, h4] at hg

set_option maxRecDepth 100000 in
/-- C16, witness: in the scenario under the LocalOnly policy the client asks for the
Custom policy (code 333) and for a new custom list (code 444). When the external
form converts and the right is denied, and when the external form does not convert,
the calls return `eDSPermissionError` and the store is as it was; when the right is
granted, the call with the code 444 returns `eDSNoErr` and the config holds the
Custom policy and the new list behind the local node. -/
theorem DoPlugInCustomCall_needs_authorization_witness :
    (grantsConfigure (Scenario.configWith 0 (-60005)) (Scenario.customCall 333) = false
      ∧ ((DoPlugInCustomCall true Scenario.world (Scenario.configWith 0 (-60005)) Scenario.opened
            (Scenario.customCall 333)).state.pSearchConfigList = Scenario.opened.pSearchConfigList
        ∧ (DoPlugInCustomCall true Scenario.world (Scenario.configWith 0 (-60005)) Scenario.opened
            (Scenario.customCall 333)).state.gSNNodeRef = Scenario.opened.gSNNodeRef
        ∧ (DoPlugInCustomCall true Scenario.world (Scenario.configWith 0 (-60005)) Scenario.opened
            (Scenario.customCall 333)).state.gSNContinue = Scenario.opened.gSNContinue
        ∧ (DoPlugInCustomCall true Scenario.world (Scenario.configWith 0 (-60005)) Scenario.opened
            (Scenario.customCall 333)).switched = none)
      ∧ (DoPlugInCustomCall true Scenario.world (Scenario.configWith 0 (-60005)) Scenario.opened
            (Scenario.customCall 333)).siResult = eDSPermissionError)
    ∧ (DoPlugInCustomCall true Scenario.world (Scenario.configWith (-60002) 0) Scenario.opened
          (Scenario.customCall 444)).siResult = eDSPermissionError
    ∧ ((DoPlugInCustomCall true Scenario.world (Scenario.configWith 0 0) Scenario.opened
          (Scenario.customCall 444)).siResult = eDSNoErr
      ∧ (DoPlugInCustomCall true Scenario.world (Scenario.configWith 0 0) Scenario.opened
          (Scenario.customCall 444)).state.pSearchConfigList.map
            (fun c => (c.fSearchPolicy, c.fSearchNodeList.map (fun n => n.fNodeName)))
        = [(kCustomSearchPolicy, [some kstrDefaultLocalNodeName, Scenario.nodeX.fNodeName])]) :=
  ⟨⟨by decide,
    (DoPlugInCustomCall_needs_authorization true Scenario.world (Scenario.configWith 0 (-60005))
      Scenario.opened (Scenario.customCall 333) (by decide)).1,
    (DoPlugInCustomCall_needs_authorization true Scenario.world (Scenario.configWith 0 (-60005))
      Scenario.opened (Scenario.customCall 333) (by decide)).2 _ _ _ _ rfl rfl rfl rfl
      (by decide) (by decide)⟩,
   by decide, by decide, by decide⟩

/-! ## The record limit and the expansion of aliases -/

set_option maxRecDepth 100000 in
/-- C17: the limit is 2 and the backend never returns more records than it is asked
for. It answers the first fetch, which asks for 2, with 1 record and a cursor; the
fetch with the cursor asks for 2 again, the one record in the out buffer not being
counted, and gets 2. The one call of `GetRecordList` returns 3 records. -/
theorem GetRecordList_limit_exceeded : ∀ be : Bool,
    askCount { sSearchContinueData.zero with fLimitRecSearch := 2, fTotalRecCount := 0 } = 2
    ∧ (Scenario.pagedBackends.dsGetRecordList Scenario.localRef 512 (Scenario.request 512 none).query
        2 none).recCount = 1
    ∧ (Scenario.pagedBackends.dsGetRecordList Scenario.localRef 512 (Scenario.request 512 none).query
        2 (some 1)).recCount = 2
    ∧ Scenario.seen be
        (GetRecordList be Scenario.world Scenario.pagedBackends 1 20 Scenario.opened
          { Scenario.request 512 none with fOutRecEntryCount := 2 })
      = some (eDSNoErr, 3, none,
          some [.ok (bytesOf "amy"), .ok (bytesOf "bob"), .ok (bytesOf "cyd")]) := by
  intro be
  cases be <;> (refine ⟨?_, ?_, ?_, ?_⟩ <;> rfl)

set_option maxRecDepth 100000 in
/-- C19: the local node holds the user `amy` and two aliases, one to a page, for the
users `bob` and `cyd` of another node; a buffer of 128 bytes holds 1 record of
either kind and not 2. In the first call the out buffer is full when the alias for
`bob` is expanded, and a cursor is pending: the next page of aliases is fetched,
and the token that the call hands out resumes at the alias for `cyd`. The calls
that follow return `cyd` and then no record and no token: `bob` is never returned,
and every call returns `eDSNoErr`. Into a buffer of 512 bytes the first call
returns all three. -/
theorem ExpandAliases_full_buffer_drops_alias : ∀ be : Bool,
    (((CBuff.Initialize 128 kStdA).AddData be (Scenario.packedLocal be 0)).1 = eDSNoErr
      ∧ (((CBuff.Initialize 128 kStdA).AddData be (Scenario.packedLocal be 0)).2.AddData be
          (Scenario.packedLocal be 1)).1 = kBuffFull
      ∧ ((CBuff.Initialize 128 kStdA).AddData be
          (packRecord be keNullMetaType false none none (Scenario.aliasRecord "bob"))).1 = eDSNoErr)
    ∧ Scenario.seen be
        (GetRecordList be Scenario.aliasWorld Scenario.aliasBackends 1 20 Scenario.opened
          (Scenario.request 128 none))
      = some (eDSNoErr, 1, some 1, some [.ok (bytesOf "amy")])
    ∧ Scenario.resumesAt
        (GetRecordList be Scenario.aliasWorld Scenario.aliasBackends 1 20 Scenario.opened
          (Scenario.request 128 none))
      = some (some (eSearchState.keExpandAliases, 1, [bytesOf "cyd"]))
    ∧ Scenario.seen be
        (Scenario.resume be Scenario.aliasWorld Scenario.aliasBackends 128
          (GetRecordList be Scenario.aliasWorld Scenario.aliasBackends 1 20 Scenario.opened
            (Scenario.request 128 none)))
      = some (eDSNoErr, 1, some 2, some [.ok (bytesOf "cyd")])
    ∧ Scenario.seen be
        (Scenario.resume be Scenario.aliasWorld Scenario.aliasBackends 128
          (Scenario.resume be Scenario.aliasWorld Scenario.aliasBackends 128
            (GetRecordList be Scenario.aliasWorld Scenario.aliasBackends 1 20 Scenario.opened
              (Scenario.request 128 none))))
      = some (eDSNoErr, 0, none, some [])
    ∧ Scenario.seen be
        (GetRecordList be Scenario.aliasWorld Scenario.aliasBackends 1 20 Scenario.opened
          (Scenario.request 512 none))
      = some (eDSNoErr, 3, some 1,
          some [.ok (bytesOf "amy"), .ok (bytesOf "bob"), .ok (bytesOf "cyd")]) := by
  intro be
  cases be <;> (refine ⟨⟨?_, ?_, ?_⟩, ?_, ?_, ?_, ?_, ?_⟩ <;> rfl)

/-! ## Attribute blocks read back, and the node info -/

theorem attributes_decode (be : Bool) (mem : Mem) (size off : Nat)
    (attrs : List (List Nat × List (List Nat))) (hsize : size < U32) (hN : attrs.length < U16)
    (hfit : ∀ a ∈ attrs, a.1.length < U16 ∧ a.2.length < U16)
    (hat : At mem off (enc16 be attrs.length
      ++ (attrs.map (fun a => attrBody be a.1 a.2)).flatMap (encBlock be)))
    (hle : off + 2 + ((attrs.map (fun a => attrBody be a.1 a.2)).flatMap (encBlock be)).length
      ≤ size) :
    ∀ (i : Nat) (hi : i < attrs.length), ∃ e,
      (GetAttributeEntry be mem size off (i + 1)).2 = .ok e
      ∧ e.fAttributeSignature = attrs[i].1
      ∧ e.fAttributeValueCount = attrs[i].2.length
      ∧ ∀ (j : Nat) (hj : j < attrs[i].2.length), ∃ v,
          (GetAttributeValue be mem size e.valueContextOffset (j + 1)).2 = .ok v
          ∧ v.fBufferData mem = attrs[i].2[j] := by
  intro i hi
  rw [At_append, enc16_length] at hat
  obtain ⟨p5, p6⟩ := hat
  have hi' : i < (attrs.map (fun a => attrBody be a.1 a.2)).length := by simpa using hi
  have hfi := hfit attrs[i] (List.getElem_mem hi)
  rw [flatMap_split be _ i hi', At_append, At_append] at p6
  obtain ⟨p6, p7, -⟩ := p6
  have hAl := congrArg List.length (flatMap_split be _ i hi')
  simp only [List.length_append, encBlock_length] at hAl
  have hbody : (attrs.map (fun a => attrBody be a.1 a.2))[i]
      = attrBody be attrs[i].1 attrs[i].2 := by
    simp
  rw [hbody] at p7 hAl
  have htk : ((attrs.map (fun a => attrBody be a.1 a.2)).take i).length = i := by
    simp; omega
  generalize hpre : (attrs.map (fun a => attrBody be a.1 a.2)).take i = pre at *
  generalize hflat : (attrs.map (fun a => attrBody be a.1 a.2)).flatMap (encBlock be) = flat at *
  generalize hai : attrs[i] = ai at *
  obtain ⟨sig, vals⟩ := ai
  simp only at hfi p7 hAl ⊢
  obtain ⟨hsig, hcnt⟩ := hfi
  have hpl : pre.length < attrs.length := by omega
  have hle2 : off + 2 + (pre.flatMap (encBlock be)).length + (4 + (attrBody be sig vals).length)
      ≤ size := by omega
  obtain ⟨e, he, hs, hc, ho⟩ := GetAttributeEntry_At be mem size off attrs.length
    pre sig vals hsize hN hpl hsig hcnt p5 p6 p7 hle2
  rw [htk] at he
  refine ⟨e, he, hs, hc, ?_⟩
  intro j hj
  rw [← ho] at p7 hle2
  obtain ⟨pos, hv, hd⟩ := GetAttributeValue_At be mem size e.valueContextOffset
    sig vals hsize hsig hcnt p7 hle2 j hj
  exact ⟨_, hv, hd⟩

theorem nodeInfoBlock_eq (be : Bool) (a : List Nat × List (List Nat)) :
    nodeInfoBlock be false a = encBlock be (attrBody be (cstr a.1) (a.2.map cstr)) := by
  have hf := foldl_append_flatMap (fun v => encBlock be (cstr v)) a.2
    (enc16 be (cstr a.1).length ++ (cstr a.1 ++ enc16 be a.2.length))
  have hm : (a.2.map cstr).flatMap (encBlock be) = a.2.flatMap (fun v => encBlock be (cstr v)) := by
    induction a.2 with
    | nil => rfl
    | cons v vs ih => simp [List.flatMap_cons, ih]
  simp only [encBlock, List.append_assoc] at hf
  simp only [nodeInfoBlock, AppendString, AppendShort, AppendLong, AppendBlock, strlen, if_true,
    List.append_assoc, hf, encBlock, attrBody, List.length_map, hm, List.nil_append]

theorem foldl_nodeInfoBlock (be : Bool) :
    ∀ (attrs : List (List Nat × List (List Nat))) (init : List Nat),
      attrs.foldl (fun d a => AppendBlock d (nodeInfoBlock be false a)) init
        = init ++ (attrs.map (fun a => attrBody be (cstr a.1) (a.2.map cstr))).flatMap (encBlock be)
  | [], init => by simp
  | a :: l, init => by
    simp only [List.foldl_cons, List.map_cons, List.flatMap_cons]
    rw [foldl_nodeInfoBlock be l _, AppendBlock, nodeInfoBlock_eq, List.append_assoc]

theorem nodeInfoHeader_length (be : Bool) (name : Option (List Nat))
    (h : ∀ n, name = some n → strlen n + 2 < U32) :
    (nodeInfoHeader be name).1.length + 4 = 39 + (nodeInfoHeader be name).2 := by
  cases name with
  | none =>
    simp only [nodeInfoHeader, AppendString, AppendShort, List.length_append, enc16_length,
      List.nil_append]
    decide
  | some n =>
    have h1 := h n rfl
    have h2 : (cstr kSearchNodeInfoType).length = 33 := by decide
    simp only [nodeInfoHeader, AppendString, AppendShort, List.length_append, enc16_length,
      List.nil_append, add32_of_lt h1, h2, List.length_nil]
    unfold strlen
    omega

theorem nodeInfoAttrs_mem (w : Collaborators) (c : sSearchContextData) (cfg : sSearchConfig) :
    ∀ (types : List (List Nat)), ∀ a ∈ (nodeInfoAttrs w c cfg false types).1,
      (a.1 = kDS1AttrSearchPath ∧ a.2 = nodeNames c.fSearchNodeList)
      ∨ (a.1 = kDS1AttrNSPSearchPath ∧ a.2 = nodeNames (nspList w cfg))
      ∨ (a.1 = kDS1AttrLSPSearchPath ∧ a.2 = nodeNames (GetLocalPaths w none))
      ∨ (a.1 = kDS1AttrCSPSearchPath ∧ a.2 = nodeNames (cspList w cfg))
      ∨ (a.1 = kDS1AttrSearchPolicy ∧ a.2 = [policyValue cfg])
      ∨ (a.1 = kDS1AttrReadOnlyNode ∧ a.2 = [bytesOf "ReadOnly"]) := by
  intro types
  induction types with
  | nil => intro a ha; simp [nodeInfoAttrs] at ha
  | cons t rest ih =>
    intro a ha
    simp only [nodeInfoAttrs, List.mem_append] at ha
    rcases ha with ha | ha
    · simp only [nodeInfoPass, List.mem_append, Bool.not_false, if_true] at ha
      rcases ha with ((((ha | ha) | ha) | ha) | ha) | ha <;>
        (split_ifs at ha <;>
          first
          | exact absurd ha (List.not_mem_nil _)
          | (rw [List.mem_singleton] at ha; subst ha; simp))
    · exact ih a ha

theorem nodeInfoAttrs_name (w : Collaborators) (c : sSearchContextData) (cfg : sSearchConfig)
    (types : List (List Nat)) :
    ∀ a ∈ (nodeInfoAttrs w c cfg false types).1, cstr a.1 = a.1 ∧ a.1.length < U16 := by
  intro a ha
  rcases nodeInfoAttrs_mem w c cfg types a ha with h | h | h | h | h | h <;>
    (rw [h.1]; decide)

theorem nodeInfoAttrs_nil (w : Collaborators) (c : sSearchContextData) (cfg : sSearchConfig) :
    ∀ (types : List (List Nat)), (nodeInfoAttrs w c cfg false types).2.2 = false →
      ∀ a ∈ (nodeInfoAttrs w c cfg false types).1, a.1 = kDS1AttrSearchPath →
        nilName c.fSearchNodeList = false := by
  intro types
  induction types with
  | nil => intro _ a ha; simp [nodeInfoAttrs] at ha
  | cons t rest ih =>
    intro hflag a ha hname
    simp only [nodeInfoAttrs, Bool.or_eq_false_iff] at hflag
    simp only [nodeInfoAttrs, List.mem_append] at ha
    rcases ha with ha | ha
    · have hp := hflag.1
      simp only [nodeInfoPass, List.mem_append, Bool.not_false, if_true] at ha hp
      by_cases hpath : (strcmpEq t kDSAttributesAll || strcmpEq t kDS1AttrSearchPath) = true
      · simp only [hpath, Bool.true_and, Bool.or_eq_false_iff] at hp
        exact hp.1.1.1
      · simp only [hpath, Bool.false_eq_true, if_false, List.not_mem_nil, false_or] at ha
        exfalso
        rcases ha with (((ha | ha) | ha) | ha) | ha <;>
          (split_ifs at ha <;>
            first
            | exact absurd ha (List.not_mem_nil _)
            | (rw [List.mem_singleton] at ha; subst ha; simp only at hname; revert hname; decide))
    · exact ih hflag.2 a ha hname

theorem nodeNames_some :
    ∀ l : List sSearchList, nilName l = false →
      (nodeNames l).map some = l.map (fun n => n.fNodeName) := by
  intro l
  induction l with
  | nil => intro _; rfl
  | cons n rest ih =>
    intro h
    simp only [nilName, List.any_cons, Bool.or_eq_false_iff] at h
    have h1 : n.fNodeName.isNone = false := h.1
    have h2 := ih (by simpa [nilName] using h.2)
    simp only [nodeNames, List.map_cons, List.map_map] at h2 ⊢
    rw [h2]
    cases hn : n.fNodeName with
    | none => simp [hn] at h1
    | some x => simp

/-! ## The attribute-list context of `GetDirNodeInfo` -/

/-- C20: the reference is registered with the context `c` and the config `cfg` of its
key is in the list; values are asked for, the call returns `eDSNoErr` without
reading a nil name, and the attribute count and the value counts fit their 16-bit
fields. Then the context that `GetDirNodeInfo` registers has the offset of the
`uInt16` attribute count of the packed record, whatever the length of the name of
the search node: it is the offset of the block plus 4 for its length, 2 + 33 for the
record type and 2 + the length of the name. `GetAttributeEntry` on it returns, for
every `i`, the name and the value count of attribute `i` of the passes over the
types asked for, and `GetAttributeValue` the value `j` of it; an attribute
`SearchPath` has the names of the node list of `c` in its order as values, an
attribute `SearchPolicy` the one value of the policy of `cfg`, an attribute
`ReadOnlyNode` the one value `ReadOnly`. -/
theorem GetDirNodeInfo_attribute_context (be : Bool) (w : Collaborators) (st : SearchNodeState)
    (inData : sGetDirNodeInfo) (c : sSearchContextData) (cfg : sSearchConfig)
    (hc : GetItemData st.gSNNodeRef inData.fInNodeRef = some c)
    (hf : FindSearchConfigWithKey st.pSearchConfigList c.fSearchConfigKey = some cfg)
    (hv : inData.fInAttrInfoOnly = false) (hsize : inData.fOutDataBuffSize < U32)
    (hok : (GetDirNodeInfo be w st inData).siResult = eDSNoErr)
    (hnil : (GetDirNodeInfo be w st inData).derefNil = false)
    (hN : (nodeInfoAttrs w c cfg false inData.fInDirNodeInfoTypeList).1.length < U16)
    (hcnt : ∀ a ∈ (nodeInfoAttrs w c cfg false inData.fInDirNodeInfoTypeList).1, a.2.length < U16) :
    ∃ buff ctx uiOffset,
      (GetDirNodeInfo be w st inData).outBuff = some buff
      ∧ (GetDirNodeInfo be w st inData).pAttrContext = some ctx
      ∧ buff.GetDataBlock 1 = some uiOffset
      ∧ ctx.offset = uiOffset + 4 + (2 + 33 + (2 + strlen cfg.fSearchNodeName))
      ∧ rd16 be buff.mem ctx.offset
          = (nodeInfoAttrs w c cfg false inData.fInDirNodeInfoTypeList).1.length
      ∧ (∀ (i : Nat) (hi : i < (nodeInfoAttrs w c cfg false inData.fInDirNodeInfoTypeList).1.length),
          ∃ e, (GetAttributeEntry be buff.mem buff.fBufferSize ctx.offset (i + 1)).2 = .ok e
            ∧ e.fAttributeSignature
                = ((nodeInfoAttrs w c cfg false inData.fInDirNodeInfoTypeList).1[i]).1
            ∧ e.fAttributeValueCount
                = ((nodeInfoAttrs w c cfg false inData.fInDirNodeInfoTypeList).1[i]).2.length
            ∧ ∀ (j : Nat)
                (hj : j < ((nodeInfoAttrs w c cfg false inData.fInDirNodeInfoTypeList).1[i]).2.length),
                ∃ v, (GetAttributeValue be buff.mem buff.fBufferSize e.valueContextOffset (j + 1)).2
                      = .ok v
                  ∧ v.fBufferData buff.mem
                      = cstr (((nodeInfoAttrs w c cfg false inData.fInDirNodeInfoTypeList).1[i]).2[j]))
      ∧ (∀ a ∈ (nodeInfoAttrs w c cfg false inData.fInDirNodeInfoTypeList).1,
          (a.1 = kDS1AttrSearchPath →
              a.2.map some = c.fSearchNodeList.map (fun n => n.fNodeName))
          ∧ (a.1 = kDS1AttrSearchPolicy → a.2 = [policyValue cfg])
          ∧ (a.1 = kDS1AttrReadOnlyNode → a.2 = [bytesOf "ReadOnly"])) := by
  have hU := U32_eq
  have hU' := U16_eq
  have hnames := nodeInfoAttrs_name w c cfg inData.fInDirNodeInfoTypeList
  have hmem := nodeInfoAttrs_mem w c cfg inData.fInDirNodeInfoTypeList
  have hnn := nodeInfoAttrs_nil w c cfg inData.fInDirNodeInfoTypeList
  generalize hA : nodeInfoAttrs w c cfg false inData.fInDirNodeInfoTypeList = A at *
  obtain ⟨attrs, thrown, nilp⟩ := A
  simp only at hN hcnt hnames hmem hnn ⊢
  have hfold := foldl_nodeInfoBlock be attrs []
  simp only [List.nil_append] at hfold
  unfold GetDirNodeInfo at hok hnil ⊢
  simp only [hc, hf, hv, hA, hfold] at hok hnil ⊢
  split_ifs at hok hnil ⊢ with h0 h1
  · simp [catchGetDirNodeInfo] at hok
  · simp [catchGetDirNodeInfo] at hok
  · generalize hH : nodeInfoHeader be (some cfg.fSearchNodeName) = H at *
    generalize hD : AppendBlock (AppendShort be H.1 attrs.length)
      ((attrs.map (fun a => attrBody be (cstr a.1) (a.2.map cstr))).flatMap (encBlock be)) = D at *
    have hDeq : D = H.1 ++ (enc16 be attrs.length
        ++ (attrs.map (fun a => attrBody be (cstr a.1) (a.2.map cstr))).flatMap (encBlock be)) := by
      rw [← hD]; simp [AppendBlock, AppendShort]
    have h33 : (cstr kSearchNodeInfoType).length = 33 := by decide
    have hH1 : H.1.length = 37 + strlen cfg.fSearchNodeName := by
      rw [← hH]
      simp only [nodeInfoHeader, AppendString, AppendShort, List.length_append, enc16_length,
        List.nil_append, h33, strlen, List.length_nil]
    have hH2 : H.2 = add32 (strlen cfg.fSearchNodeName) 2 := by rw [← hH]; rfl
    have hmm : attrs.map (fun a => attrBody be (cstr a.1) (a.2.map cstr))
        = (attrs.map (fun a => (cstr a.1, a.2.map cstr))).map (fun a => attrBody be a.1 a.2) := by
      simp only [List.map_map, Function.comp_def]
    generalize hflat : (attrs.map (fun a => attrBody be (cstr a.1) (a.2.map cstr))).flatMap
      (encBlock be) = flat at *
    rw [hmm] at hflat
    have hDlen : D.length = H.1.length + (2 + flat.length) := by
      rw [hDeq]; simp [enc16_length]
    by_cases hfit : CBuff.bookkeeping (0 + 1) + (4 + D.length) > inData.fOutDataBuffSize
    · have hB : (CBuff.AddData be (CBuff.Initialize inData.fOutDataBuffSize kGdni) D).2
          = CBuff.Initialize inData.fOutDataBuffSize kGdni := by
        simp only [CBuff.AddData, CBuff.Initialize, List.length_nil, hfit, if_true]
      rw [hB] at hok
      simp [CBuff.GetDataBlock, CBuff.Initialize] at hok
    · simp only [CBuff.bookkeeping] at hfit
      generalize hoff : inData.fOutDataBuffSize - (4 + D.length) = off at *
      have hblock := At_memOf_writeAt (List.replicate inData.fOutDataBuffSize 0) off
        (enc32 be D.length ++ D)
        (by simp only [List.length_append, enc32_length, List.length_replicate]; omega)
      have hB : (CBuff.AddData be (CBuff.Initialize inData.fOutDataBuffSize kGdni) D).2
          = { fBufferSize := inData.fOutDataBuffSize
              fBufferData := writeAt (List.replicate inData.fOutDataBuffSize 0) off
                (enc32 be D.length ++ D)
              fType := kGdni, fOffsets := [off], fDataStart := off } := by
        simp only [CBuff.AddData, CBuff.Initialize, List.length_nil, CBuff.bookkeeping, hfit,
          if_false, hoff, List.nil_append]
      generalize hdata : writeAt (List.replicate inData.fOutDataBuffSize 0) off
        (enc32 be D.length ++ D) = data at *
      rw [At_append, enc32_length, hDeq, At_append, At_append, enc16_length] at hblock
      obtain ⟨-, -, q1, q2⟩ := hblock
      have k1 : add32 (strlen cfg.fSearchNodeName) 2 = strlen cfg.fSearchNodeName + 2 :=
        add32_of_lt (by omega)
      have k2 : add32 off 39 = off + 39 := add32_of_lt (by omega)
      have k3 : add32 (off + 39) (strlen cfg.fSearchNodeName + 2)
          = off + 4 + H.1.length := by
        rw [add32_of_lt (by omega)]; omega
      have k4 : off + 4 + H.1.length = off + 4 + (2 + 33 + (2 + strlen cfg.fSearchNodeName)) := by
        omega
      rw [hB] at hnil ⊢
      simp only [CBuff.GetDataBlock, Nat.one_ne_zero, if_false, Nat.sub_self, List.get?_cons_zero,
        hH2, k1, k2, k3] at hnil ⊢
      refine ⟨_, _, off, rfl, rfl, rfl, k4, ?_, ?_, ?_⟩
      · exact rd16_of_At hN q1
      · have hdec := attributes_decode be (memOf data)
          inData.fOutDataBuffSize (off + 4 + H.1.length)
          (attrs.map (fun a => (cstr a.1, a.2.map cstr))) hsize (by simpa using hN)
          (by
            intro a ha
            simp only [List.mem_map] at ha
            obtain ⟨b, hb, rfl⟩ := ha
            simp only [List.length_map]
            constructor
            · rw [(hnames b hb).1]; exact (hnames b hb).2
            · exact hcnt b hb)
          (by
            rw [List.length_map, hflat, At_append, enc16_length]
            exact ⟨q1, q2⟩)
          (by rw [hflat]; omega)
        intro i hi
        obtain ⟨e, he, hs, hcn, hval⟩ := hdec i (by simpa using hi)
        simp only [List.getElem_map, List.length_map] at hs hcn hval
        refine ⟨e, he, ?_, hcn, ?_⟩
        · rw [hs]; exact (hnames attrs[i] (List.getElem_mem hi)).1
        · intro j hj
          obtain ⟨v, hv1, hv2⟩ := hval j hj
          exact ⟨v, hv1, hv2⟩
      · intro a ha
        have hcases := hmem a ha
        refine ⟨?_, ?_, ?_⟩
        · intro hname
          have hnone := hnn hnil a ha hname
          rcases hcases with h | h | h | h | h | h <;>
            first
            | (rw [h.2]; exact nodeNames_some _ hnone)
            | (exfalso; have h1 := h.1; rw [hname] at h1; revert h1; decide)
        all_goals
          intro hname
          rcases hcases with h | h | h | h | h | h <;>
            first
            | exact h.2
            | (exfalso; have h1 := h.1; rw [hname] at h1; revert h1; decide)

set_option maxRecDepth 1000000 in
/-- C20, witness: the node info of the reference of the scenario under the Custom
policy, all attributes asked for, into a buffer of 512 bytes. The attributes read
back are the search path (the local node and `nodeX`), the paths of the three
policies, the policy and the read-only attribute. -/
theorem GetDirNodeInfo_attribute_context_witness :
    (∃ buff ctx uiOffset,
      (GetDirNodeInfo true Scenario.world Scenario.openedCustom Scenario.infoRequest).outBuff
        = some buff
      ∧ (GetDirNodeInfo true Scenario.world Scenario.openedCustom Scenario.infoRequest).pAttrContext
        = some ctx
      ∧ buff.GetDataBlock 1 = some uiOffset
      ∧ ctx.offset = uiOffset + 4 + (2 + 33 + (2 + strlen Scenario.customConfig.fSearchNodeName))
      ∧ rd16 true buff.mem ctx.offset = Scenario.infoAttrs.length
      ∧ (∀ (i : Nat) (hi : i < Scenario.infoAttrs.length),
          ∃ e, (GetAttributeEntry true buff.mem buff.fBufferSize ctx.offset (i + 1)).2 = .ok e
            ∧ e.fAttributeSignature = (Scenario.infoAttrs[i]).1
            ∧ e.fAttributeValueCount = (Scenario.infoAttrs[i]).2.length
            ∧ ∀ (j : Nat) (hj : j < (Scenario.infoAttrs[i]).2.length),
                ∃ v, (GetAttributeValue true buff.mem buff.fBufferSize e.valueContextOffset (j + 1)).2
                      = .ok v
                  ∧ v.fBufferData buff.mem = cstr ((Scenario.infoAttrs[i]).2[j]))
      ∧ (∀ a ∈ Scenario.infoAttrs,
          (a.1 = kDS1AttrSearchPath →
              a.2.map some = Scenario.customContext.fSearchNodeList.map (fun n => n.fNodeName))
          ∧ (a.1 = kDS1AttrSearchPolicy → a.2 = [policyValue Scenario.customConfig])
          ∧ (a.1 = kDS1AttrReadOnlyNode → a.2 = [bytesOf "ReadOnly"])))
    ∧ Scenario.infoValues true 6
      = [.ok (kDS1AttrSearchPath, [kstrDefaultLocalNodeName, bytesOf "/LDAPv3/nodex.example.com"]),
         .ok (kDS1AttrNSPSearchPath, [bytesOf "/NetInfo/root"]),
         .ok (kDS1AttrLSPSearchPath, [bytesOf "/NetInfo/root"]),
         .ok (kDS1AttrCSPSearchPath, [bytesOf "/NetInfo/root", bytesOf "/LDAPv3/nodex.example.com"]),
         .ok (kDS1AttrSearchPolicy, [kDS1AttrCSPSearchPath]),
         .ok (kDS1AttrReadOnlyNode, [bytesOf "ReadOnly"])] :=
  ⟨GetDirNodeInfo_attribute_context true Scenario.world Scenario.openedCustom Scenario.infoRequest
      Scenario.customContext Scenario.customConfig rfl rfl rfl (by decide)
      rfl rfl (by decide) (by decide),
    rfl⟩

/-! ## `GetNextNodeRef`: the entry that is opened -/

theorem openNext_none (w : Collaborators) :
    ∀ l : List sSearchList, (∀ m ∈ l, opensFor w m = false) →
      openNext w l = (kEndOfSearchNodeList, none, l) := by
  intro l
  induction l with
  | nil => intro _; rfl
  | cons n rest ih =>
    intro h
    have hn := h n (List.mem_cons_self _ _)
    simp only [opensFor, Bool.or_eq_false_iff, decide_eq_false_iff_not] at hn
    have hrest := ih (fun m hm => h m (List.mem_cons_of_mem _ hm))
    simp only [openNext, hn.1, hn.2, if_true, if_false, hrest]

theorem openNext_head (w : Collaborators) (n : sSearchList) (later : List sSearchList)
    (hn : opensFor w n = true) :
    openNext w (n :: later) = (eDSNoErr, some (handleFor w n), markOpen w n :: later) := by
  by_cases ho : n.fOpened = true
  · simp [openNext, handleFor, markOpen, ho]
  · have ho2 : n.fOpened = false := by simpa using ho
    simp only [opensFor, ho2, Bool.false_or, decide_eq_true_eq] at hn
    simp [openNext, handleFor, markOpen, ho2, hn]

theorem openNext_skip (w : Collaborators) (n : sSearchList) (later : List sSearchList)
    (hn : opensFor w n = true) :
    ∀ skipped : List sSearchList, (∀ m ∈ skipped, opensFor w m = false) →
      openNext w (skipped ++ n :: later)
        = (eDSNoErr, some (handleFor w n), skipped ++ markOpen w n :: later) := by
  intro skipped
  induction skipped with
  | nil => intro _; exact openNext_head w n later hn
  | cons m rest ih =>
    intro h
    have hm := h m (List.mem_cons_self _ _)
    simp only [opensFor, Bool.or_eq_false_iff, decide_eq_false_iff_not] at hm
    have hrest := ih (fun x hx => h x (List.mem_cons_of_mem _ hx))
    simp only [List.cons_append, openNext, hm.1, hm.2, if_true, if_false, List.append_eq, hrest]

theorem openNext_end_iff (w : Collaborators) :
    ∀ l : List sSearchList,
      (openNext w l).1 = kEndOfSearchNodeList ↔ ∀ m ∈ l, opensFor w m = false := by
  intro l
  constructor
  · induction l with
    | nil => intro _ m hm; exact absurd hm (List.not_mem_nil _)
    | cons n rest ih =>
      intro h m hm
      cases hn : opensFor w n with
      | true =>
        rw [openNext_head w n rest hn] at h
        simp at h
      | false =>
        have hn2 := hn
        simp only [opensFor, Bool.or_eq_false_iff, decide_eq_false_iff_not] at hn2
        simp only [openNext, hn2.1, hn2.2, if_true, if_false] at h
        rcases List.mem_cons.mp hm with rfl | hm
        · exact hn
        · exact ih h m hm
  · intro h
    rw [openNext_none w l h]

theorem FindSearchConfigWithKey_updateConfig_eq (key : ConfigKey)
    (f : sSearchConfig → sSearchConfig) (hf : ∀ c, (f c).fSearchConfigKey = c.fSearchConfigKey) :
    ∀ l : List sSearchConfig,
      FindSearchConfigWithKey (updateConfig l key f) key = (FindSearchConfigWithKey l key).map f := by
  intro l
  induction l with
  | nil => rfl
  | cons c rest ih =>
    by_cases hk : c.fSearchConfigKey = key
    · simp [updateConfig, FindSearchConfigWithKey, hk, hf]
    · simp [updateConfig, FindSearchConfigWithKey, hk, ih]

theorem GetNextNodeRef_openNext (w : Collaborators) (configs : List sSearchConfig)
    (inNodeRef : Nat) (c : sSearchContextData) :
    ∃ (full : List sSearchList) (k : Nat),
      (GetNextNodeRef w configs inNodeRef c).siResult = (openNext w (full.drop k)).1
      ∧ (GetNextNodeRef w configs inNodeRef c).outNodeRef = (openNext w (full.drop k)).2.1
      ∧ (GetNextNodeRef w configs inNodeRef c).context.fSearchNodeList
          = full.take k ++ (openNext w (full.drop k)).2.2
      ∧ (((GetNextNodeRef w configs inNodeRef c).relisted = false ∧ full = c.fSearchNodeList
            ∧ k = if inNodeRef ≠ 0 then findAfter c.fSearchNodeList inNodeRef 0 else 0)
          ∨ ((GetNextNodeRef w configs inNodeRef c).relisted = true ∧ k = 1
            ∧ ∃ ldap, full = DupSearchListWithNewRefs ldap
                ∧ (GetNextNodeRef w configs inNodeRef c).pSearchConfigList
                  = updateConfig configs c.fSearchConfigKey
                      (fun x => { x with fSearchNodeList := ldap }))) := by
  unfold GetNextNodeRef
  generalize (if inNodeRef ≠ 0 then findAfter c.fSearchNodeList inNodeRef 0 else 0) = nodeIndex
  simp only
  split
  next h => exact ⟨_, _, rfl, rfl, rfl, Or.inr ⟨rfl, rfl, _, rfl, rfl⟩⟩
  next h => exact ⟨_, _, rfl, rfl, rfl, Or.inl ⟨rfl, rfl, rfl⟩⟩

/-! ## The test for a parent of the local node -/

theorem GetNextNodeRef_probed (w : Collaborators) (configs : List sSearchConfig)
    (inNodeRef : Nat) (c : sSearchContextData) :
    (GetNextNodeRef w configs inNodeRef c).probed
      = (decide ((if inNodeRef ≠ 0 then findAfter c.fSearchNodeList inNodeRef 0 else 0) = 1)
          && bRecheckNI c (c.fSearchNodeList.drop
              (if inNodeRef ≠ 0 then findAfter c.fSearchNodeList inNodeRef 0 else 0))) := by
  unfold GetNextNodeRef
  generalize (if inNodeRef ≠ 0 then findAfter c.fSearchNodeList inNodeRef 0 else 0) = nodeIndex
  simp only
  split
  next h =>
    have h1 : (decide (nodeIndex = 1) && bRecheckNI c (c.fSearchNodeList.drop nodeIndex)) = true := by
      simp only [Bool.and_eq_true] at h ⊢
      exact h.1.1
    simp only [h1]
  next h => rfl

theorem bRecheckNI_iff (c : sSearchContextData) (l : List sSearchList) :
    bRecheckNI c l = true ↔
      c.bAutoSearchList = true
        ∧ (l = [] ∨ ∃ n rest name, l = n :: rest ∧ n.fNodeName = some name
              ∧ (cstr name).take 8 ≠ bytesOf "/NetInfo") := by
  unfold bRecheckNI
  cases hauto : c.bAutoSearchList with
  | false => simp
  | true =>
    cases l with
    | nil => simp
    | cons n rest =>
      cases hname : n.fNodeName with
      | none => simp [hname]
      | some name =>
        by_cases hp : (cstr name).take 8 = bytesOf "/NetInfo"
        · simp [hname, hp]
        · simp [hname, hp]

/-! ## `ExpandAliases`: one pass of its loop -/

theorem expandLoop_stop (be : Bool) (w : Collaborators) (bk : Backends)
    (inContinue : sSearchContinueData) (q : Query) (buffSize : Nat)
    (inContext : sSearchContextData) (s : ExpandState) (h : s.siResult ≠ eDSNoErr) :
    ∀ fuel, expandLoop be w bk inContinue q buffSize inContext fuel s = s := by
  intro fuel
  cases fuel with
  | zero => rfl
  | succ fuel => simp [expandLoop, h]

theorem expandLoop_step (be : Bool) (w : Collaborators) (bk : Backends)
    (inContinue : sSearchContinueData) (q : Query) (buffSize : Nat)
    (inContext : sSearchContextData) (s : ExpandState) (fuel : Nat)
    (h1 : s.fRecIndex ≤ inContinue.fRecCount) (h2 : s.siResult = eDSNoErr) (h3 : s.done = false) :
    expandLoop be w bk inContinue q buffSize inContext (fuel + 1) s
      = expandLoop be w bk inContinue q buffSize inContext fuel
          (expandOne be w bk inContinue q buffSize inContext s) := by
  simp [expandLoop, h1, h2, h3]

theorem expandOne_target_type (be : Bool) (w : Collaborators) (bk : Backends)
    (inContinue : sSearchContinueData) (q : Query) (buffSize : Nat)
    (inContext : sSearchContextData) (s : ExpandState)
    (pRecEntry : Record) (pAttrEntry : Attribute) (attrs : List Attribute)
    (data : List Nat) (values : List (List Nat)) (aliasType : List Nat)
    (hrec : dsGetRecordEntry inContinue.fDataBuff s.fRecIndex = .ok pRecEntry)
    (hattrs : pRecEntry.attrs = pAttrEntry :: attrs)
    (hsig : strcmpEq pAttrEntry.fAttributeSignature kDS1AttrAliasData = true)
    (hvalues : pAttrEntry.values = data :: values)
    (hstatus : (bk.cAlias data).status = eDSNoErr)
    (htype : (bk.cAlias data).recordType = .ok aliasType) :
    ((strcmpEq pRecEntry.recType kDSStdRecordTypeUserAliases
          && strcmpEq aliasType kDSStdRecordTypeUsers) = false →
        (strcmpEq pRecEntry.recType kDSStdRecordTypeGroupAliases
          && strcmpEq aliasType kDSStdRecordTypeGroups) = false →
        expandOne be w bk inContinue q buffSize inContext s
          = { s with fRecIndex := s.fRecIndex + 1, done := true, siResult := eDSInvalidIndex })
      ∧ (∀ pNameList pPathList pTypeList, (bk.cAlias data).recordName = .ok pNameList →
          (bk.cAlias data).recordLocation = .ok pPathList →
          (w.dsOpenDirNode pPathList).1 = eDSNoErr →
          ((strcmpEq pRecEntry.recType kDSStdRecordTypeUserAliases
                && strcmpEq aliasType kDSStdRecordTypeUsers) = true
              ∧ pTypeList = [kDSStdRecordTypeUsers])
            ∨ ((strcmpEq pRecEntry.recType kDSStdRecordTypeUserAliases
                && strcmpEq aliasType kDSStdRecordTypeUsers) = false
              ∧ (strcmpEq pRecEntry.recType kDSStdRecordTypeGroupAliases
                && strcmpEq aliasType kDSStdRecordTypeGroups) = true
              ∧ pTypeList = [kDSStdRecordTypeGroups]) →
          expandOne be w bk inContinue q buffSize inContext s
            = afterTargetQuery be inContinue q buffSize inContext
                { s with fRecIndex := s.fRecIndex + 1, done := true } pPathList
                (bk.dsGetRecordList (w.dsOpenDirNode pPathList).2 buffSize
                  { q with fInRecNameList := pNameList
                           fInRecTypeList := some pTypeList } 0 none)) := by
  have hne : ¬ (bk.cAlias data).status ≠ eDSNoErr := fun h => h hstatus
  refine ⟨?_, ?_⟩
  · intro hu hg
    simp only [expandOne, hrec, hattrs, hsig, hvalues, if_true, hne, if_false, htype, hu, hg,
      Bool.false_eq_true]
  · intro pNameList pPathList pTypeList hname hloc hopen hcase
    have hno : ¬ (w.dsOpenDirNode pPathList).1 ≠ eDSNoErr := fun h => h hopen
    rcases hcase with ⟨hu, ht⟩ | ⟨hu, hg, ht⟩
    · subst ht
      simp only [expandOne, hrec, hattrs, hsig, hvalues, if_true, hne, if_false, htype, hu, hname,
        hloc, hno, afterTargetQuery]
    · subst ht
      simp only [expandOne, hrec, hattrs, hsig, hvalues, if_true, hne, if_false, htype, hu, hg,
        Bool.false_eq_true, hname, hloc, hno, afterTargetQuery]

/-! ## The refresh of the node list after a policy switch -/

theorem setItemData_setItemData (c1 c2 : sSearchContextData) (ref : Nat) :
    ∀ l : List (Nat × sSearchContextData),
      setItemData (setItemData l ref c1) ref c2 = setItemData l ref c2 := by
  intro l
  induction l with
  | nil => rfl
  | cons e rest ih =>
    obtain ⟨r, c0⟩ := e
    by_cases hr : r = ref
    · simp [setItemData, hr]
    · simp [setItemData, hr, ih]

theorem dupSearchList_names : ∀ (l : List sSearchList) (b : Bool),
    (dupSearchList l b).map (fun n => n.fNodeName) = l.map (fun n => n.fNodeName)
  | [], _ => rfl
  | n :: rest, b => by
    unfold dupSearchList
    cases hn : n.fNodeName <;> simp [hn, dupSearchList_names rest]

theorem dupSearchList_unopened : ∀ (l : List sSearchList) (b : Bool),
    ∀ n ∈ dupSearchList l b, n.fOpened = false ∧ n.fNodeRef = 0
  | [], _ => by intro n hn; exact absurd hn (List.not_mem_nil _)
  | m :: rest, b => by
    intro n hn
    unfold dupSearchList at hn
    cases hm : m.fNodeName with
    | none =>
      simp only [hm, List.mem_cons] at hn
      rcases hn with rfl | hn
      · exact ⟨rfl, rfl⟩
      · exact dupSearchList_unopened rest _ n hn
    | some name =>
      simp only [hm, List.mem_cons] at hn
      rcases hn with rfl | hn
      · exact ⟨rfl, rfl⟩
      · exact dupSearchList_unopened rest _ n hn

/-! ## The indicator file of a policy switch -/

theorem SwitchSearchPolicy_indicator_some (w : Collaborators) (policy : Nat) (cfg : sSearchConfig)
    (c : CConfigs) (hc : cfg.pConfigFromXML = some c) :
    (SwitchSearchPolicy w policy cfg).indicator
        = some (if policy = kNetInfoSearchPolicy ∧ c.IsDHCPLDAPEnabled = true
                    ∧ GetDefaultLDAPPaths w ≠ [] then kCustomSearchPolicy else policy)
      ∧ (SwitchSearchPolicy w policy cfg).config.fSearchPolicy = policy
      ∧ (SwitchSearchPolicy w policy cfg).config.fSearchConfigKey = cfg.fSearchConfigKey
      ∧ (SwitchSearchPolicy w policy cfg).config.pConfigFromXML = some c := by
  unfold SwitchSearchPolicy
  simp only [hc, switch_base_eq, if_true, AddDefaultLDAPNodesLast_eq]
  refine ⟨?_, trivial, trivial, trivial⟩
  by_cases h1 : policy = kNetInfoSearchPolicy
  · by_cases he : c.IsDHCPLDAPEnabled = true
    · by_cases hl : GetDefaultLDAPPaths w = []
      · simp [h1, he, hl]
      · simp [h1, he, hl]
    · simp [h1, he]
  · simp [h1]

theorem SwitchSearchPolicy_ok_config (w : Collaborators) (policy : Nat) (cfg : sSearchConfig)
    (hok : (SwitchSearchPolicy w policy cfg).siResult = eDSNoErr) :
    ∃ c, SwitchSearchPolicy w policy cfg
        = SwitchSearchPolicy w policy { cfg with pConfigFromXML := some c } := by
  cases hx : cfg.pConfigFromXML with
  | some c =>
    refine ⟨c, ?_⟩
    have : cfg = { cfg with pConfigFromXML := some c } := by rw [← hx]
    rw [← this]
  | none =>
    refine ⟨w.newConfig.2, ?_⟩
    by_cases hn : w.newConfig.1 = eDSNoErr
    · unfold SwitchSearchPolicy
      simp only [hx, hn, ne_eq, not_true_eq_false, if_false]
    · exfalso
      unfold SwitchSearchPolicy at hok
      simp only [hx, ne_eq, hn, not_false_eq_true, if_true] at hok

/-! ## The loop of `GetRecordList`: passes that only count -/

theorem loopStep_Spins (be : Bool) (w : Collaborators) (bk : Backends) (inData : sGetRecordList)
    (s : LoopState) (h : s.Spins) (hb : s.pContinue.fID + 1 < U32) :
    loopStep be w bk inData s = s.withID (s.pContinue.fID + 1) := by
  obtain ⟨rs, ls, sr, rc, dn, pc, pf, ob, oc, io, kb, cx, cl, gc, nt, lk, dr⟩ := s
  obtain ⟨c1, c2, c3, c4, c5, c6, c7, c8, c9, c10, c11, c12, c13, c14⟩ := pc
  obtain ⟨hrun, hlast, hres, hdone, hid, hctx, hidx⟩ := h
  simp only at hrun hlast hres hdone hid hctx hidx hb
  subst hrun hlast hres hdone hctx
  have hfuel : c4 + 1 - c5 = 0 := by omega
  have hmod : add32 c14 1 = c14 + 1 := by unfold add32; exact Nat.mod_eq_of_lt hb
  have hgt : c14 + 1 > 5 := by omega
  simp only [loopStep, doTask, ExpandAliases, hfuel, expandLoop, hmod, changeState, if_true, hgt,
    ne_eq, not_true_eq_false, if_false, LoopState.withID]

theorem withID_Spins (s : LoopState) (n : Nat) (h : s.Spins) (hn : 5 ≤ n) : (s.withID n).Spins :=
  ⟨h.1, h.2.1, h.2.2.1, h.2.2.2.1, hn, h.2.2.2.2.2.1, h.2.2.2.2.2.2⟩

theorem passes_Spins (be : Bool) (w : Collaborators) (bk : Backends) (inData : sGetRecordList) :
    ∀ (n : Nat) (s : LoopState), s.Spins → s.pContinue.fID + n < U32 →
      passes be w bk inData n s = some (s.withID (s.pContinue.fID + n)) := by
  intro n
  induction n with
  | zero => intro s _ _; rfl
  | succ n ih =>
    intro s h hb
    have hstep := loopStep_Spins be w bk inData s h (by omega)
    have hnext := ih (s.withID (s.pContinue.fID + 1)) (withID_Spins s _ h (by have := h.2.2.2.2.1; omega))
      (by show s.pContinue.fID + 1 + n < U32; omega)
    simp only [passes, h.2.2.2.1, Bool.false_eq_true, if_false, hstep, hnext]
    have e : s.pContinue.fID + 1 + n = s.pContinue.fID + (n + 1) := by omega
    show some ((s.withID (s.pContinue.fID + 1)).withID (s.pContinue.fID + 1 + n)) = _
    rw [e]
    rfl

theorem runLoop_passes (be : Bool) (w : Collaborators) (bk : Backends) (inData : sGetRecordList) :
    ∀ (k : Nat) (s t : LoopState), passes be w bk inData k s = some t →
      ∀ fuel, runLoop be w bk inData (k + fuel) s = runLoop be w bk inData fuel t := by
  intro k
  induction k with
  | zero =>
    intro s t h fuel
    simp only [passes, Option.some.injEq] at h
    rw [h, Nat.zero_add]
  | succ k ih =>
    intro s t h fuel
    cases hd : s.done with
    | true => simp [passes, hd] at h
    | false =>
      simp only [passes, hd, Bool.false_eq_true, if_false] at h
      have e : k + 1 + fuel = (k + fuel) + 1 := by omega
      rw [e]
      simp only [runLoop, hd, Bool.false_eq_true, if_false]
      exact ih _ t h fuel

theorem runLoop_succ_of_some (be : Bool) (w : Collaborators) (bk : Backends)
    (inData : sGetRecordList) :
    ∀ (fuel : Nat) (s r : LoopState), runLoop be w bk inData fuel s = some r →
      runLoop be w bk inData (fuel + 1) s = some r := by
  intro fuel
  induction fuel with
  | zero =>
    intro s r h
    cases hd : s.done with
    | true => simpa [runLoop, hd] using h
    | false => simp [runLoop, hd] at h
  | succ fuel ih =>
    intro s r h
    cases hd : s.done with
    | true => simpa [runLoop, hd] using h
    | false =>
      simp only [runLoop, hd, Bool.false_eq_true, if_false] at h
      have := ih _ r h
      simp only [runLoop, hd, Bool.false_eq_true, if_false]
      exact this

theorem runLoop_none_of_le (be : Bool) (w : Collaborators) (bk : Backends)
    (inData : sGetRecordList) (s : LoopState) :
    ∀ (d fuel : Nat), runLoop be w bk inData (fuel + d) s = none →
      runLoop be w bk inData fuel s = none := by
  intro d
  induction d with
  | zero => intro fuel h; exact h
  | succ d ih =>
    intro fuel h
    apply ih
    cases hr : runLoop be w bk inData (fuel + d) s with
    | none => rfl
    | some r =>
      have := runLoop_succ_of_some be w bk inData (fuel + d) s r hr
      rw [show fuel + (d + 1) = fuel + d + 1 by omega] at h
      rw [h] at this
      exact absurd this (by simp)

/-! ## `GetNetInfoPaths`: the domains above the local node -/

theorem scanBack_le (s : List Nat) : ∀ n, scanBack s n ≤ n
  | 0 => Nat.le_refl 0
  | n + 1 => by
    unfold scanBack
    split_ifs
    · exact Nat.le_refl _
    · exact Nat.le_succ_of_le (scanBack_le s n)

theorem scanBack_lt (s : List Nat) (n : Nat) (hn : 0 < n) (h : s.getD n 0 ≠ 47) :
    scanBack s n < n := by
  cases n with
  | zero => exact absurd hn (Nat.lt_irrefl 0)
  | succ n =>
    unfold scanBack
    rw [if_neg h]
    exact Nat.lt_succ_of_le (scanBack_le s n)

theorem scanBack_eq (s : List Nat) (a : Nat) (ha : a = 0 ∨ s.getD a 0 = 47) :
    ∀ d, (∀ i, a < i → i ≤ a + d → s.getD i 0 ≠ 47) → scanBack s (a + d) = a
  | 0, _ => by
    cases a with
    | zero => rfl
    | succ a =>
      rcases ha with h | h
      · exact absurd h (Nat.succ_ne_zero a)
      · show scanBack s (a + 1) = a + 1
        unfold scanBack
        rw [if_pos h]
  | d + 1, h => by
    show scanBack s (a + d + 1) = a
    unfold scanBack
    rw [if_neg (h (a + d + 1) (by omega) (by omega))]
    exact scanBack_eq s a ha d (fun i h1 h2 => h i h1 (by omega))

theorem getD_append_cons (A B : List Nat) (x d : Nat) :
    (A ++ x :: B).getD A.length d = x
      ∧ ∀ j, (A ++ x :: B).getD (A.length + 1 + j) d = B.getD j d := by
  induction A with
  | nil =>
    refine ⟨rfl, fun j => ?_⟩
    have h : ([] : List Nat).length + 1 + j = j + 1 := by simp [Nat.add_comm]
    rw [h]
    rfl
  | cons a A ih =>
    refine ⟨ih.1, fun j => ?_⟩
    have h : (a :: A).length + 1 + j = (A.length + 1 + j) + 1 := by simp; omega
    rw [h]
    exact ih.2 j

theorem set_append_cons (A B : List Nat) (x y : Nat) :
    (A ++ x :: B).set A.length y = A ++ y :: B := by
  induction A with
  | nil => rfl
  | cons a A ih => simp [ih]

theorem cstr_append_zero (P rest : List Nat) (hP : ∀ b ∈ P, b ≠ 0)
    (hrest : rest = [] ∨ ∃ t, rest = 0 :: t) : cstr (P ++ rest) = P := by
  unfold cstr
  rw [List.takeWhile_append_of_pos (fun b hb => by simpa using hP b hb)]
  rcases hrest with h | ⟨t, h⟩
  · simp [h]
  · simp [h]

theorem netInfoRoot_bytes : ∀ b ∈ netInfoRoot, b ≠ 0 ∧ netInfoRoot.length = 13 := by decide

theorem netInfoPath_nonzero (comps : List (List Nat))
    (hcomps : ∀ c ∈ comps, ∀ b ∈ c, b ≠ 47 ∧ b ≠ 0) : ∀ b ∈ netInfoPath comps, b ≠ 0 := by
  intro b hb
  simp only [netInfoPath, List.mem_append, List.mem_flatMap, List.mem_cons] at hb
  rcases hb with hb | ⟨c, hc, hb | hb⟩
  · exact (netInfoRoot_bytes b hb).1
  · rw [hb]; decide
  · exact (hcomps c hc b hb).2

theorem netInfoPath_concat (pre : List (List Nat)) (c : List Nat) :
    netInfoPath (pre ++ [c]) = netInfoPath pre ++ 47 :: c := by
  simp [netInfoPath]

theorem netInfoPath_length (comps : List (List Nat)) : 13 ≤ (netInfoPath comps).length := by
  simp [netInfoPath, (netInfoRoot_bytes 47 (by decide)).2]

theorem netInfoPath_eq_root (comps : List (List Nat)) :
    netInfoPath comps = netInfoRoot ↔ comps = [] := by
  constructor
  · intro h
    cases comps with
    | nil => rfl
    | cons c cs =>
      have := congrArg List.length h
      simp [netInfoPath] at this
  · intro h; subst h; simp [netInfoPath]

theorem netInfoLoop_fuel (bFullPath bLocalIsRoot : Bool) :
    ∀ (n : Nat) (s : List Nat) (first : Bool) (fuel1 fuel2 : Nat), n < fuel1 → n < fuel2 →
      s.getD n 0 ≠ 47 →
      netInfoLoop bFullPath bLocalIsRoot fuel1 s n first
        = netInfoLoop bFullPath bLocalIsRoot fuel2 s n first := by
  intro n
  induction n using Nat.strong_induction_on with
  | _ n ih =>
    intro s first fuel1 fuel2 h1 h2 hs
    obtain ⟨f1, rfl⟩ : ∃ f, fuel1 = f + 1 := ⟨fuel1 - 1, by omega⟩
    obtain ⟨f2, rfl⟩ : ∃ f, fuel2 = f + 1 := ⟨fuel2 - 1, by omega⟩
    simp only [netInfoLoop]
    congr 1
    have hpos : scanBack s n ≠ 0 → scanBack s n < n := by
      intro h0
      rcases Nat.eq_zero_or_pos n with hn | hn
      · subst hn; exact absurd rfl h0
      · exact scanBack_lt s n hn hs
    by_cases hp : cstr s = netInfoRoot
    · simp [hp]
    · simp only [hp, ne_eq, not_false_eq_true, if_true]
      by_cases h47 : s.getD (scanBack s n) 0 = 47
      · simp only [h47, if_true]
        by_cases hc : ¬ scanBack s n = 0 ∧ bLocalIsRoot = false
        · rw [if_pos hc, if_pos hc]
          have hlt := hpos hc.1
          apply ih (scanBack s n) hlt
          · omega
          · omega
          · simp only [List.getD_eq_getElem?_getD, List.getElem?_set]
            split_ifs <;> simp
        · rw [if_neg hc, if_neg hc]
      · simp only [h47, if_false]
        by_cases hc : ¬ scanBack s n = 0 ∧ bLocalIsRoot = false
        · rw [if_pos hc, if_pos hc]
          have hlt := hpos hc.1
          apply ih (scanBack s n) hlt
          · omega
          · omega
          · exact h47
        · rw [if_neg hc, if_neg hc]

theorem netInfoLoop_spec (bFullPath bLocalIsRoot : Bool) :
    ∀ (cs : List (List Nat)), (∀ c ∈ cs, ∀ b ∈ c, b ≠ 47 ∧ b ≠ 0) →
      (bLocalIsRoot = false ∨ cs = []) →
      ∀ (fuel : Nat) (rest : List Nat) (first : Bool), cs.length < fuel →
        (rest = [] ∨ ∃ t, rest = 0 :: t) →
        netInfoLoop bFullPath bLocalIsRoot fuel (netInfoPath cs ++ rest) (netInfoPath cs).length first
          = (if first then localNode bFullPath (netInfoPath cs) else domainNode (netInfoPath cs))
            :: (List.range cs.length).reverse.map (fun j => domainNode (netInfoPath (cs.take j))) := by
  intro cs
  induction cs using List.reverseRecOn with
  | nil =>
    intro _ _ fuel rest first hfuel hrest
    obtain ⟨f, rfl⟩ : ∃ f, fuel = f + 1 := ⟨fuel - 1, by simp at hfuel; omega⟩
    have hc : cstr (netInfoPath [] ++ rest) = netInfoRoot := by
      rw [cstr_append_zero _ _ (netInfoPath_nonzero [] (by simp)) hrest]
      rfl
    simp only [netInfoLoop, hc, ne_eq, not_true_eq_false, if_false, false_and, List.length_nil,
      List.range_zero, List.reverse_nil, List.map_nil]
    cases first <;> simp [localNode, domainNode, netInfoPath]
  | append_singleton pre c ih =>
    intro hcs hroot fuel rest first hfuel hrest
    obtain ⟨f, rfl⟩ : ∃ f, fuel = f + 1 := ⟨fuel - 1, by omega⟩
    have hpre : ∀ c ∈ pre, ∀ b ∈ c, b ≠ 47 ∧ b ≠ 0 :=
      fun x hx => hcs x (List.mem_append_left _ hx)
    have hc47 : ∀ b ∈ c, b ≠ 47 ∧ b ≠ 0 := hcs c (by simp)
    have hflag : bLocalIsRoot = false := by
      rcases hroot with h | h
      · exact h
      · simp at h
    have hs : netInfoPath (pre ++ [c]) ++ rest = netInfoPath pre ++ 47 :: (c ++ rest) := by
      rw [netInfoPath_concat]; simp
    have hn : (netInfoPath (pre ++ [c])).length = (netInfoPath pre).length + (1 + c.length) := by
      rw [netInfoPath_concat]; simp; omega
    have hcstr : cstr (netInfoPath (pre ++ [c]) ++ rest) = netInfoPath (pre ++ [c]) :=
      cstr_append_zero _ _ (netInfoPath_nonzero _ hcs) hrest
    have hne : ¬ netInfoPath (pre ++ [c]) = netInfoRoot := by
      rw [netInfoPath_eq_root]; simp
    have hget := getD_append_cons (netInfoPath pre) (c ++ rest) 47 0
    have hscan : scanBack (netInfoPath pre ++ 47 :: (c ++ rest))
        ((netInfoPath pre).length + (1 + c.length)) = (netInfoPath pre).length := by
      apply scanBack_eq _ _ (Or.inr hget.1)
      intro i h1 h2
      obtain ⟨j, rfl⟩ : ∃ j, i = (netInfoPath pre).length + 1 + j :=
        ⟨i - (netInfoPath pre).length - 1, by omega⟩
      rw [hget.2 j]
      by_cases hj : j < c.length
      · rw [List.getD_append _ _ _ _ hj]
        have hmem : c.getD j 0 ∈ c := by
          rw [List.getD_eq_getElem _ _ hj]
          exact List.getElem_mem _
        exact (hc47 _ hmem).1
      · have hj2 : j = c.length := by omega
        rw [hj2, List.getD_append_right _ _ _ _ (Nat.le_refl _), Nat.sub_self]
        rcases hrest with h | ⟨t, h⟩ <;> simp [h]
    have hlen := netInfoPath_length pre
    have hn0 : ¬ (netInfoPath pre).length = 0 := by omega
    have hcstr2 : cstr (netInfoPath pre ++ 47 :: (c ++ rest)) = netInfoPath (pre ++ [c]) := by
      rw [← hs]; exact hcstr
    have step : netInfoLoop bFullPath bLocalIsRoot (f + 1) (netInfoPath pre ++ 47 :: (c ++ rest))
        ((netInfoPath pre).length + (1 + c.length)) first
        = (if first then localNode bFullPath (netInfoPath (pre ++ [c]))
           else domainNode (netInfoPath (pre ++ [c])))
          :: netInfoLoop bFullPath bLocalIsRoot f (netInfoPath pre ++ 0 :: (c ++ rest))
              (netInfoPath pre).length false := by
      simp only [netInfoLoop, hcstr2, ne_eq, hne, not_false_eq_true, if_true, hscan, hget.1,
        set_append_cons, hn0, hflag, and_self]
      cases first <;> simp [localNode, domainNode]
    have hih := ih hpre (Or.inl hflag) f (0 :: (c ++ rest)) false
      (by simp at hfuel; omega) (Or.inr ⟨_, rfl⟩)
    rw [hs, hn, step, hih]
    simp only [Bool.false_eq_true, if_false, List.length_append, List.length_singleton,
      List.range_succ, List.reverse_append, List.reverse_singleton, List.singleton_append,
      List.map_cons, List.take_left', List.cons.injEq, true_and]
    apply List.map_congr_left
    intro j hj
    simp only [List.mem_reverse, List.mem_range] at hj
    rw [List.take_append_of_le_length (Nat.le_of_lt hj)]

theorem flatMap_length_ge (comps : List (List Nat)) :
    comps.length ≤ (comps.flatMap (fun c => 47 :: c)).length := by
  induction comps with
  | nil => simp
  | cons c cs ih => simp only [List.flatMap_cons, List.length_append, List.length_cons]; omega

theorem GetNetInfoPaths_of_path (w : Collaborators) (bFullPath : Bool)
    (localNodeName : Option (List Nat)) (comps : List (List Nat))
    (hcomps : ∀ c ∈ comps, ∀ b ∈ c, b ≠ 47 ∧ b ≠ 0)
    (hpath : localNodeName = some (netInfoPath comps)
      ∨ (localNodeName = none ∧ w.discoverLocal = .ok (netInfoPath comps))) :
    GetNetInfoPaths w bFullPath localNodeName
      = localNode bFullPath (netInfoPath comps)
        :: (List.range comps.length).reverse.map (fun j => domainNode (netInfoPath (comps.take j))) := by
  have hc : cstr (netInfoPath comps) = netInfoPath comps :=
    cstr_of_IsCStr (netInfoPath_nonzero comps hcomps)
  have htake : (netInfoPath comps).take 13 = netInfoRoot := by
    have h13 : 13 = netInfoRoot.length := by decide
    rw [h13]
    simp [netInfoPath]
  have hflag : decide (netInfoPath comps = netInfoRoot) = false ∨ comps = [] := by
    cases comps with
    | nil => exact Or.inr rfl
    | cons c cs =>
      left
      rw [decide_eq_false_iff_not, netInfoPath_eq_root]
      simp
  have hfuel : comps.length < (netInfoPath comps).length + 1 := by
    have := flatMap_length_ge comps
    simp only [netInfoPath, List.length_append]
    omega
  have hloop := netInfoLoop_spec bFullPath (decide (netInfoPath comps = netInfoRoot)) comps hcomps
    hflag ((netInfoPath comps).length + 1) [] true hfuel (Or.inl rfl)
  rw [List.append_nil] at hloop
  rcases hpath with h | ⟨h1, h2⟩
  · subst h
    unfold GetNetInfoPaths
    simp only [hc, htake, if_true, hloop]
    simp
  · subst h1
    unfold GetNetInfoPaths
    simp only [h2, hc, htake, if_true, hloop]
    simp

/-! ## The change of state after the fetch from a node -/

/-- C21: a pass of the loop of `GetRecordList` in the state `keGetRecordList`, with
`reply` the answer of the backend node to `dsGetRecordList`. Success with at least
one record leads to `keAddDataToBuff`. Success with no record and no continue data
of the node, and each of the errors `eDSRecordNotFound`, `eDSInvalidRecordName` and
`eDSInvalidRecordType`, leads to `keGetAliases` when alias types are registered
(`fAliasList` is set) and to `keGetNextNodeRef` otherwise. Every other error but
`eDSBufferTooSmall` leads to `keGetNextNodeRef`. -/
theorem fetch_state_transitions (be : Bool) (w : Collaborators) (bk : Backends)
    (inData : sGetRecordList) (s : LoopState) (hrun : s.runState = keGetRecordList) :
    let reply := bk.dsGetRecordList s.pContinue.fNodeRef
      ((s.pContinue.fDataBuff.map (fun b => b.fBufferSize)).getD 0) inData.query
      (askCount s.pContinue) s.pContinue.fContextData
    let next := (loopStep be w bk inData s).runState
    (reply.siResult = eDSNoErr → reply.recCount ≠ 0 → next = keAddDataToBuff)
      ∧ ((reply.siResult = eDSNoErr ∧ reply.recCount = 0 ∧ reply.fContextData = none)
            ∨ reply.siResult = eDSRecordNotFound ∨ reply.siResult = eDSInvalidRecordName
            ∨ reply.siResult = eDSInvalidRecordType →
          next = if s.pContinue.fAliasList ≠ none then keGetAliases else keGetNextNodeRef)
      ∧ (reply.siResult ≠ eDSNoErr → reply.siResult ≠ eDSRecordNotFound →
          reply.siResult ≠ eDSInvalidRecordName → reply.siResult ≠ eDSInvalidRecordType →
          reply.siResult ≠ eDSBufferTooSmall → next = keGetNextNodeRef) := by
  intro reply next
  have hnext : next = (changeState (doTask be w bk inData s)).runState := rfl
  refine ⟨?_, ?_, ?_⟩
  · intro h0 hc
    simp only [hnext, doTask, hrun, changeState]
    rw [if_pos h0, if_pos hc]
  · intro h
    simp only [hnext, doTask, hrun, changeState, aliasesOrNextNode]
    rcases h with ⟨h0, hc, hx⟩ | h | h | h
    · have hc' : ¬ reply.recCount ≠ 0 := fun x => x hc
      rw [if_pos h0, if_neg hc', if_pos hx]
    · have h0 : ¬ reply.siResult = eDSNoErr := by rw [h]; decide
      rw [if_neg h0, if_pos (Or.inl h)]
    · have h0 : ¬ reply.siResult = eDSNoErr := by rw [h]; decide
      rw [if_neg h0, if_pos (Or.inr (Or.inl h))]
    · have h0 : ¬ reply.siResult = eDSNoErr := by rw [h]; decide
      rw [if_neg h0, if_pos (Or.inr (Or.inr h))]
  · intro h0 h1 h2 h3 h4
    simp only [hnext, doTask, hrun, changeState]
    have h123 : ¬ (reply.siResult = eDSRecordNotFound ∨ reply.siResult = eDSInvalidRecordName
        ∨ reply.siResult = eDSInvalidRecordType) := by
      rintro (h | h | h)
      · exact h1 h
      · exact h2 h
      · exact h3 h
    rw [if_neg h0, if_neg h123, if_neg h4]

/-- C21, at an input: the local node of the scenario answers the request for user
records with three records, and the loop goes on to `keAddDataToBuff`. -/
theorem fetch_state_transitions_witness :
    (loopStep true Scenario.world Scenario.backends (Scenario.request 512 none)
      Scenario.fetching).runState = keAddDataToBuff :=
  (fetch_state_transitions true Scenario.world Scenario.backends (Scenario.request 512 none)
    Scenario.fetching rfl).1 (by decide) (by decide)

/-! ## A backend buffer that is too small -/

set_option maxRecDepth 100000 in
/-- C22, the code at the failing input: the local node of the scenario holds three
user records and answers `eDSBufferTooSmall`, with no continue data, when not one of
them fits the buffer it is given. The first call, with a buffer of 50 bytes, returns
`eDSBufferTooSmall` and the token 1, whose continue data hold the state
`keAddDataToBuff`, not `keGetRecordList`. The call with the token and a buffer of
512 bytes does not ask the node again: it returns `eDSNoErr` with no record and no
token, although the same request without a token returns the three records into a
buffer of that size. -/
theorem backend_buffer_too_small_resumes_in_add_data :
    Scenario.seen true
        (GetRecordList true Scenario.world Scenario.sizedBackends 1 8 Scenario.opened
          (Scenario.request 50 none))
        = some (eDSBufferTooSmall, 0, some 1, some [])
      ∧ Scenario.resumesAt
          (GetRecordList true Scenario.world Scenario.sizedBackends 1 8 Scenario.opened
            (Scenario.request 50 none))
        = some (some (keAddDataToBuff, 1, []))
      ∧ Scenario.seen true
          (Scenario.resume true Scenario.world Scenario.sizedBackends 512
            (GetRecordList true Scenario.world Scenario.sizedBackends 1 8 Scenario.opened
              (Scenario.request 50 none)))
        = some (eDSNoErr, 0, none, some [])
      ∧ Scenario.seen true
          (GetRecordList true Scenario.world Scenario.sizedBackends 1 8 Scenario.opened
            (Scenario.request 512 none))
        = some (eDSNoErr, 3, none,
            some [.ok (bytesOf "amy"), .ok (bytesOf "bob"), .ok (bytesOf "cyd")]) :=
  ⟨rfl, rfl, rfl, rfl⟩

/-! ## The next node of the search path -/

/-- C25, a counterexample: under the Automatic policy with a default LDAP path the
node list of the reference is the local node followed by the LDAP node. When
`GetNextNodeRef` advances from the local node, the list has a second entry, and the
parent of the local node is probed all the same, because the name of the second
entry does not begin with `/NetInfo`. -/
theorem reprobe_with_second_entry :
    Scenario.automaticContext.fSearchNodeList.map (fun n => (n.fNodeName, n.fNodeRef))
        = [(some kstrDefaultLocalNodeName, Scenario.localRef),
           (some (bytesOf "/LDAPv3/ldap.example.com"), 0)]
      ∧ Scenario.automaticContext.bAutoSearchList = true
      ∧ (GetNextNodeRef Scenario.ldapWorld [Scenario.automaticSwitch.config] Scenario.localRef
          Scenario.automaticContext).probed = true :=
  ⟨rfl, rfl, rfl⟩

/-- C25, amended: `GetNextNodeRef` probes for a parent of the local node exactly
when the place it advances to is the second one (`nodeIndex` is 1 after the search
for the current node), the list is the one of the Automatic policy, and either there
is no second entry or the second entry has a name that does not begin with
`/NetInfo`. A second entry whose name begins with `/NetInfo`, or which has no name,
keeps it from probing. `nodeIndex` is 1 when the current node is the first entry of
the list. -/
theorem reprobe_iff (w : Collaborators) (configs : List sSearchConfig) (inNodeRef : Nat)
    (c : sSearchContextData) :
    ((GetNextNodeRef w configs inNodeRef c).probed = true ↔
        (inNodeRef ≠ 0 ∧ findAfter c.fSearchNodeList inNodeRef 0 = 1)
          ∧ c.bAutoSearchList = true
          ∧ (c.fSearchNodeList.drop 1 = []
              ∨ ∃ n rest name, c.fSearchNodeList.drop 1 = n :: rest ∧ n.fNodeName = some name
                  ∧ (cstr name).take 8 ≠ bytesOf "/NetInfo"))
      ∧ (∀ n rest, c.fSearchNodeList = n :: rest → n.fNodeRef = inNodeRef →
          findAfter c.fSearchNodeList inNodeRef 0 = 1) := by
  constructor
  · rw [GetNextNodeRef_probed, Bool.and_eq_true, decide_eq_true_eq, bRecheckNI_iff]
    by_cases h0 : inNodeRef = 0
    · simp [h0]
    · simp only [ne_eq, h0, not_false_eq_true, if_true, true_and]
      constructor
      · rintro ⟨h1, h2⟩
        rw [h1] at h2
        exact ⟨h1, h2⟩
      · rintro ⟨h1, h2⟩
        refine ⟨h1, ?_⟩
        rw [h1]
        exact h2
  · intro n rest hl hn
    rw [hl]
    simp [findAfter, hn]

/-! ## The type of the record an alias points to -/

set_option maxRecDepth 100000 in
/-- C27, a counterexample: a reference to the Network search node got a token from a
first call, and a policy switch set `bListChanged` in its context. The next call
with no token returns a record, but the node list of the reference is not replaced
(its entry is still marked open with the reference 101), `bListChanged` is still set,
and the token 1 is still registered against the reference. -/
theorem list_changed_network_not_refreshed :
    Scenario.networkListChanged.map (fun s =>
        ((GetItemData s.gSNNodeRef Scenario.clientRef).map (fun c =>
          (c.bListChanged, c.fSearchConfigKey, c.fSearchNodeList.map (fun n => (n.fOpened, n.fNodeRef)))),
         s.gSNContinue.map (fun e => (e.1, e.2.1))))
      = some (some (true, ConfigKey.eDSNetworkSearchNodeName, [(true, 101)]), [(1, 7)])
    ∧ Scenario.seen true Scenario.networkNewQuery
      = some (eDSNoErr, 1, some 2, some [.ok (bytesOf "amy")])
    ∧ Scenario.leftBehind Scenario.networkNewQuery
      = some (some (true, [(true, 101)]), [(1, 7), (2, 7)]) :=
  ⟨rfl, rfl, rfl⟩

/-- C27, amended: the reference is registered with the context `c` of a node
reference whose key is not the one of the Network search node, `bListChanged` is set
in `c`, the config `cfg` of its key is in the list, and the request carries no
token. Let `fresh` be `c` with the copy `DupSearchListWithNewRefs` of the list of
`cfg` as node list, `bAutoSearchList` telling whether the policy of `cfg` is the
Automatic one, and `bListChanged` cleared; and let `refreshed` be the shared state
with `fresh` registered under the reference and with no token registered against
it. Then `GetRecordList` does on the state what it does on `refreshed`, and
`AttributeValueSearch` goes on with `fresh` and the table of `refreshed` when the
list of `cfg` is not empty. The node list of `fresh` has the names of the list of
`cfg` in their order, and every entry of it is unopened with the reference 0. -/
theorem list_changed_refresh (be : Bool) (w : Collaborators) (bk : Backends)
    (fDirRef fuel : Nat) (st : SearchNodeState) (inData : sGetRecordList)
    (inSearch : sDoAttrValueSearchWithData) (c : sSearchContextData) (cfg : sSearchConfig)
    (hc : GetItemData st.gSNNodeRef inData.fInNodeRef = some c) (hm : c.pSearchListMutex = true)
    (hchanged : c.bListChanged = true)
    (hk : c.fSearchConfigKey ≠ ConfigKey.eDSNetworkSearchNodeName)
    (hf : FindSearchConfigWithKey st.pSearchConfigList c.fSearchConfigKey = some cfg)
    (ht : inData.fIOContinueData = none)
    (h1 : inSearch.fInNodeRef = inData.fInNodeRef) (h2 : inSearch.fIOContinueData = none) :
    let fresh : sSearchContextData :=
      { c with fSearchNodeList := DupSearchListWithNewRefs cfg.fSearchNodeList
               bAutoSearchList := decide (cfg.fSearchPolicy = kNetInfoSearchPolicy)
               bListChanged := false }
    let refreshed : SearchNodeState :=
      { st with gSNNodeRef := setItemData st.gSNNodeRef inData.fInNodeRef fresh
                gSNContinue := RemoveItems st.gSNContinue inData.fInNodeRef }
    GetRecordList be w bk fDirRef fuel st inData = GetRecordList be w bk fDirRef fuel refreshed inData
      ∧ (cfg.fSearchNodeList ≠ [] →
          AttributeValueSearch_start st inSearch
            = .ok (fresh,
                { st with
                  gSNContinue := RemoveItems st.gSNContinue inData.fInNodeRef
                  locks := st.locks ++
                    [LockEvent.Wait Mutex.fMutex,
                     LockEvent.Wait (Mutex.pSearchListMutex inData.fInNodeRef),
                     LockEvent.Wait Mutex.fMutex, LockEvent.Signal Mutex.fMutex,
                     LockEvent.Signal Mutex.fMutex] }))
      ∧ fresh.fSearchNodeList.map (fun n => n.fNodeName)
          = cfg.fSearchNodeList.map (fun n => n.fNodeName)
      ∧ (∀ n ∈ fresh.fSearchNodeList, n.fOpened = false ∧ n.fNodeRef = 0)
      ∧ (∀ e ∈ refreshed.gSNContinue, e.2.1 ≠ inData.fInNodeRef) := by
  obtain ⟨l0, chg, mtx, auto, off, key⟩ := c
  simp only at hm hchanged hk hf
  subst hm hchanged
  intro fresh refreshed
  have hget : GetItemData refreshed.gSNNodeRef inData.fInNodeRef = some fresh :=
    GetItemData_setItemData _ _ _ (by rw [hc]; simp)
  have hmf : fresh.pSearchListMutex = true := rfl
  have hcf : fresh.bListChanged = false := rfl
  have hkf : fresh.fSearchConfigKey = key := rfl
  have hff : FindSearchConfigWithKey refreshed.pSearchConfigList key = some cfg := hf
  have hauto : (if cfg.fSearchPolicy = kNetInfoSearchPolicy then true else false)
      = decide (cfg.fSearchPolicy = kNetInfoSearchPolicy) := by
    by_cases h : cfg.fSearchPolicy = kNetInfoSearchPolicy <;> simp [h]
  refine ⟨?_, ?_, ?_, ?_, ?_⟩
  · unfold GetRecordList
    simp only [hc, hf, hk, ht, hget, hmf, hcf, hkf, hff, hauto, Bool.true_eq_false,
      if_false, ne_eq, not_false_eq_true, decide_True, Bool.and_self, not_true_eq_false,
      decide_False, Bool.and_false, Bool.false_and, if_true, Bool.false_eq_true,
      catchGetRecordList, setItemData_setItemData]
  · intro hne
    have hdup : DupSearchListWithNewRefs cfg.fSearchNodeList ≠ [] := by
      intro h0
      have := congrArg List.length h0
      simp only [DupSearchListWithNewRefs, dupSearchList_length, List.length_nil] at this
      exact hne (List.length_eq_zero.mp this)
    unfold AttributeValueSearch_start
    simp only [h1, h2, hc, hf, hk, hauto, Bool.true_eq_false, if_false, ne_eq,
      not_false_eq_true, decide_True, Bool.and_self, not_true_eq_false, decide_False,
      Bool.and_false, if_true, Bool.false_eq_true, hdup, List.append_assoc, List.cons_append,
      List.nil_append]
  · exact dupSearchList_names _ _
  · exact dupSearchList_unopened _ _
  · intro e he
    simp only [refreshed, RemoveItems, List.mem_filter, bne_iff_ne, ne_eq] at he
    exact he.2

set_option maxRecDepth 100000 in
/-- C27, at an input: the reference of the scenario to the Authentication search
node got the token 1 from a first call, and a policy switch followed. The call with
no token does what it does on a reference that is newly opened and has no token. -/
theorem list_changed_refresh_witness :
    GetRecordList true Scenario.world Scenario.sizedBackends 1 8 Scenario.afterFirstCall.listChanged
        (Scenario.request 100 none)
      = GetRecordList true Scenario.world Scenario.sizedBackends 1 8 Scenario.reopened
          (Scenario.request 100 none)
    ∧ Scenario.afterFirstCall.gSNContinue.map (fun e => (e.1, e.2.1)) = [(1, 7)]
    ∧ Scenario.reopened.gSNContinue = [] :=
  ⟨(list_changed_refresh true Scenario.world Scenario.sizedBackends 1 8
      Scenario.afterFirstCall.listChanged (Scenario.request 100 none)
      (Scenario.searchRequest Scenario.clientRef none)
      ((GetItemData Scenario.afterFirstCall.listChanged.gSNNodeRef Scenario.clientRef).getD
        MakeContextData)
      Scenario.localOnlyConfig rfl rfl rfl (by decide) rfl rfl rfl rfl).1, rfl, rfl⟩

/-! ## The indicator file of the search policy -/

/-- C29, a counterexample: the configuration enables the default LDAP paths and DHCP
delivers one. The switch of the Authentication search node to the Automatic policy
succeeds and the config records the policy 1, but the indicator file that is left is
`.DSRunningSP3`, the one of the Custom policy. -/
theorem automatic_switch_marks_custom :
    Scenario.automaticSwitch.siResult = eDSNoErr
      ∧ Scenario.automaticSwitch.config.fSearchConfigKey = ConfigKey.eDSAuthenticationSearchNodeName
      ∧ Scenario.automaticSwitch.config.fSearchPolicy = kNetInfoSearchPolicy
      ∧ Scenario.automaticSwitch.files { sp1 := true, sp2 := false, sp3 := false }
          = { sp1 := false, sp2 := false, sp3 := true } := by
  refine ⟨?_, ?_, ?_, ?_⟩ <;> decide

/-- C29, amended: after a call of `SwitchSearchPolicy` that returns `eDSNoErr` the
config records the policy asked for. On the Authentication search node exactly one
of the three indicator files is left: `.DSRunningSP3` when the policy is the Custom
one, and also when it is the Automatic one and default LDAP nodes were added (the
configuration enables them and there is at least one); otherwise `.DSRunningSP2`
when the policy is the LocalOnly one, and `.DSRunningSP1` in every other case. On a
search node with another key the files are left as they were. -/
theorem indicator_file_after_switch (w : Collaborators) (policy : Nat) (cfg : sSearchConfig)
    (f : IndicatorFiles) (hok : (SwitchSearchPolicy w policy cfg).siResult = eDSNoErr) :
    (SwitchSearchPolicy w policy cfg).config.fSearchPolicy = policy
      ∧ (cfg.fSearchConfigKey = ConfigKey.eDSAuthenticationSearchNodeName →
          (SwitchSearchPolicy w policy cfg).files f
            = if policy = kCustomSearchPolicy
                  ∨ (policy = kNetInfoSearchPolicy
                      ∧ (match (SwitchSearchPolicy w policy cfg).config.pConfigFromXML with
                         | some x => x.IsDHCPLDAPEnabled
                         | none => true) = true
                      ∧ GetDefaultLDAPPaths w ≠ []) then
                { sp1 := false, sp2 := false, sp3 := true }
              else if policy = kLocalSearchPolicy then { sp1 := false, sp2 := true, sp3 := false }
              else { sp1 := true, sp2 := false, sp3 := false })
      ∧ (cfg.fSearchConfigKey ≠ ConfigKey.eDSAuthenticationSearchNodeName →
          (SwitchSearchPolicy w policy cfg).files f = f) := by
  obtain ⟨c, hc⟩ := SwitchSearchPolicy_ok_config w policy cfg hok
  obtain ⟨hi, hp, hk, hx⟩ := SwitchSearchPolicy_indicator_some w policy
    { cfg with pConfigFromXML := some c } c rfl
  rw [← hc] at hi hp hk hx
  have hk2 : (SwitchSearchPolicy w policy cfg).config.fSearchConfigKey = cfg.fSearchConfigKey := hk
  have hremove : ∀ g : IndicatorFiles,
      RemoveSearchPolicyIndicatorFile g = { sp1 := false, sp2 := false, sp3 := false } := by
    rintro ⟨a, b, d⟩
    cases a <;> cases b <;> cases d <;> rfl
  refine ⟨hp, ?_, ?_⟩
  · intro hauth
    simp only [SwitchResult.files, hi, hk2, hauth, SetSearchPolicyIndicatorFile, if_true, hremove, hx]
    by_cases h3 : policy = kCustomSearchPolicy
    · have h1 : ¬ policy = kNetInfoSearchPolicy := by rw [h3]; decide
      simp [h3, h1, kCustomSearchPolicy]
    · by_cases h1 : policy = kNetInfoSearchPolicy
      · by_cases hl : c.IsDHCPLDAPEnabled = true ∧ GetDefaultLDAPPaths w ≠ []
        · simp [h1, hl, kCustomSearchPolicy, kNetInfoSearchPolicy]
        · have hl2 : ¬ (policy = kNetInfoSearchPolicy ∧ c.IsDHCPLDAPEnabled = true
              ∧ GetDefaultLDAPPaths w ≠ []) := fun h => hl h.2
          rw [if_neg hl2]
          have h2 : ¬ policy = kLocalSearchPolicy := by rw [h1]; decide
          have hl3 : ¬ (policy = kCustomSearchPolicy ∨ (policy = kNetInfoSearchPolicy
              ∧ c.IsDHCPLDAPEnabled = true ∧ GetDefaultLDAPPaths w ≠ [])) := by
            rintro (h | h)
            · exact h3 h
            · exact hl2 h
          rw [if_neg hl3, if_neg h2]
          simp [h1, kNetInfoSearchPolicy]
      · have hl2 : ¬ (policy = kNetInfoSearchPolicy ∧ c.IsDHCPLDAPEnabled = true
              ∧ GetDefaultLDAPPaths w ≠ []) := fun h => h1 h.1
        have hl3 : ¬ (policy = kCustomSearchPolicy ∨ (policy = kNetInfoSearchPolicy
              ∧ c.IsDHCPLDAPEnabled = true ∧ GetDefaultLDAPPaths w ≠ [])) := by
          rintro (h | h)
          · exact h3 h
          · exact hl2 h
        rw [if_neg hl2, if_neg hl3]
        have h3' : ¬ policy = 3 := h3
        simp only [h3', if_false]
        by_cases h2 : policy = kLocalSearchPolicy
        · simp [h2, kLocalSearchPolicy]
        · have h2' : ¬ policy = 2 := h2
          simp [h2, h2']
  · intro hother
    simp only [SwitchResult.files, hi, hk2, SetSearchPolicyIndicatorFile, hother, if_false]

/-- C29, at an input: the switch of the Authentication search node of the scenario to
the LocalOnly policy leaves `.DSRunningSP2` and removes `.DSRunningSP1`. -/
theorem indicator_file_after_switch_witness :
    (SwitchSearchPolicy Scenario.world kLocalSearchPolicy Scenario.baseConfig).files
        { sp1 := true, sp2 := false, sp3 := false }
      = { sp1 := false, sp2 := true, sp3 := false } :=
  (indicator_file_after_switch Scenario.world kLocalSearchPolicy Scenario.baseConfig
    { sp1 := true, sp2 := false, sp3 := false } (by decide)).2.1 rfl

/-! ## The calls on the mutexes -/

set_option maxRecDepth 100000 in
/-- C30, the code at the failing inputs. A query on a reference to the Network search
node whose node list is empty throws `eSearchPathNotDefined` after `fMutex` was
signalled (line 2322), and the `catch` signals `fMutex` once more: `fMutex` is waited
for twice and signalled three times. A query under the Automatic policy that
advances from the local node once the parent domain can be reached waits for
`fMutex` in `GetNextNodeRef` (line 4090) while the mutex of the reference is held
and `fMutex` is not. A query that meets neither makes calls that are balanced and in
order. -/
theorem GetRecordList_lock_discipline :
    (GetRecordList true noNetworkNodes Scenario.backends 1 8 Scenario.openedEmptyNetwork
        (Scenario.request 512 none)).map (fun r => (r.siResult, r.state.locks))
      = some (eSearchPathNotDefined,
          [LockEvent.Wait Mutex.fMutex, LockEvent.Wait (Mutex.pSearchListMutex 7),
           LockEvent.Wait Mutex.fMutex, LockEvent.Signal Mutex.fMutex,
           LockEvent.Signal Mutex.fMutex, LockEvent.Signal Mutex.fMutex,
           LockEvent.Signal (Mutex.pSearchListMutex 7)])
    ∧ (GetRecordList true noNetworkNodes Scenario.backends 1 8 Scenario.openedEmptyNetwork
        (Scenario.request 512 none)).map (fun r => releasesWhatItAcquires r.state.locks)
      = some false
    ∧ (GetRecordList true Scenario.parentWorld Scenario.backends 1 20 Scenario.openedStandalone
        (Scenario.request 512 none)).map (fun r => (r.siResult, r.state.locks))
      = some (eDSNoErr,
          [LockEvent.Wait Mutex.fMutex, LockEvent.Wait (Mutex.pSearchListMutex 7),
           LockEvent.Wait Mutex.fMutex, LockEvent.Signal Mutex.fMutex,
           LockEvent.Signal Mutex.fMutex,
           LockEvent.Wait Mutex.fMutex, LockEvent.Wait Mutex.fMutex,
           LockEvent.Signal Mutex.fMutex, LockEvent.Signal Mutex.fMutex,
           LockEvent.Signal (Mutex.pSearchListMutex 7)])
    ∧ (GetRecordList true Scenario.parentWorld Scenario.backends 1 20 Scenario.openedStandalone
        (Scenario.request 512 none)).map (fun r => globalMutexFirst r.state.locks 0 0)
      = some false
    ∧ (GetRecordList true Scenario.world Scenario.backends 1 20 Scenario.opened
        (Scenario.request 512 none)).map
          (fun r => (releasesWhatItAcquires r.state.locks, globalMutexFirst r.state.locks 0 0))
      = some (true, true) :=
  ⟨rfl, rfl, rfl, rfl, rfl⟩

/-! ## The guard on the expansion of aliases -/

/-- C28: the true path of the local node is `/NetInfo/root/c1/.../ck`, the components
`c1` to `ck` holding neither a `/` nor a zero byte (`k` may be 0); it is the name
passed in or, when none is passed, the path found for the local node.
`GetNetInfoPaths` returns `k + 1` nodes: the local node first, then the domains
above it from its parent upward, each with the path that is left when the last
component is cut off, `/NetInfo/root` being the last of them when `k` is at least 1.
And the loop that cuts off the components ends within the passes it is given: for
every path string, the ones that begin with `/NetInfo/root` among them, more passes
do not change what it returns. -/
theorem GetNetInfoPaths_hierarchy (w : Collaborators) (bFullPath : Bool)
    (localNodeName : Option (List Nat)) (comps : List (List Nat))
    (hcomps : ∀ c ∈ comps, ∀ b ∈ c, b ≠ 47 ∧ b ≠ 0)
    (hpath : localNodeName = some (netInfoPath comps)
      ∨ (localNodeName = none ∧ w.discoverLocal = .ok (netInfoPath comps))) :
    GetNetInfoPaths w bFullPath localNodeName
        = localNode bFullPath (netInfoPath comps)
          :: (List.range comps.length).reverse.map
              (fun j => domainNode (netInfoPath (comps.take j)))
      ∧ (GetNetInfoPaths w bFullPath localNodeName).length = comps.length + 1
      ∧ (comps ≠ [] →
          (GetNetInfoPaths w bFullPath localNodeName).getLast? = some (domainNode netInfoRoot))
      ∧ (∀ (s : List Nat) (bLocalIsRoot : Bool) (extra : Nat),
          netInfoLoop bFullPath bLocalIsRoot ((cstr s).length + 1 + extra) (cstr s)
              (cstr s).length true
            = netInfoLoop bFullPath bLocalIsRoot ((cstr s).length + 1) (cstr s)
                (cstr s).length true) := by
  have h := GetNetInfoPaths_of_path w bFullPath localNodeName comps hcomps hpath
  refine ⟨h, ?_, ?_, ?_⟩
  · rw [h]; simp
  · intro hne
    rw [h]
    cases comps with
    | nil => exact absurd rfl hne
    | cons c cs =>
      simp only [List.length_cons, List.range_succ_eq_map, List.reverse_cons, List.map_append,
        List.map_cons, List.map_nil, List.take_zero]
      rw [← List.cons_append, List.getLast?_append]
      simp [netInfoPath]
  · intro s bLocalIsRoot extra
    apply netInfoLoop_fuel
    · omega
    · omega
    · simp [List.getD_eq_getElem?_getD]

/-- C28, at an input: for the local node `/NetInfo/root/dept/lab` the nodes are the
local node, `/NetInfo/root/dept` and `/NetInfo/root`. -/
theorem GetNetInfoPaths_hierarchy_witness :
    GetNetInfoPaths Scenario.world false (some (bytesOf "/NetInfo/root/dept/lab"))
      = [localNode false (bytesOf "/NetInfo/root/dept/lab"),
         domainNode (bytesOf "/NetInfo/root/dept"), domainNode (bytesOf "/NetInfo/root")] :=
  (GetNetInfoPaths_hierarchy Scenario.world false (some (bytesOf "/NetInfo/root/dept/lab"))
    [bytesOf "dept", bytesOf "lab"] (by decide) (Or.inl rfl)).1

end DirectoryService
